import Mathlib

/-!
Verification of the dataset bookkeeping core of `l5kit` (`l5kit/data/zarr_utils.py`):
the Range Accountant (`_get_num_els_in_scene_range`), the Subset Copier
(`_append_zarr_subset`), the Concatenator (`zarr_concat`) and the Splitter
(`zarr_split`) over a shallow embedding of the four-level chunked dataset
(scenes → frames → agents / traffic-light faces, linked by half-open index
intervals).  Interval bounds are int64 values in the source; they are embedded
as `Int` (magnitudes are bounded by in-memory sequence lengths, so 64-bit
overflow is unreachable in every verified scenario).
-/

namespace L5

/-- Scene record (spec §3): host, start/end time, and a half-open index
interval into the frame sequence (`frame_index_interval`). -/
structure Scene where
  host : String
  start_time : Int
  end_time : Int
  frame_index_interval : Int × Int
deriving DecidableEq

/-- Frame record (spec §3).  The float64 ego-pose payloads are never
interpreted by `zarr_utils` (they are only relocated byte-for-byte), so their
bit patterns are embedded as opaque integer lists. -/
structure Frame where
  timestamp : Int
  ego_translation : List Int
  ego_rotation : List Int
  agent_index_interval : Int × Int
  traffic_light_faces_index_interval : Int × Int
deriving DecidableEq

/-- Agent record (spec §3): opaque fixed-size payload, never interpreted by
the core, only relocated. -/
structure Agent where
  payload : Int
deriving DecidableEq

/-- Traffic-light-face record (spec §3): opaque fixed-size payload. -/
structure TlFace where
  payload : Int
deriving DecidableEq

/-- Modelled from the spec (§4.1 Dataset Handle): an opened `ChunkedDataset`
exposes four ordered columnar record sequences.  The storage engine itself
(`l5kit/data/zarr_dataset.py`) is not among the verified sources; only the
sequence contents matter to `zarr_utils`. -/
structure ChunkedDataset where
  scenes : List Scene
  frames : List Frame
  agents : List Agent
  tl_faces : List TlFace
deriving DecidableEq

/-- Default scene record (stands for uninitialized storage contents). -/
def dScene : Scene := ⟨"", 0, 0, (0, 0)⟩

/-- Default frame record. -/
def dFrame : Frame := ⟨0, [], [], (0, 0), (0, 0)⟩

/-- Default agent record. -/
def dAgent : Agent := ⟨0⟩

/-- Default traffic-light-face record. -/
def dTlFace : TlFace := ⟨0⟩

/-- Half-open slice read `xs[a:b]`.  Every verified call site uses
non-negative in-range bounds, where this agrees with numpy/zarr basic
slicing. -/
def sliceL (xs : List α) (a b : Int) : List α := (xs.take b.toNat).drop a.toNat

/-- The sequence produced by an in-bounds slice write: `xs` with the block
starting at `start` replaced by `vals`. -/
def writeVal (xs : List α) (start : Int) (vals : List α) : List α :=
  xs.take start.toNat ++ vals ++ xs.drop (start.toNat + vals.length)

/-- Modelled from the spec (§4.1 Dataset Handle): slice write
`xs[start : start+len(vals)] = vals` on a pre-allocated sequence; writes
beyond the pre-allocated length fail with `OutOfBoundsError`, embedded as
`none`. -/
def writeSlice (xs : List α) (start : Int) (vals : List α) : Option (List α) :=
  if 0 ≤ start ∧ start.toNat + vals.length ≤ xs.length then some (writeVal xs start vals)
  else none

/-- Element-count dictionary returned by the Range Accountant; the keys equal
the `initialize` arguments of the Dataset Handle. -/
structure NumEls where
  num_scenes : Int
  num_frames : Int
  num_agents : Int
  num_tl_faces : Int
deriving DecidableEq

/-- Field-wise sum of two count dictionaries.  Embeds the
`Counter` additions of `zarr_concat`; on the (non-negative) counts produced by
the accountant, `collections.Counter` addition agrees with plain field-wise
addition (`Counter.__add__` drops non-positive entries, and a dropped zero
entry is read back as zero). -/
def addEls (a b : NumEls) : NumEls :=
  ⟨a.num_scenes + b.num_scenes, a.num_frames + b.num_frames,
   a.num_agents + b.num_agents, a.num_tl_faces + b.num_tl_faces⟩

/-- Zero counts (`Counter({"num_scenes": 0, ...})`). -/
def zeroEls : NumEls := ⟨0, 0, 0, 0⟩

/-- Embedding of `_get_num_els_in_scene_range` (zarr_utils.py:28-53): reads
the two boundary scenes and the two boundary frames of the scene range and
returns the four counts as boundary-interval differences; the leading
`assert scene_index_end > scene_index_start` is embedded as `none`. -/
def get_num_els_in_scene_range (zarr_dataset : ChunkedDataset)
    (scene_index_start scene_index_end : Int) : Option NumEls :=
  if scene_index_end > scene_index_start then
    let scene_start := zarr_dataset.scenes.getD scene_index_start.toNat dScene
    let scene_end := zarr_dataset.scenes.getD (scene_index_end - 1).toNat dScene
    let frame_start := zarr_dataset.frames.getD scene_start.frame_index_interval.1.toNat dFrame
    let frame_end := zarr_dataset.frames.getD (scene_end.frame_index_interval.2 - 1).toNat dFrame
    some
      { num_scenes := scene_index_end - scene_index_start
        num_frames := scene_end.frame_index_interval.2 - scene_start.frame_index_interval.1
        num_agents := frame_end.agent_index_interval.2 - frame_start.agent_index_interval.1
        num_tl_faces := frame_end.traffic_light_faces_index_interval.2
          - frame_start.traffic_light_faces_index_interval.1 }
  else none

/-- Rebase a scene record by adding the per-invocation frame offset to its
`frame_index_interval` (the `scenes["frame_index_interval"] += idx_start_frame`
line of `_append_zarr_subset`). -/
def rebaseScene (dF : Int) (s : Scene) : Scene :=
  { s with frame_index_interval := (s.frame_index_interval.1 + dF, s.frame_index_interval.2 + dF) }

/-- Rebase a frame record by adding the per-invocation agent and tl-face
offsets to its two child intervals. -/
def rebaseFrame (dA dT : Int) (f : Frame) : Frame :=
  { f with
      agent_index_interval :=
        (f.agent_index_interval.1 + dA, f.agent_index_interval.2 + dA)
      traffic_light_faces_index_interval :=
        (f.traffic_light_faces_index_interval.1 + dT, f.traffic_light_faces_index_interval.2 + dT) }

/-- State of the copy loop of `_append_zarr_subset`: the destination dataset
plus the four write cursors (`idx_output_*`). -/
structure CopyState where
  out : ChunkedDataset
  idx_output_scene : Int
  idx_output_frame : Int
  idx_output_agent : Int
  idx_output_tl_face : Int
deriving DecidableEq

/-- One iteration of the `for idx_scene in range(...)` loop of
`_append_zarr_subset` (zarr_utils.py:98-124): bulk-read the scene, its frame
block and the agent / tl-face blocks, rebase the interval fields, bulk-write
the four blocks at the current write cursors, and advance the cursors.  Any
out-of-bounds write aborts the operation (`none`). -/
def copyScene (input_zarr : ChunkedDataset) (dF dA dT : Int) (st : CopyState)
    (idx_scene : Int) : Option CopyState :=
  let scenes := sliceL input_zarr.scenes idx_scene (idx_scene + 1)
  let fii := (scenes.headD dScene).frame_index_interval
  let frames := sliceL input_zarr.frames fii.1 fii.2
  let agents := sliceL input_zarr.agents (frames.headD dFrame).agent_index_interval.1
    (frames.getLastD dFrame).agent_index_interval.2
  let tl_faces := sliceL input_zarr.tl_faces
    (frames.headD dFrame).traffic_light_faces_index_interval.1
    (frames.getLastD dFrame).traffic_light_faces_index_interval.2
  let scenes2 := scenes.map (rebaseScene dF)
  let frames2 := frames.map (rebaseFrame dA dT)
  (writeSlice st.out.scenes st.idx_output_scene scenes2).bind fun oS =>
  (writeSlice st.out.frames st.idx_output_frame frames2).bind fun oF =>
  (writeSlice st.out.agents st.idx_output_agent agents).bind fun oA =>
  (writeSlice st.out.tl_faces st.idx_output_tl_face tl_faces).bind fun oT =>
  some
    { out := ⟨oS, oF, oA, oT⟩
      idx_output_scene := st.idx_output_scene + scenes2.length
      idx_output_frame := st.idx_output_frame + frames2.length
      idx_output_agent := st.idx_output_agent + agents.length
      idx_output_tl_face := st.idx_output_tl_face + tl_faces.length }

/-- The scene loop of `_append_zarr_subset`, iterating `copyScene` over
`range(scene_index_start, scene_index_end)` (`n` iterations starting at
`idx`). -/
def appendLoop (input_zarr : ChunkedDataset) (dF dA dT : Int) (st : CopyState)
    (idx : Int) : Nat → Option CopyState
  | 0 => some st
  | n + 1 =>
    (copyScene input_zarr dF dA dT st idx).bind fun st2 =>
      appendLoop input_zarr dF dA dT st2 (idx + 1) n

/-- Embedding of `_append_zarr_subset` (zarr_utils.py:56-124): compute the
initial write cursors from `output_zarr_num_els` (all zero when `None`), the
per-invocation rebase offsets from the first copied scene's boundary indices,
and run the scene-by-scene copy loop.  Returns the updated destination, or
`none` on an out-of-bounds write. -/
def append_zarr_subset (input_zarr output_zarr : ChunkedDataset)
    (scene_index_start scene_index_end : Int) (output_zarr_num_els : Option NumEls) :
    Option ChunkedDataset :=
  let idx_output_scene : Int :=
    match output_zarr_num_els with | none => 0 | some k => k.num_scenes
  let idx_output_frame : Int :=
    match output_zarr_num_els with | none => 0 | some k => k.num_frames
  let idx_output_agent : Int :=
    match output_zarr_num_els with | none => 0 | some k => k.num_agents
  let idx_output_tl_face : Int :=
    match output_zarr_num_els with | none => 0 | some k => k.num_tl_faces
  let idx_start_frame :=
    (input_zarr.scenes.getD scene_index_start.toNat dScene).frame_index_interval.1
  let idx_start_agent :=
    (input_zarr.frames.getD idx_start_frame.toNat dFrame).agent_index_interval.1
  let idx_start_tl_face :=
    (input_zarr.frames.getD idx_start_frame.toNat dFrame).traffic_light_faces_index_interval.1
  let dF := idx_output_frame - idx_start_frame
  let dA := idx_output_agent - idx_start_agent
  let dT := idx_output_tl_face - idx_start_tl_face
  (appendLoop input_zarr dF dA dT
      ⟨output_zarr, idx_output_scene, idx_output_frame, idx_output_agent, idx_output_tl_face⟩
      scene_index_start (scene_index_end - scene_index_start).toNat).map CopyState.out

/-- Modelled from the spec (§4.1 Dataset Handle `initialize`): pre-allocates
four sequences of exactly the given lengths with uninitialized contents
(embedded as default records).  The storage engine implementing it is not
among the verified sources. -/
def preallocate (num_scenes num_frames num_agents num_tl_faces : Int) : ChunkedDataset :=
  ⟨List.replicate num_scenes.toNat dScene, List.replicate num_frames.toNat dFrame,
   List.replicate num_agents.toNat dAgent, List.replicate num_tl_faces.toNat dTlFace⟩

/-- Error outcomes of `zarr_concat`: an uncaught `AssertionError` escaping the
Range Accountant, or an out-of-bounds write in the Subset Copier (the per-source
`ValueError`/`KeyError` open failures are caught and skipped, so they never
surface). -/
inductive ZarrError where
  | assertionError
  | outOfBounds
deriving DecidableEq

/-- First loop of `zarr_concat`: run the Range Accountant over each surviving
source's full scene range, collecting the per-source counts in order. -/
def accountAll : List ChunkedDataset → Option (List NumEls)
  | [] => some []
  | z :: rest =>
    match get_num_els_in_scene_range z 0 (z.scenes.length : Int) with
    | some k => (accountAll rest).map (fun l => k :: l)
    | none => none

/-- Second loop of `zarr_concat`: copy each surviving source into the
destination at the running cumulative counts, then add that source's counts to
the running totals. -/
def concatLoop : List (ChunkedDataset × NumEls) → ChunkedDataset → NumEls →
    Except ZarrError ChunkedDataset
  | [], out, _ => Except.ok out
  | (z, els) :: rest, out, cur =>
    match append_zarr_subset z out 0 (z.scenes.length : Int) (some cur) with
    | some out2 => concatLoop rest out2 (addEls cur els)
    | none => Except.error ZarrError.outOfBounds

/-- Embedding of `zarr_concat` (zarr_utils.py:127-173).  The path arguments are
replaced by the open results: a source that fails to open
(`ValueError`/`KeyError`, caught and skipped with a warning) is `none`.  The
`assert not os.path.exists(output_zarr)` guard and the opening of the paths are
filesystem effects outside the embedding; the destination is taken fresh. -/
def zarr_concat (input_zarrs : List (Option ChunkedDataset)) :
    Except ZarrError ChunkedDataset :=
  let valid_zarrs := input_zarrs.filterMap id
  match accountAll valid_zarrs with
  | none => Except.error ZarrError.assertionError
  | some num_els_valid_zarrs =>
    let total := num_els_valid_zarrs.foldl addEls zeroEls
    let output_dataset :=
      preallocate total.num_scenes total.num_frames total.num_agents total.num_tl_faces
    concatLoop (valid_zarrs.zip num_els_valid_zarrs) output_dataset zeroEls

/-- Split specification record: destination name and byte budget in GB.  The
float budget is embedded as a rational; the sentinel comparison `== -1` and the
truncating conversion are exact on the values any verified statement uses. -/
structure SplitInfo where
  name : String
  split_size_GB : Rat
deriving DecidableEq

/-- Default split record (for `getLastD`). -/
def dInfo : SplitInfo := ⟨"", 0⟩

/-- Python `int()` conversion on a rational: truncation toward zero. -/
def pyInt (q : Rat) : Int := if 0 ≤ q then q.floor else -(-q).floor

/-- Error outcomes of `zarr_split`, paired in the result with the list of
destination datasets created before the failure: the two leading asserts
(spec taxonomy `ConfigError`), the "size exceed" assert (spec taxonomy
`OverflowError`), an `AssertionError` escaping the Range Accountant inside the
loop, and an out-of-bounds write. -/
inductive SplitError where
  | configError
  | overflowError
  | assertionError
  | outOfBounds
deriving DecidableEq

/-- The per-spec loop of `zarr_split`: maintain the scene cursor; for each
target count run the Range Accountant, pre-allocate a fresh destination with
those counts, copy the range with zero offsets, and record the cut.  Errors
carry the destinations created so far. -/
def splitLoop (input_dataset : ChunkedDataset) :
    List (Int × SplitInfo) → Int → List (Int × Int) → List ChunkedDataset →
    Except (SplitError × List ChunkedDataset) (List (Int × Int) × List ChunkedDataset)
  | [], _, cuts, outs => Except.ok (cuts, outs)
  | (num_scenes, _info) :: rest, cur_scene, cuts, outs =>
    let start_cut := cur_scene
    let end_cut := cur_scene + num_scenes
    match get_num_els_in_scene_range input_dataset start_cut end_cut with
    | none => Except.error (SplitError.assertionError, outs)
    | some els =>
      let output0 := preallocate els.num_scenes els.num_frames els.num_agents els.num_tl_faces
      match append_zarr_subset input_dataset output0 start_cut end_cut none with
      | none => Except.error (SplitError.outOfBounds, outs ++ [output0])
      | some outD =>
        splitLoop input_dataset rest end_cut (cuts ++ [(start_cut, end_cut)]) (outs ++ [outD])

/-- Embedding of `zarr_split` (zarr_utils.py:176-224).  The on-disk byte size
of the source (`_compute_path_size(input_zarr) / GIGABYTE`, a filesystem walk)
is passed as the parameter `size_input_gb`.  Returns the cut boundaries and the
created destinations, or an error paired with the destinations created before
the failure. -/
def zarr_split (input_dataset : ChunkedDataset) (size_input_gb : Rat)
    (split_infos : List SplitInfo) :
    Except (SplitError × List ChunkedDataset) (List (Int × Int) × List ChunkedDataset) :=
  if split_infos.length = 0 then Except.error (SplitError.configError, [])
  else if (split_infos.getLastD dInfo).split_size_GB ≠ -1 then
    Except.error (SplitError.configError, [])
  else
    let num_scenes_input : Int := input_dataset.scenes.length
    let num_scenes_output := split_infos.dropLast.map
      (fun split_info => pyInt (num_scenes_input * split_info.split_size_GB / size_input_gb))
    if num_scenes_output.sum < num_scenes_input then
      splitLoop input_dataset
        ((num_scenes_output ++ [num_scenes_input - num_scenes_output.sum]).zip split_infos)
        0 [] []
    else Except.error (SplitError.overflowError, [])

/-- Scene `i`'s `frame_index_interval` (default record beyond the end). -/
def sFii (z : ChunkedDataset) (i : Nat) : Int × Int :=
  (z.scenes.getD i dScene).frame_index_interval

/-- Frame `j`'s `agent_index_interval`. -/
def fAii (z : ChunkedDataset) (j : Nat) : Int × Int :=
  (z.frames.getD j dFrame).agent_index_interval

/-- Frame `j`'s `traffic_light_faces_index_interval`. -/
def fTii (z : ChunkedDataset) (j : Nat) : Int × Int :=
  (z.frames.getD j dFrame).traffic_light_faces_index_interval

/-- Contiguous-interval chain (spec §3 invariants for one parent/child level):
each parent's half-open interval is a valid slice of the child sequence
(`0 ≤ lo ≤ hi ≤ total`), consecutive parents' intervals are contiguous, the
first interval starts at child index 0 and the last ends at the child
sequence's length. -/
structure ChainSpec (get : Nat → Int × Int) (len : Nat) (total : Int) : Prop where
  lo_nonneg : ∀ i, i < len → 0 ≤ (get i).1
  lo_le_hi : ∀ i, i < len → (get i).1 ≤ (get i).2
  hi_le : ∀ i, i < len → (get i).2 ≤ total
  chain : ∀ i, i + 1 < len → (get i).2 = (get (i + 1)).1
  first_eq : 0 < len → (get 0).1 = 0
  last_eq : 0 < len → (get (len - 1)).2 = total

/-- Spec §3 invariants of a valid dataset: at least one scene (the lengths
invariant speaks of "the last element's interval", so every level is anchored
by an existing last scene), the scene→frame chain, the frame→agent chain and
the frame→tl-face chain are contiguous and cover the child sequences exactly.
Scene frame-intervals are additionally non-empty (a scene is a contiguous
driving session of at least one timestep, per the glossary); frames may
legitimately reference empty agent / tl-face blocks. -/
structure WellFormed (z : ChunkedDataset) : Prop where
  scenes_pos : 0 < z.scenes.length
  sChain : ChainSpec (sFii z) z.scenes.length (z.frames.length : Int)
  sStrict : ∀ i, i < z.scenes.length → (sFii z i).1 < (sFii z i).2
  aChain : ChainSpec (fAii z) z.frames.length (z.agents.length : Int)
  tChain : ChainSpec (fTii z) z.frames.length (z.tl_faces.length : Int)

/-- Truncation of a dataset to prefixes of the four sequences (used to state
that the filled part of a partially-written destination satisfies the §3
invariants). -/
def takeData (z : ChunkedDataset) (nS nF nA nT : Nat) : ChunkedDataset :=
  ⟨z.scenes.take nS, z.frames.take nF, z.agents.take nA, z.tl_faces.take nT⟩

/-- Number of frames referenced by the scene range `[i, i+n)`: the boundary
difference between the last scene's frame-interval end and the first scene's
frame-interval start (0 for an empty range). -/
def cntFr (z : ChunkedDataset) (i n : Nat) : Int :=
  if n = 0 then 0 else (sFii z (i + n - 1)).2 - (sFii z i).1

/-- Number of agents referenced by the scene range `[i, i+n)`: boundary
difference between the last referenced frame's agent-interval end and the
first referenced frame's agent-interval start. -/
def cntAg (z : ChunkedDataset) (i n : Nat) : Int :=
  if n = 0 then 0
  else (fAii z ((sFii z (i + n - 1)).2 - 1).toNat).2 - (fAii z (sFii z i).1.toNat).1

/-- Number of tl-faces referenced by the scene range `[i, i+n)`. -/
def cntTl (z : ChunkedDataset) (i n : Nat) : Int :=
  if n = 0 then 0
  else (fTii z ((sFii z (i + n - 1)).2 - 1).toNat).2 - (fTii z (sFii z i).1.toNat).1

/-- The four sequence lengths of a dataset as a count dictionary (what the
Range Accountant returns for the full scene range of a valid dataset). -/
def fullEls (z : ChunkedDataset) : NumEls :=
  ⟨z.scenes.length, z.frames.length, z.agents.length, z.tl_faces.length⟩


/-- Prior contents of a destination end exactly at the four write offsets:
either nothing was written yet (all offsets zero), or the filled prefixes
already satisfy the §3 invariants. -/
def PriorOK (dst : ChunkedDataset) (oS oF oA oT : Nat) : Prop :=
  (oS = 0 ∧ oF = 0 ∧ oA = 0 ∧ oT = 0) ∨ WellFormed (takeData dst oS oF oA oT)

/-- Precondition of the Subset Copier's scene loop for the range `[i, i+n)`
of input `z` from state `st`: the range is in bounds, the cursors are
non-negative, each child-level cursor stands at `delta + (start of the next
source block)`, and the destination has capacity for the boundary-difference
counts of the range. -/
structure CopyIn (z : ChunkedDataset) (dF dA dT : Int) (i n : Nat) (st : CopyState) : Prop where
  range : i + n ≤ z.scenes.length
  sNn : 0 ≤ st.idx_output_scene
  fNn : 0 ≤ st.idx_output_frame
  aNn : 0 ≤ st.idx_output_agent
  tNn : 0 ≤ st.idx_output_tl_face
  fCur : 0 < n → st.idx_output_frame = dF + (sFii z i).1
  aCur : 0 < n → st.idx_output_agent = dA + (fAii z (sFii z i).1.toNat).1
  tCur : 0 < n → st.idx_output_tl_face = dT + (fTii z (sFii z i).1.toNat).1
  sCap : st.idx_output_scene.toNat + n ≤ st.out.scenes.length
  fCap : st.idx_output_frame.toNat + (cntFr z i n).toNat ≤ st.out.frames.length
  aCap : st.idx_output_agent.toNat + (cntAg z i n).toNat ≤ st.out.agents.length
  tCap : st.idx_output_tl_face.toNat + (cntTl z i n).toNat ≤ st.out.tl_faces.length

/-- Postcondition of the Subset Copier's scene loop for the range `[i, i+n)`:
destination lengths are preserved; each cursor advances by exactly the
boundary-difference count of the range; every source record of the range
lands at its source index shifted by the per-level delta (with child-interval
fields rebased by the child level's delta); and every destination position
outside the written regions is untouched. -/
structure CopyOut (z : ChunkedDataset) (dF dA dT : Int) (i n : Nat) (st st' : CopyState) : Prop where
  lenS : st'.out.scenes.length = st.out.scenes.length
  lenF : st'.out.frames.length = st.out.frames.length
  lenA : st'.out.agents.length = st.out.agents.length
  lenT : st'.out.tl_faces.length = st.out.tl_faces.length
  curS : st'.idx_output_scene = st.idx_output_scene + n
  curF : st'.idx_output_frame = st.idx_output_frame + cntFr z i n
  curA : st'.idx_output_agent = st.idx_output_agent + cntAg z i n
  curT : st'.idx_output_tl_face = st.idx_output_tl_face + cntTl z i n
  sceneAt : ∀ k, k < n → st'.out.scenes.getD (st.idx_output_scene.toNat + k) dScene
    = rebaseScene dF (z.scenes.getD (i + k) dScene)
  frameAt : ∀ j : Nat, (sFii z i).1 ≤ (j : Int) → (j : Int) < (sFii z i).1 + cntFr z i n →
    st'.out.frames.getD (dF + (j : Int)).toNat dFrame
      = rebaseFrame dA dT (z.frames.getD j dFrame)
  agentAt : ∀ a : Nat, (fAii z (sFii z i).1.toNat).1 ≤ (a : Int) →
    (a : Int) < (fAii z (sFii z i).1.toNat).1 + cntAg z i n →
    st'.out.agents.getD (dA + (a : Int)).toNat dAgent = z.agents.getD a dAgent
  tlAt : ∀ t : Nat, (fTii z (sFii z i).1.toNat).1 ≤ (t : Int) →
    (t : Int) < (fTii z (sFii z i).1.toNat).1 + cntTl z i n →
    st'.out.tl_faces.getD (dT + (t : Int)).toNat dTlFace = z.tl_faces.getD t dTlFace
  keepS : ∀ p : Nat, p < st.idx_output_scene.toNat ∨ st.idx_output_scene.toNat + n ≤ p →
    st'.out.scenes.getD p dScene = st.out.scenes.getD p dScene
  keepF : ∀ p : Nat, p < st.idx_output_frame.toNat
      ∨ st.idx_output_frame.toNat + (cntFr z i n).toNat ≤ p →
    st'.out.frames.getD p dFrame = st.out.frames.getD p dFrame
  keepA : ∀ p : Nat, p < st.idx_output_agent.toNat
      ∨ st.idx_output_agent.toNat + (cntAg z i n).toNat ≤ p →
    st'.out.agents.getD p dAgent = st.out.agents.getD p dAgent
  keepT : ∀ p : Nat, p < st.idx_output_tl_face.toNat
      ∨ st.idx_output_tl_face.toNat + (cntTl z i n).toNat ≤ p →
    st'.out.tl_faces.getD p dTlFace = st.out.tl_faces.getD p dTlFace

/-- Cursor discipline of the Subset Copier's scene loop (the capacity-free
part of `CopyIn`): range in bounds, non-negative cursors, and each child-level
cursor standing at `delta + (start of the next source block)`. -/
structure CurOk (z : ChunkedDataset) (dF dA dT : Int) (i n : Nat) (st : CopyState) : Prop where
  range : i + n ≤ z.scenes.length
  sNn : 0 ≤ st.idx_output_scene
  fNn : 0 ≤ st.idx_output_frame
  aNn : 0 ≤ st.idx_output_agent
  tNn : 0 ≤ st.idx_output_tl_face
  fCur : 0 < n → st.idx_output_frame = dF + (sFii z i).1
  aCur : 0 < n → st.idx_output_agent = dA + (fAii z (sFii z i).1.toNat).1
  tCur : 0 < n → st.idx_output_tl_face = dT + (fTii z (sFii z i).1.toNat).1

/-- Facts established by one successful `copyScene` step: how the four
sequences and cursors of the post-step state relate to the pre-step state
(block writes at the old cursors, cursor advances by the block sizes,
preserved lengths, and the in-bounds conditions of the four writes). -/
structure StepFacts (z : ChunkedDataset) (dF dA dT : Int) (i : Nat) (st st2 : CopyState) : Prop where
  outS : st2.out.scenes = writeVal st.out.scenes st.idx_output_scene
    [rebaseScene dF (z.scenes.getD i dScene)]
  outF : st2.out.frames = writeVal st.out.frames st.idx_output_frame
    ((sliceL z.frames (sFii z i).1 (sFii z i).2).map (rebaseFrame dA dT))
  outA : st2.out.agents = writeVal st.out.agents st.idx_output_agent
    (sliceL z.agents (fAii z (sFii z i).1.toNat).1 (fAii z ((sFii z i).2 - 1).toNat).2)
  outT : st2.out.tl_faces = writeVal st.out.tl_faces st.idx_output_tl_face
    (sliceL z.tl_faces (fTii z (sFii z i).1.toNat).1 (fTii z ((sFii z i).2 - 1).toNat).2)
  curS : st2.idx_output_scene = st.idx_output_scene + 1
  curF : st2.idx_output_frame = st.idx_output_frame + ((sFii z i).2 - (sFii z i).1)
  curA : st2.idx_output_agent = st.idx_output_agent +
    ((fAii z ((sFii z i).2 - 1).toNat).2 - (fAii z (sFii z i).1.toNat).1)
  curT : st2.idx_output_tl_face = st.idx_output_tl_face +
    ((fTii z ((sFii z i).2 - 1).toNat).2 - (fTii z (sFii z i).1.toNat).1)
  lenS : st2.out.scenes.length = st.out.scenes.length
  lenF : st2.out.frames.length = st.out.frames.length
  lenA : st2.out.agents.length = st.out.agents.length
  lenT : st2.out.tl_faces.length = st.out.tl_faces.length
  wS : st.idx_output_scene.toNat + 1 ≤ st.out.scenes.length
  wF : st.idx_output_frame.toNat + ((sFii z i).2 - (sFii z i).1).toNat
    ≤ st.out.frames.length
  wA : st.idx_output_agent.toNat +
    ((fAii z ((sFii z i).2 - 1).toNat).2 - (fAii z (sFii z i).1.toNat).1).toNat
    ≤ st.out.agents.length
  wT : st.idx_output_tl_face.toNat +
    ((fTii z ((sFii z i).2 - 1).toNat).2 - (fTii z (sFii z i).1.toNat).1).toNat
    ≤ st.out.tl_faces.length

/-- Default (empty) dataset, used with `List.getD` over source lists. -/
def dData : ChunkedDataset := ⟨[], [], [], []⟩

/-- Sum of a list of count dictionaries. -/
def sumList : List NumEls → NumEls
  | [] => zeroEls
  | k :: rest => addEls k (sumList rest)

/-- Total counts of a list of datasets. -/
def sumEls (zs : List ChunkedDataset) : NumEls := sumList (zs.map fullEls)

/-- Postcondition of the Concatenator's copy loop over sources `zs` from
running counts `cur` and destination `out`: lengths are preserved, every
record of every source lands at its cumulative offset with interval fields
rebased by the cumulative child counts, and the destination below the initial
cursors is untouched. -/
structure ConcatOut (zs : List ChunkedDataset) (cur : NumEls) (out final : ChunkedDataset) : Prop where
  lenS : final.scenes.length = out.scenes.length
  lenF : final.frames.length = out.frames.length
  lenA : final.agents.length = out.agents.length
  lenT : final.tl_faces.length = out.tl_faces.length
  sceneAt : ∀ q, q < zs.length → ∀ k, k < (zs.getD q dData).scenes.length →
    final.scenes.getD ((addEls cur (sumEls (zs.take q))).num_scenes.toNat + k) dScene
      = rebaseScene (addEls cur (sumEls (zs.take q))).num_frames
          ((zs.getD q dData).scenes.getD k dScene)
  frameAt : ∀ q, q < zs.length → ∀ j, j < (zs.getD q dData).frames.length →
    final.frames.getD ((addEls cur (sumEls (zs.take q))).num_frames.toNat + j) dFrame
      = rebaseFrame (addEls cur (sumEls (zs.take q))).num_agents
          ((addEls cur (sumEls (zs.take q))).num_tl_faces)
          ((zs.getD q dData).frames.getD j dFrame)
  agentAt : ∀ q, q < zs.length → ∀ a, a < (zs.getD q dData).agents.length →
    final.agents.getD ((addEls cur (sumEls (zs.take q))).num_agents.toNat + a) dAgent
      = (zs.getD q dData).agents.getD a dAgent
  tlAt : ∀ q, q < zs.length → ∀ t, t < (zs.getD q dData).tl_faces.length →
    final.tl_faces.getD ((addEls cur (sumEls (zs.take q))).num_tl_faces.toNat + t) dTlFace
      = (zs.getD q dData).tl_faces.getD t dTlFace
  keepS : ∀ p : Nat, p < cur.num_scenes.toNat →
    final.scenes.getD p dScene = out.scenes.getD p dScene
  keepF : ∀ p : Nat, p < cur.num_frames.toNat →
    final.frames.getD p dFrame = out.frames.getD p dFrame
  keepA : ∀ p : Nat, p < cur.num_agents.toNat →
    final.agents.getD p dAgent = out.agents.getD p dAgent
  keepT : ∀ p : Nat, p < cur.num_tl_faces.toNat →
    final.tl_faces.getD p dTlFace = out.tl_faces.getD p dTlFace

/-- The cut list produced by walking targets `ts` from scene cursor `c`:
one `(start, end)` pair per target, each starting where the previous ended. -/
def mkCuts (c : Int) : List Int → List (Int × Int)
  | [] => []
  | t :: rest => (c, c + t) :: mkCuts (c + t) rest

/-- Concrete well-formed dataset used to witness the verified theorems:
2 scenes (frame blocks `[0,2)` and `[2,3)`), 3 frames, 2 agents, 1 tl-face. -/
def sampleZ : ChunkedDataset :=
  ⟨[⟨"h0", 10, 20, (0, 2)⟩, ⟨"h1", 20, 30, (2, 3)⟩],
   [⟨100, [1], [2], (0, 1), (0, 1)⟩, ⟨110, [3], [4], (1, 1), (1, 1)⟩,
    ⟨120, [5], [6], (1, 2), (1, 1)⟩],
   [⟨1000⟩, ⟨1001⟩],
   [⟨7⟩]⟩

/-! ### Basic lemmas on slice reads and writes -/

theorem headD_eq_getD (l : List α) (d : α) : l.headD d = l.getD 0 d := by
  cases l <;> rfl

theorem getLastD_eq_getD (l : List α) (d : α) : l.getLastD d = l.getD (l.length - 1) d := by
  rw [List.getLastD_eq_getLast?, List.getLast?_eq_getElem?, List.getD_eq_getElem?_getD]

theorem length_sliceL (xs : List α) (a b : Int) :
    (sliceL xs a b).length = min b.toNat xs.length - a.toNat := by
  simp [sliceL]

theorem getD_sliceL (xs : List α) (a b : Int) (i : Nat) (d : α)
    (h : i < (sliceL xs a b).length) :
    (sliceL xs a b).getD i d = xs.getD (a.toNat + i) d := by
  have h' : a.toNat + i < b.toNat ∧ a.toNat + i < xs.length := by
    rw [length_sliceL] at h; omega
  rw [sliceL, List.getD_eq_getElem?_getD, List.getD_eq_getElem?_getD, List.getElem?_drop,
    List.getElem?_take, if_pos h'.1]

theorem headD_sliceL (xs : List α) (a b : Int) (d : α)
    (h : 0 < (sliceL xs a b).length) :
    (sliceL xs a b).headD d = xs.getD a.toNat d := by
  rw [headD_eq_getD, getD_sliceL xs a b 0 d h]
  congr 1

theorem getLastD_sliceL (xs : List α) (a b : Int) (d : α)
    (h0 : 0 ≤ a) (hab : a < b) (hb : b.toNat ≤ xs.length) :
    (sliceL xs a b).getLastD d = xs.getD (b.toNat - 1) d := by
  have hlen : (sliceL xs a b).length = b.toNat - a.toNat := by
    rw [length_sliceL]; omega
  rw [getLastD_eq_getD, hlen, getD_sliceL xs a b (b.toNat - a.toNat - 1) d (by omega)]
  congr 1
  omega

theorem sliceL_singleton (xs : List α) (a : Int) (d : α) (h0 : 0 ≤ a)
    (h : a.toNat < xs.length) :
    sliceL xs a (a + 1) = [xs.getD a.toNat d] := by
  have hlen : (sliceL xs a (a + 1)).length = 1 := by
    rw [length_sliceL]; omega
  obtain ⟨x, hx⟩ := List.length_eq_one.mp hlen
  have hgd := getD_sliceL xs a (a + 1) 0 d (by omega)
  rw [hx] at hgd ⊢
  have hx2 : x = xs.getD a.toNat d := by
    rw [List.getD_eq_getElem?_getD]
    simpa using hgd
  rw [hx2]

theorem length_sliceL_of_le (xs : List α) (a b : Int) (h0 : 0 ≤ a) (hab : a ≤ b)
    (hb : b.toNat ≤ xs.length) :
    (sliceL xs a b).length = (b - a).toNat := by
  rw [length_sliceL]; omega

theorem writeSlice_pos (xs : List α) (s : Int) (v : List α)
    (h0 : 0 ≤ s) (h : s.toNat + v.length ≤ xs.length) :
    writeSlice xs s v = some (writeVal xs s v) := by
  rw [writeSlice, if_pos ⟨h0, h⟩]

theorem writeSlice_some_inv {xs ys : List α} {s : Int} {v : List α}
    (h : writeSlice xs s v = some ys) :
    0 ≤ s ∧ s.toNat + v.length ≤ xs.length ∧ ys = writeVal xs s v := by
  by_cases hc : 0 ≤ s ∧ s.toNat + v.length ≤ xs.length
  · rw [writeSlice, if_pos hc] at h
    exact ⟨hc.1, hc.2, (Option.some_inj.mp h).symm⟩
  · rw [writeSlice, if_neg hc] at h
    cases h

theorem length_writeVal (xs : List α) (s : Int) (v : List α)
    (h : s.toNat + v.length ≤ xs.length) :
    (writeVal xs s v).length = xs.length := by
  simp [writeVal]
  omega

theorem getD_writeVal_inside (xs : List α) (s : Int) (v : List α) (j : Nat) (d : α)
    (hj : j < v.length) (h : s.toNat + v.length ≤ xs.length) :
    (writeVal xs s v).getD (s.toNat + j) d = v.getD j d := by
  have hts : (xs.take s.toNat).length = s.toNat := by
    rw [List.length_take]; omega
  rw [writeVal, List.append_assoc, List.getD_eq_getElem?_getD,
    List.getElem?_append_right (by omega : (xs.take s.toNat).length ≤ s.toNat + j), hts,
    Nat.add_sub_cancel_left, List.getElem?_append_left hj, List.getD_eq_getElem?_getD]

theorem getD_writeVal_outside (xs : List α) (s : Int) (v : List α) (p : Nat) (d : α)
    (hp : p < s.toNat ∨ s.toNat + v.length ≤ p) (h : s.toNat + v.length ≤ xs.length) :
    (writeVal xs s v).getD p d = xs.getD p d := by
  have hts : (xs.take s.toNat).length = s.toNat := by
    rw [List.length_take]; omega
  rcases hp with hp | hp
  · rw [writeVal, List.append_assoc, List.getD_eq_getElem?_getD,
      List.getElem?_append_left (by omega : p < (xs.take s.toNat).length),
      List.getElem?_take, if_pos hp, List.getD_eq_getElem?_getD]
  · rw [writeVal, List.append_assoc, List.getD_eq_getElem?_getD,
      List.getElem?_append_right (by omega : (xs.take s.toNat).length ≤ p), hts,
      List.getElem?_append_right (by omega : v.length ≤ p - s.toNat),
      List.getElem?_drop, List.getD_eq_getElem?_getD]
    congr 2
    omega

theorem getD_take_lt (xs : List α) (k p : Nat) (d : α) (hp : p < k) :
    (xs.take k).getD p d = xs.getD p d := by
  rw [List.getD_eq_getElem?_getD, List.getD_eq_getElem?_getD, List.getElem?_take, if_pos hp]

theorem length_take_of_le (xs : List α) (k : Nat) (h : k ≤ xs.length) :
    (xs.take k).length = k := by
  rw [List.length_take]; omega

theorem getD_map_lt {f : α → β} (l : List α) (k : Nat) (d : α) (hd : β) (hk : k < l.length) :
    (l.map f).getD k hd = f (l.getD k d) := by
  rw [List.getD_eq_getElem (l.map f) hd (by simpa using hk), List.getD_eq_getElem l d hk,
    List.getElem_map]

/-! ### Contiguous-chain lemmas -/

theorem ChainSpec.lo_add_mono {get : Nat → Int × Int} {len : Nat} {total : Int}
    (c : ChainSpec get len total) (d : Nat) :
    ∀ i, i + d < len → (get i).1 ≤ (get (i + d)).1 := by
  induction d with
  | zero => intro i _; simp
  | succ d ih =>
    intro i h
    have h1 := ih i (by omega)
    have h2 := c.lo_le_hi (i + d) (by omega)
    have h3 := c.chain (i + d) (by omega)
    have h4 : i + (d + 1) = i + d + 1 := by omega
    rw [h4]
    omega

theorem ChainSpec.lo_mono {get : Nat → Int × Int} {len : Nat} {total : Int}
    (c : ChainSpec get len total) {i j : Nat} (hij : i ≤ j) (hj : j < len) :
    (get i).1 ≤ (get j).1 := by
  have := c.lo_add_mono (j - i) i (by omega)
  have hji : i + (j - i) = j := by omega
  rwa [hji] at this

theorem ChainSpec.hi_mono {get : Nat → Int × Int} {len : Nat} {total : Int}
    (c : ChainSpec get len total) {i j : Nat} (hij : i ≤ j) (hj : j < len) :
    (get i).2 ≤ (get j).2 := by
  rcases Nat.eq_or_lt_of_le hij with h | h
  · rw [h]
  · have h1 := c.chain i (by omega)
    have h2 := c.lo_mono (by omega : i + 1 ≤ j) hj
    have h3 := c.lo_le_hi j hj
    omega

theorem ChainSpec.hi_le_lo {get : Nat → Int × Int} {len : Nat} {total : Int}
    (c : ChainSpec get len total) {i j : Nat} (hij : i < j) (hj : j < len) :
    (get i).2 ≤ (get j).1 := by
  have h1 := c.chain i (by omega)
  have h2 := c.lo_mono (by omega : i + 1 ≤ j) hj
  omega

theorem ChainSpec.lo_lt_total {get : Nat → Int × Int} {len : Nat} {total : Int}
    (c : ChainSpec get len total) (strict : ∀ i, i < len → (get i).1 < (get i).2)
    {i : Nat} (hi : i < len) : (get i).1 < total := by
  have h1 := strict i hi
  have h2 := c.hi_le i hi
  omega

/-! ### One iteration of the Subset Copier's scene loop -/

/-- Characterization of `copyScene` on a well-formed input at an in-range
scene index with in-capacity cursors: the step succeeds and the resulting
state satisfies `StepFacts` (block writes at the old cursors, cursor advances
by the block sizes, preserved lengths). -/
theorem copyScene_spec (z : ChunkedDataset) (hWF : WellFormed z) (dF dA dT : Int)
    (i : Nat) (hi : i < z.scenes.length) (st : CopyState)
    (hSn : 0 ≤ st.idx_output_scene)
    (hFn : 0 ≤ st.idx_output_frame)
    (hAn : 0 ≤ st.idx_output_agent)
    (hTn : 0 ≤ st.idx_output_tl_face)
    (hCapS : st.idx_output_scene.toNat + 1 ≤ st.out.scenes.length)
    (hCapF : st.idx_output_frame.toNat + ((sFii z i).2 - (sFii z i).1).toNat
      ≤ st.out.frames.length)
    (hCapA : st.idx_output_agent.toNat +
      ((fAii z ((sFii z i).2 - 1).toNat).2 - (fAii z (sFii z i).1.toNat).1).toNat
      ≤ st.out.agents.length)
    (hCapT : st.idx_output_tl_face.toNat +
      ((fTii z ((sFii z i).2 - 1).toNat).2 - (fTii z (sFii z i).1.toNat).1).toNat
      ≤ st.out.tl_faces.length) :
    ∃ st2, copyScene z dF dA dT st (i : Int) = some st2 ∧
      StepFacts z dF dA dT i st st2 := by
  have hlo0 : 0 ≤ (sFii z i).1 := hWF.sChain.lo_nonneg i hi
  have hlt : (sFii z i).1 < (sFii z i).2 := hWF.sStrict i hi
  have hhiF : (sFii z i).2 ≤ (z.frames.length : Int) := hWF.sChain.hi_le i hi
  have hloF : (sFii z i).1.toNat < z.frames.length := by omega
  have hhi1F : (sFii z i).2.toNat - 1 < z.frames.length := by omega
  have hsc : sliceL z.scenes (i : Int) ((i : Int) + 1) = [z.scenes.getD i dScene] := by
    have := sliceL_singleton z.scenes (i : Int) dScene (by omega) (by simpa using hi)
    simpa using this
  have hfrlen : (sliceL z.frames (sFii z i).1 (sFii z i).2).length
      = ((sFii z i).2 - (sFii z i).1).toNat :=
    length_sliceL_of_le _ _ _ hlo0 (by omega) (by omega)
  have hfrhead : (sliceL z.frames (sFii z i).1 (sFii z i).2).headD dFrame
      = z.frames.getD (sFii z i).1.toNat dFrame :=
    headD_sliceL _ _ _ _ (by omega)
  have hfrlast : (sliceL z.frames (sFii z i).1 (sFii z i).2).getLastD dFrame
      = z.frames.getD ((sFii z i).2 - 1).toNat dFrame := by
    rw [getLastD_sliceL _ _ _ _ hlo0 hlt (by omega)]
    congr 1
    omega
  have haLo0 : 0 ≤ (fAii z (sFii z i).1.toNat).1 := hWF.aChain.lo_nonneg _ hloF
  have haMono : (fAii z (sFii z i).1.toNat).1 ≤ (fAii z ((sFii z i).2 - 1).toNat).1 := by
    have h1 : ((sFii z i).2 - 1).toNat < z.frames.length := by omega
    exact hWF.aChain.lo_mono (by omega) h1
  have haHi : (fAii z ((sFii z i).2 - 1).toNat).1 ≤ (fAii z ((sFii z i).2 - 1).toNat).2 :=
    hWF.aChain.lo_le_hi _ (by omega)
  have haTot : (fAii z ((sFii z i).2 - 1).toNat).2 ≤ (z.agents.length : Int) :=
    hWF.aChain.hi_le _ (by omega)
  have haglen : (sliceL z.agents (fAii z (sFii z i).1.toNat).1
      (fAii z ((sFii z i).2 - 1).toNat).2).length
      = ((fAii z ((sFii z i).2 - 1).toNat).2 - (fAii z (sFii z i).1.toNat).1).toNat :=
    length_sliceL_of_le _ _ _ haLo0 (by omega) (by omega)
  have htLo0 : 0 ≤ (fTii z (sFii z i).1.toNat).1 := hWF.tChain.lo_nonneg _ hloF
  have htMono : (fTii z (sFii z i).1.toNat).1 ≤ (fTii z ((sFii z i).2 - 1).toNat).1 := by
    have h1 : ((sFii z i).2 - 1).toNat < z.frames.length := by omega
    exact hWF.tChain.lo_mono (by omega) h1
  have htHi : (fTii z ((sFii z i).2 - 1).toNat).1 ≤ (fTii z ((sFii z i).2 - 1).toNat).2 :=
    hWF.tChain.lo_le_hi _ (by omega)
  have htTot : (fTii z ((sFii z i).2 - 1).toNat).2 ≤ (z.tl_faces.length : Int) :=
    hWF.tChain.hi_le _ (by omega)
  have htllen : (sliceL z.tl_faces (fTii z (sFii z i).1.toNat).1
      (fTii z ((sFii z i).2 - 1).toNat).2).length
      = ((fTii z ((sFii z i).2 - 1).toNat).2 - (fTii z (sFii z i).1.toNat).1).toNat :=
    length_sliceL_of_le _ _ _ htLo0 (by omega) (by omega)
  have heq : copyScene z dF dA dT st (i : Int) =
      some
        { out :=
            ⟨writeVal st.out.scenes st.idx_output_scene
                [rebaseScene dF (z.scenes.getD i dScene)],
              writeVal st.out.frames st.idx_output_frame
                ((sliceL z.frames (sFii z i).1 (sFii z i).2).map (rebaseFrame dA dT)),
              writeVal st.out.agents st.idx_output_agent
                (sliceL z.agents (fAii z (sFii z i).1.toNat).1
                  (fAii z ((sFii z i).2 - 1).toNat).2),
              writeVal st.out.tl_faces st.idx_output_tl_face
                (sliceL z.tl_faces (fTii z (sFii z i).1.toNat).1
                  (fTii z ((sFii z i).2 - 1).toNat).2)⟩
          idx_output_scene := st.idx_output_scene + 1
          idx_output_frame := st.idx_output_frame + ((sFii z i).2 - (sFii z i).1)
          idx_output_agent := st.idx_output_agent +
            ((fAii z ((sFii z i).2 - 1).toNat).2 - (fAii z (sFii z i).1.toNat).1)
          idx_output_tl_face := st.idx_output_tl_face +
            ((fTii z ((sFii z i).2 - 1).toNat).2 - (fTii z (sFii z i).1.toNat).1) } := by
    have hsfii : (z.scenes.getD i dScene).frame_index_interval = sFii z i := rfl
    have hfa1 : ∀ j : Nat, (z.frames.getD j dFrame).agent_index_interval = fAii z j :=
      fun _ => rfl
    have hft1 : ∀ j : Nat, (z.frames.getD j dFrame).traffic_light_faces_index_interval
        = fTii z j := fun _ => rfl
    unfold copyScene
    rw [hsc]
    simp only [List.headD_cons, List.map_cons, List.map_nil]
    simp only [hsfii]
    rw [hfrhead, hfrlast]
    simp only [hfa1, hft1]
    rw [writeSlice_pos _ _ _ hSn (by simpa using hCapS),
      writeSlice_pos _ _ _ hFn (by rw [List.length_map, hfrlen]; exact hCapF),
      writeSlice_pos _ _ _ hAn (by rw [haglen]; exact hCapA),
      writeSlice_pos _ _ _ hTn (by rw [htllen]; exact hCapT)]
    simp only [Option.some_bind]
    simp only [Option.some.injEq, CopyState.mk.injEq]
    refine ⟨trivial, ?_, ?_, ?_, ?_⟩
    · simp
    · rw [List.length_map, hfrlen]; omega
    · rw [haglen]; omega
    · rw [htllen]; omega
  refine ⟨_, heq, rfl, rfl, rfl, rfl, rfl, rfl, rfl, rfl, ?_, ?_, ?_, ?_,
    hCapS, hCapF, hCapA, hCapT⟩
  · exact length_writeVal _ _ _ (by simpa using hCapS)
  · exact length_writeVal _ _ _ (by rw [List.length_map, hfrlen]; exact hCapF)
  · exact length_writeVal _ _ _ (by rw [haglen]; exact hCapA)
  · exact length_writeVal _ _ _ (by rw [htllen]; exact hCapT)

/-! ### Counting lemmas for scene ranges -/

theorem cntFr_nonneg (z : ChunkedDataset) (hWF : WellFormed z) (i n : Nat)
    (hr : i + n ≤ z.scenes.length) : 0 ≤ cntFr z i n := by
  rcases Nat.eq_zero_or_pos n with h0 | h0
  · subst h0; simp [cntFr]
  · have h1 : i + n - 1 < z.scenes.length := by omega
    have h2 := hWF.sChain.lo_mono (show i ≤ i + n - 1 by omega) h1
    have h3 := hWF.sChain.lo_le_hi _ h1
    have hy : n ≠ 0 := by omega
    simp only [cntFr, if_neg hy]
    omega

theorem cntAg_nonneg (z : ChunkedDataset) (hWF : WellFormed z) (i n : Nat)
    (hr : i + n ≤ z.scenes.length) : 0 ≤ cntAg z i n := by
  rcases Nat.eq_zero_or_pos n with h0 | h0
  · subst h0; simp [cntAg]
  · have h1 : i + n - 1 < z.scenes.length := by omega
    have hiS : i < z.scenes.length := by omega
    have hlo0 := hWF.sChain.lo_nonneg i hiS
    have hlt := hWF.sStrict i hiS
    have hmonoHi := hWF.sChain.hi_mono (show i ≤ i + n - 1 by omega) h1
    have hhiF := hWF.sChain.hi_le _ h1
    have hx1 : (sFii z i).1.toNat ≤ ((sFii z (i + n - 1)).2 - 1).toNat := by omega
    have hx2 : ((sFii z (i + n - 1)).2 - 1).toNat < z.frames.length := by omega
    have h4 := hWF.aChain.lo_mono hx1 hx2
    have h5 := hWF.aChain.lo_le_hi _ hx2
    have hy : n ≠ 0 := by omega
    simp only [cntAg, if_neg hy]
    omega

theorem cntTl_nonneg (z : ChunkedDataset) (hWF : WellFormed z) (i n : Nat)
    (hr : i + n ≤ z.scenes.length) : 0 ≤ cntTl z i n := by
  rcases Nat.eq_zero_or_pos n with h0 | h0
  · subst h0; simp [cntTl]
  · have h1 : i + n - 1 < z.scenes.length := by omega
    have hiS : i < z.scenes.length := by omega
    have hlo0 := hWF.sChain.lo_nonneg i hiS
    have hlt := hWF.sStrict i hiS
    have hmonoHi := hWF.sChain.hi_mono (show i ≤ i + n - 1 by omega) h1
    have hhiF := hWF.sChain.hi_le _ h1
    have hx1 : (sFii z i).1.toNat ≤ ((sFii z (i + n - 1)).2 - 1).toNat := by omega
    have hx2 : ((sFii z (i + n - 1)).2 - 1).toNat < z.frames.length := by omega
    have h4 := hWF.tChain.lo_mono hx1 hx2
    have h5 := hWF.tChain.lo_le_hi _ hx2
    have hy : n ≠ 0 := by omega
    simp only [cntTl, if_neg hy]
    omega

theorem sFii_hi_toNat_lt (z : ChunkedDataset) (hWF : WellFormed z) {i : Nat}
    (h : i + 1 < z.scenes.length) : (sFii z i).2.toNat < z.frames.length := by
  have hch := hWF.sChain.chain i h
  have h2 := hWF.sStrict (i + 1) (by omega)
  have h3 := hWF.sChain.hi_le (i + 1) (by omega)
  have h5 := hWF.sChain.lo_nonneg (i + 1) (by omega)
  omega

theorem fAii_link (z : ChunkedDataset) (hWF : WellFormed z) {i : Nat}
    (h : i + 1 < z.scenes.length) :
    (fAii z ((sFii z i).2 - 1).toNat).2 = (fAii z (sFii z (i + 1)).1.toNat).1 := by
  have hch := hWF.sChain.chain i h
  have hfn := sFii_hi_toNat_lt z hWF h
  have hi2pos : 0 < (sFii z i).2 := by
    have h1 := hWF.sChain.lo_nonneg i (by omega)
    have h2 := hWF.sStrict i (by omega)
    omega
  have h1 := hWF.aChain.chain ((sFii z i).2 - 1).toNat (by omega)
  have h2 : ((sFii z i).2 - 1).toNat + 1 = (sFii z i).2.toNat := by omega
  rw [h2] at h1
  rw [h1, hch]

theorem fTii_link (z : ChunkedDataset) (hWF : WellFormed z) {i : Nat}
    (h : i + 1 < z.scenes.length) :
    (fTii z ((sFii z i).2 - 1).toNat).2 = (fTii z (sFii z (i + 1)).1.toNat).1 := by
  have hch := hWF.sChain.chain i h
  have hfn := sFii_hi_toNat_lt z hWF h
  have hi2pos : 0 < (sFii z i).2 := by
    have h1 := hWF.sChain.lo_nonneg i (by omega)
    have h2 := hWF.sStrict i (by omega)
    omega
  have h1 := hWF.tChain.chain ((sFii z i).2 - 1).toNat (by omega)
  have h2 : ((sFii z i).2 - 1).toNat + 1 = (sFii z i).2.toNat := by omega
  rw [h2] at h1
  rw [h1, hch]

theorem cntFr_succ (z : ChunkedDataset) (hWF : WellFormed z) {i n : Nat}
    (h : i + n < z.scenes.length) :
    cntFr z i (n + 1) = ((sFii z i).2 - (sFii z i).1) + cntFr z (i + 1) n := by
  rcases Nat.eq_zero_or_pos n with h0 | h0
  · subst h0; simp [cntFr]
  · have hch := hWF.sChain.chain i (by omega)
    have hx : i + (n + 1) - 1 = i + n := by omega
    have hx2 : i + 1 + n - 1 = i + n := by omega
    have hy : n ≠ 0 := by omega
    simp only [cntFr, if_neg hy, if_neg (show n + 1 ≠ 0 by omega), hx, hx2]
    omega

theorem cntAg_succ (z : ChunkedDataset) (hWF : WellFormed z) {i n : Nat}
    (h : i + n < z.scenes.length) :
    cntAg z i (n + 1)
      = ((fAii z ((sFii z i).2 - 1).toNat).2 - (fAii z (sFii z i).1.toNat).1)
        + cntAg z (i + 1) n := by
  rcases Nat.eq_zero_or_pos n with h0 | h0
  · subst h0; simp [cntAg]
  · have hal := fAii_link z hWF (show i + 1 < z.scenes.length by omega)
    have hx : i + (n + 1) - 1 = i + n := by omega
    have hx2 : i + 1 + n - 1 = i + n := by omega
    have hy : n ≠ 0 := by omega
    simp only [cntAg, if_neg hy, if_neg (show n + 1 ≠ 0 by omega), hx, hx2]
    omega

theorem cntTl_succ (z : ChunkedDataset) (hWF : WellFormed z) {i n : Nat}
    (h : i + n < z.scenes.length) :
    cntTl z i (n + 1)
      = ((fTii z ((sFii z i).2 - 1).toNat).2 - (fTii z (sFii z i).1.toNat).1)
        + cntTl z (i + 1) n := by
  rcases Nat.eq_zero_or_pos n with h0 | h0
  · subst h0; simp [cntTl]
  · have htl := fTii_link z hWF (show i + 1 < z.scenes.length by omega)
    have hx : i + (n + 1) - 1 = i + n := by omega
    have hx2 : i + 1 + n - 1 = i + n := by omega
    have hy : n ≠ 0 := by omega
    simp only [cntTl, if_neg hy, if_neg (show n + 1 ≠ 0 by omega), hx, hx2]
    omega

/-- Non-negativity of the per-scene agent block span. -/
theorem perAg_nonneg (z : ChunkedDataset) (hWF : WellFormed z) {i : Nat}
    (hi : i < z.scenes.length) :
    0 ≤ (fAii z ((sFii z i).2 - 1).toNat).2 - (fAii z (sFii z i).1.toNat).1 := by
  have hlo0 := hWF.sChain.lo_nonneg i hi
  have hlt := hWF.sStrict i hi
  have hhiF := hWF.sChain.hi_le i hi
  have hx1 : (sFii z i).1.toNat ≤ ((sFii z i).2 - 1).toNat := by omega
  have hx2 : ((sFii z i).2 - 1).toNat < z.frames.length := by omega
  have h4 := hWF.aChain.lo_mono hx1 hx2
  have h5 := hWF.aChain.lo_le_hi _ hx2
  omega

/-- Non-negativity of the per-scene tl-face block span. -/
theorem perTl_nonneg (z : ChunkedDataset) (hWF : WellFormed z) {i : Nat}
    (hi : i < z.scenes.length) :
    0 ≤ (fTii z ((sFii z i).2 - 1).toNat).2 - (fTii z (sFii z i).1.toNat).1 := by
  have hlo0 := hWF.sChain.lo_nonneg i hi
  have hlt := hWF.sStrict i hi
  have hhiF := hWF.sChain.hi_le i hi
  have hx1 : (sFii z i).1.toNat ≤ ((sFii z i).2 - 1).toNat := by omega
  have hx2 : ((sFii z i).2 - 1).toNat < z.frames.length := by omega
  have h4 := hWF.tChain.lo_mono hx1 hx2
  have h5 := hWF.tChain.lo_le_hi _ hx2
  omega

/-- From a loop precondition for `n+1` scenes, the first `copyScene` step
succeeds. -/
theorem copyScene_from_in (z : ChunkedDataset) (hWF : WellFormed z) (dF dA dT : Int)
    {i n : Nat} {st : CopyState} (hin : CopyIn z dF dA dT i (n + 1) st) :
    ∃ st2, copyScene z dF dA dT st (i : Int) = some st2 ∧
      StepFacts z dF dA dT i st st2 := by
  have hr := hin.range
  have hiS : i < z.scenes.length := by omega
  have hperF : 0 ≤ (sFii z i).2 - (sFii z i).1 := by
    have := hWF.sStrict i hiS; omega
  have hperA := perAg_nonneg z hWF hiS
  have hperT := perTl_nonneg z hWF hiS
  have hdF := cntFr_succ z hWF (show i + n < z.scenes.length by omega)
  have hdA := cntAg_succ z hWF (show i + n < z.scenes.length by omega)
  have hdT := cntTl_succ z hWF (show i + n < z.scenes.length by omega)
  have h0F := cntFr_nonneg z hWF (i + 1) n (by omega)
  have h0A := cntAg_nonneg z hWF (i + 1) n (by omega)
  have h0T := cntTl_nonneg z hWF (i + 1) n (by omega)
  refine copyScene_spec z hWF dF dA dT i hiS st hin.sNn hin.fNn hin.aNn hin.tNn ?_ ?_ ?_ ?_
  · have := hin.sCap; omega
  · have hc := hin.fCap
    rw [hdF] at hc
    omega
  · have hc := hin.aCap
    rw [hdA] at hc
    omega
  · have hc := hin.tCap
    rw [hdT] at hc
    omega

/-- The loop precondition is preserved across one `copyScene` step: from
`CopyIn` for `n+1` scenes at `i` to `CopyIn` for `n` scenes at `i+1`. -/
theorem copyIn_tail (z : ChunkedDataset) (hWF : WellFormed z) (dF dA dT : Int)
    {i n : Nat} {st st2 : CopyState} (hin : CopyIn z dF dA dT i (n + 1) st)
    (hsf : StepFacts z dF dA dT i st st2) : CopyIn z dF dA dT (i + 1) n st2 := by
  have hr := hin.range
  have hiS : i < z.scenes.length := by omega
  have hF1 := hin.fCur (by omega)
  have hA1 := hin.aCur (by omega)
  have hT1 := hin.tCur (by omega)
  have hperF : 0 ≤ (sFii z i).2 - (sFii z i).1 := by
    have := hWF.sStrict i hiS; omega
  have hperA := perAg_nonneg z hWF hiS
  have hperT := perTl_nonneg z hWF hiS
  have hdF := cntFr_succ z hWF (show i + n < z.scenes.length by omega)
  have hdA := cntAg_succ z hWF (show i + n < z.scenes.length by omega)
  have hdT := cntTl_succ z hWF (show i + n < z.scenes.length by omega)
  refine { range := by omega
           sNn := by rw [hsf.curS]; have := hin.sNn; omega
           fNn := by rw [hsf.curF]; have := hin.fNn; omega
           aNn := by rw [hsf.curA]; have := hin.aNn; omega
           tNn := by rw [hsf.curT]; have := hin.tNn; omega
           fCur := fun hn => ?_
           aCur := fun hn => ?_
           tCur := fun hn => ?_
           sCap := by rw [hsf.curS, hsf.lenS]; have := hin.sCap; have := hin.sNn; omega
           fCap := ?_
           aCap := ?_
           tCap := ?_ }
  · have hch := hWF.sChain.chain i (by omega)
    rw [hsf.curF, hF1, ← hch]
    ring
  · have hal := fAii_link z hWF (show i + 1 < z.scenes.length by omega)
    rw [hsf.curA, hA1, ← hal]
    ring
  · have htl := fTii_link z hWF (show i + 1 < z.scenes.length by omega)
    rw [hsf.curT, hT1, ← htl]
    ring
  · rw [hsf.curF, hsf.lenF]
    have hc := hin.fCap
    rw [hdF] at hc
    have h0F := cntFr_nonneg z hWF (i + 1) n (by omega)
    have := hin.fNn
    omega
  · rw [hsf.curA, hsf.lenA]
    have hc := hin.aCap
    rw [hdA] at hc
    have h0A := cntAg_nonneg z hWF (i + 1) n (by omega)
    have := hin.aNn
    omega
  · rw [hsf.curT, hsf.lenT]
    have hc := hin.tCap
    rw [hdT] at hc
    have h0T := cntTl_nonneg z hWF (i + 1) n (by omega)
    have := hin.tNn
    omega

/-- Scene-level part of the loop postcondition composition. -/
theorem copyOut_cons_scenes (z : ChunkedDataset) (hWF : WellFormed z) (dF dA dT : Int)
    {i n : Nat} {st st2 st' : CopyState} (hin : CopyIn z dF dA dT i (n + 1) st)
    (hsf : StepFacts z dF dA dT i st st2)
    (hout : CopyOut z dF dA dT (i + 1) n st2 st') :
    st'.idx_output_scene = st.idx_output_scene + (n + 1 : Nat) ∧
    (∀ k, k < n + 1 → st'.out.scenes.getD (st.idx_output_scene.toNat + k) dScene
      = rebaseScene dF (z.scenes.getD (i + k) dScene)) ∧
    (∀ p : Nat, p < st.idx_output_scene.toNat ∨ st.idx_output_scene.toNat + (n + 1) ≤ p →
      st'.out.scenes.getD p dScene = st.out.scenes.getD p dScene) := by
  have hSn := hin.sNn
  refine ⟨by rw [hout.curS, hsf.curS]; push_cast; ring, ?_, ?_⟩
  · intro k hk
    rcases Nat.eq_zero_or_pos k with hk0 | hk0
    · subst hk0
      rw [hout.keepS (st.idx_output_scene.toNat + 0) (Or.inl (by rw [hsf.curS]; omega)),
        hsf.outS]
      rw [getD_writeVal_inside st.out.scenes st.idx_output_scene _ 0 dScene
        (by simp) (by simpa using hsf.wS)]
      simp
    · have hx : st.idx_output_scene.toNat + k = st2.idx_output_scene.toNat + (k - 1) := by
        rw [hsf.curS]; omega
      have hy : i + k = i + 1 + (k - 1) := by omega
      rw [hx, hy]
      exact hout.sceneAt (k - 1) (by omega)
  · intro p hp
    rw [hout.keepS p (by rw [hsf.curS]; omega), hsf.outS]
    exact getD_writeVal_outside st.out.scenes st.idx_output_scene _ p dScene
      (by simp only [List.length_cons, List.length_nil]; omega)
      (by simpa using hsf.wS)

/-- Frame-level part of the loop postcondition composition. -/
theorem copyOut_cons_frames (z : ChunkedDataset) (hWF : WellFormed z) (dF dA dT : Int)
    {i n : Nat} {st st2 st' : CopyState} (hin : CopyIn z dF dA dT i (n + 1) st)
    (hsf : StepFacts z dF dA dT i st st2)
    (hout : CopyOut z dF dA dT (i + 1) n st2 st') :
    st'.idx_output_frame = st.idx_output_frame + cntFr z i (n + 1) ∧
    (∀ j : Nat, (sFii z i).1 ≤ (j : Int) → (j : Int) < (sFii z i).1 + cntFr z i (n + 1) →
      st'.out.frames.getD (dF + (j : Int)).toNat dFrame
        = rebaseFrame dA dT (z.frames.getD j dFrame)) ∧
    (∀ p : Nat, p < st.idx_output_frame.toNat
        ∨ st.idx_output_frame.toNat + (cntFr z i (n + 1)).toNat ≤ p →
      st'.out.frames.getD p dFrame = st.out.frames.getD p dFrame) := by
  have hr := hin.range
  have hiS : i < z.scenes.length := by omega
  have hF1 := hin.fCur (by omega)
  have hFn := hin.fNn
  have hlo0 : 0 ≤ (sFii z i).1 := hWF.sChain.lo_nonneg i hiS
  have hlt : (sFii z i).1 < (sFii z i).2 := hWF.sStrict i hiS
  have hhiF : (sFii z i).2 ≤ (z.frames.length : Int) := hWF.sChain.hi_le i hiS
  have hdF := cntFr_succ z hWF (show i + n < z.scenes.length by omega)
  have h0F := cntFr_nonneg z hWF (i + 1) n (by omega)
  have hchain : 0 < n → (sFii z i).2 = (sFii z (i + 1)).1 := fun _ =>
    hWF.sChain.chain i (by omega)
  have hslen : (sliceL z.frames (sFii z i).1 (sFii z i).2).length
      = ((sFii z i).2 - (sFii z i).1).toNat :=
    length_sliceL_of_le _ _ _ hlo0 (by omega) (by omega)
  have hfrLen : ((sliceL z.frames (sFii z i).1 (sFii z i).2).map (rebaseFrame dA dT)).length
      = ((sFii z i).2 - (sFii z i).1).toNat := by
    rw [List.length_map]
    exact hslen
  have hWFr : st.idx_output_frame.toNat
      + ((sliceL z.frames (sFii z i).1 (sFii z i).2).map (rebaseFrame dA dT)).length
      ≤ st.out.frames.length := by
    rw [hfrLen]; exact hsf.wF
  refine ⟨by rw [hout.curF, hsf.curF, hdF]; ring, ?_, ?_⟩
  · intro j h1 h2
    by_cases hj : (j : Int) < (sFii z i).2
    · have hjlen : j - (sFii z i).1.toNat
          < (sliceL z.frames (sFii z i).1 (sFii z i).2).length := by
        rw [hslen]; omega
      have hjlen2 : j - (sFii z i).1.toNat
          < ((sliceL z.frames (sFii z i).1 (sFii z i).2).map (rebaseFrame dA dT)).length := by
        rw [hfrLen]; omega
      have hidx : (dF + (j : Int)).toNat
          = st.idx_output_frame.toNat + (j - (sFii z i).1.toNat) := by
        rw [hF1] at hFn ⊢
        omega
      rw [hout.keepF (dF + (j : Int)).toNat (Or.inl (by rw [hsf.curF, hF1]; omega)),
        hsf.outF, hidx]
      rw [getD_writeVal_inside st.out.frames st.idx_output_frame
        ((sliceL z.frames (sFii z i).1 (sFii z i).2).map (rebaseFrame dA dT))
        (j - (sFii z i).1.toNat) dFrame hjlen2 hWFr]
      rw [getD_map_lt (sliceL z.frames (sFii z i).1 (sFii z i).2)
        (j - (sFii z i).1.toNat) dFrame dFrame hjlen]
      rw [getD_sliceL z.frames (sFii z i).1 (sFii z i).2
        (j - (sFii z i).1.toNat) dFrame hjlen]
      have hz : (sFii z i).1.toNat + (j - (sFii z i).1.toNat) = j := by omega
      rw [hz]
    · have hn : 0 < n := by
        rcases Nat.eq_zero_or_pos n with h0 | h0
        · exfalso
          subst h0
          simp only [cntFr, if_neg (show 1 ≠ 0 by omega), Nat.add_sub_cancel] at h2
          omega
        · exact h0
      have hlow : (sFii z (i + 1)).1 ≤ (j : Int) := by rw [← hchain hn]; omega
      have hup : (j : Int) < (sFii z (i + 1)).1 + cntFr z (i + 1) n := by
        rw [← hchain hn]
        rw [hdF] at h2
        omega
      exact hout.frameAt j hlow hup
  · intro p hp
    have hpr : p < st2.idx_output_frame.toNat
        ∨ st2.idx_output_frame.toNat + (cntFr z (i + 1) n).toNat ≤ p := by
      rw [hsf.curF]
      rw [hdF] at hp
      omega
    rw [hout.keepF p hpr, hsf.outF]
    exact getD_writeVal_outside st.out.frames st.idx_output_frame _ p dFrame
      (by rw [hfrLen]; rw [hdF] at hp; omega) hWFr

/-- Agent-level part of the loop postcondition composition. -/
theorem copyOut_cons_agents (z : ChunkedDataset) (hWF : WellFormed z) (dF dA dT : Int)
    {i n : Nat} {st st2 st' : CopyState} (hin : CopyIn z dF dA dT i (n + 1) st)
    (hsf : StepFacts z dF dA dT i st st2)
    (hout : CopyOut z dF dA dT (i + 1) n st2 st') :
    st'.idx_output_agent = st.idx_output_agent + cntAg z i (n + 1) ∧
    (∀ a : Nat, (fAii z (sFii z i).1.toNat).1 ≤ (a : Int) →
      (a : Int) < (fAii z (sFii z i).1.toNat).1 + cntAg z i (n + 1) →
      st'.out.agents.getD (dA + (a : Int)).toNat dAgent = z.agents.getD a dAgent) ∧
    (∀ p : Nat, p < st.idx_output_agent.toNat
        ∨ st.idx_output_agent.toNat + (cntAg z i (n + 1)).toNat ≤ p →
      st'.out.agents.getD p dAgent = st.out.agents.getD p dAgent) := by
  have hr := hin.range
  have hiS : i < z.scenes.length := by omega
  have hA1 := hin.aCur (by omega)
  have hAn := hin.aNn
  have hlo0 : 0 ≤ (sFii z i).1 := hWF.sChain.lo_nonneg i hiS
  have hlt : (sFii z i).1 < (sFii z i).2 := hWF.sStrict i hiS
  have hhiF : (sFii z i).2 ≤ (z.frames.length : Int) := hWF.sChain.hi_le i hiS
  have hloF : (sFii z i).1.toNat < z.frames.length := by omega
  have hhi1F : ((sFii z i).2 - 1).toNat < z.frames.length := by omega
  have haLo0 : 0 ≤ (fAii z (sFii z i).1.toNat).1 := hWF.aChain.lo_nonneg _ hloF
  have haM1 : (fAii z (sFii z i).1.toNat).1 ≤ (fAii z ((sFii z i).2 - 1).toNat).1 :=
    hWF.aChain.lo_mono (by omega) hhi1F
  have haM2 : (fAii z ((sFii z i).2 - 1).toNat).1 ≤ (fAii z ((sFii z i).2 - 1).toNat).2 :=
    hWF.aChain.lo_le_hi _ hhi1F
  have haTot : (fAii z ((sFii z i).2 - 1).toNat).2 ≤ (z.agents.length : Int) :=
    hWF.aChain.hi_le _ hhi1F
  have hdA := cntAg_succ z hWF (show i + n < z.scenes.length by omega)
  have h0A := cntAg_nonneg z hWF (i + 1) n (by omega)
  have hal : 0 < n →
      (fAii z ((sFii z i).2 - 1).toNat).2 = (fAii z (sFii z (i + 1)).1.toNat).1 :=
    fun hn => fAii_link z hWF (by omega)
  have hagLen : (sliceL z.agents (fAii z (sFii z i).1.toNat).1
      (fAii z ((sFii z i).2 - 1).toNat).2).length
      = ((fAii z ((sFii z i).2 - 1).toNat).2 - (fAii z (sFii z i).1.toNat).1).toNat :=
    length_sliceL_of_le _ _ _ haLo0 (by omega) (by omega)
  have hWAg : st.idx_output_agent.toNat
      + (sliceL z.agents (fAii z (sFii z i).1.toNat).1
          (fAii z ((sFii z i).2 - 1).toNat).2).length
      ≤ st.out.agents.length := by
    rw [hagLen]; exact hsf.wA
  refine ⟨by rw [hout.curA, hsf.curA, hdA]; ring, ?_, ?_⟩
  · intro a h1 h2
    by_cases haj : (a : Int) < (fAii z ((sFii z i).2 - 1).toNat).2
    · have halen : a - (fAii z (sFii z i).1.toNat).1.toNat
          < (sliceL z.agents (fAii z (sFii z i).1.toNat).1
              (fAii z ((sFii z i).2 - 1).toNat).2).length := by
        rw [hagLen]; omega
      have hidx : (dA + (a : Int)).toNat
          = st.idx_output_agent.toNat + (a - (fAii z (sFii z i).1.toNat).1.toNat) := by
        rw [hA1] at hAn ⊢
        omega
      rw [hout.keepA (dA + (a : Int)).toNat (Or.inl (by rw [hsf.curA, hA1]; omega)),
        hsf.outA, hidx]
      rw [getD_writeVal_inside st.out.agents st.idx_output_agent
        (sliceL z.agents (fAii z (sFii z i).1.toNat).1
          (fAii z ((sFii z i).2 - 1).toNat).2)
        (a - (fAii z (sFii z i).1.toNat).1.toNat) dAgent halen hWAg]
      rw [getD_sliceL z.agents (fAii z (sFii z i).1.toNat).1
        (fAii z ((sFii z i).2 - 1).toNat).2
        (a - (fAii z (sFii z i).1.toNat).1.toNat) dAgent halen]
      have hz : (fAii z (sFii z i).1.toNat).1.toNat
          + (a - (fAii z (sFii z i).1.toNat).1.toNat) = a := by omega
      rw [hz]
    · have hn : 0 < n := by
        rcases Nat.eq_zero_or_pos n with h0 | h0
        · exfalso
          subst h0
          simp only [cntAg, if_neg (show 1 ≠ 0 by omega), Nat.add_sub_cancel] at h2
          omega
        · exact h0
      have hlow : (fAii z (sFii z (i + 1)).1.toNat).1 ≤ (a : Int) := by
        rw [← hal hn]; omega
      have hup : (a : Int) < (fAii z (sFii z (i + 1)).1.toNat).1 + cntAg z (i + 1) n := by
        rw [← hal hn]
        rw [hdA] at h2
        omega
      exact hout.agentAt a hlow hup
  · intro p hp
    have hpr : p < st2.idx_output_agent.toNat
        ∨ st2.idx_output_agent.toNat + (cntAg z (i + 1) n).toNat ≤ p := by
      rw [hsf.curA]
      rw [hdA] at hp
      omega
    rw [hout.keepA p hpr, hsf.outA]
    exact getD_writeVal_outside st.out.agents st.idx_output_agent _ p dAgent
      (by rw [hagLen]; rw [hdA] at hp; omega) hWAg

/-- Tl-face-level part of the loop postcondition composition. -/
theorem copyOut_cons_tl (z : ChunkedDataset) (hWF : WellFormed z) (dF dA dT : Int)
    {i n : Nat} {st st2 st' : CopyState} (hin : CopyIn z dF dA dT i (n + 1) st)
    (hsf : StepFacts z dF dA dT i st st2)
    (hout : CopyOut z dF dA dT (i + 1) n st2 st') :
    st'.idx_output_tl_face = st.idx_output_tl_face + cntTl z i (n + 1) ∧
    (∀ t : Nat, (fTii z (sFii z i).1.toNat).1 ≤ (t : Int) →
      (t : Int) < (fTii z (sFii z i).1.toNat).1 + cntTl z i (n + 1) →
      st'.out.tl_faces.getD (dT + (t : Int)).toNat dTlFace = z.tl_faces.getD t dTlFace) ∧
    (∀ p : Nat, p < st.idx_output_tl_face.toNat
        ∨ st.idx_output_tl_face.toNat + (cntTl z i (n + 1)).toNat ≤ p →
      st'.out.tl_faces.getD p dTlFace = st.out.tl_faces.getD p dTlFace) := by
  have hr := hin.range
  have hiS : i < z.scenes.length := by omega
  have hT1 := hin.tCur (by omega)
  have hTn := hin.tNn
  have hlo0 : 0 ≤ (sFii z i).1 := hWF.sChain.lo_nonneg i hiS
  have hlt : (sFii z i).1 < (sFii z i).2 := hWF.sStrict i hiS
  have hhiF : (sFii z i).2 ≤ (z.frames.length : Int) := hWF.sChain.hi_le i hiS
  have hloF : (sFii z i).1.toNat < z.frames.length := by omega
  have hhi1F : ((sFii z i).2 - 1).toNat < z.frames.length := by omega
  have htLo0 : 0 ≤ (fTii z (sFii z i).1.toNat).1 := hWF.tChain.lo_nonneg _ hloF
  have htM1 : (fTii z (sFii z i).1.toNat).1 ≤ (fTii z ((sFii z i).2 - 1).toNat).1 :=
    hWF.tChain.lo_mono (by omega) hhi1F
  have htM2 : (fTii z ((sFii z i).2 - 1).toNat).1 ≤ (fTii z ((sFii z i).2 - 1).toNat).2 :=
    hWF.tChain.lo_le_hi _ hhi1F
  have htTot : (fTii z ((sFii z i).2 - 1).toNat).2 ≤ (z.tl_faces.length : Int) :=
    hWF.tChain.hi_le _ hhi1F
  have hdT := cntTl_succ z hWF (show i + n < z.scenes.length by omega)
  have h0T := cntTl_nonneg z hWF (i + 1) n (by omega)
  have htl : 0 < n →
      (fTii z ((sFii z i).2 - 1).toNat).2 = (fTii z (sFii z (i + 1)).1.toNat).1 :=
    fun hn => fTii_link z hWF (by omega)
  have htlLen : (sliceL z.tl_faces (fTii z (sFii z i).1.toNat).1
      (fTii z ((sFii z i).2 - 1).toNat).2).length
      = ((fTii z ((sFii z i).2 - 1).toNat).2 - (fTii z (sFii z i).1.toNat).1).toNat :=
    length_sliceL_of_le _ _ _ htLo0 (by omega) (by omega)
  have hWTl : st.idx_output_tl_face.toNat
      + (sliceL z.tl_faces (fTii z (sFii z i).1.toNat).1
          (fTii z ((sFii z i).2 - 1).toNat).2).length
      ≤ st.out.tl_faces.length := by
    rw [htlLen]; exact hsf.wT
  refine ⟨by rw [hout.curT, hsf.curT, hdT]; ring, ?_, ?_⟩
  · intro t h1 h2
    by_cases htj : (t : Int) < (fTii z ((sFii z i).2 - 1).toNat).2
    · have htlen : t - (fTii z (sFii z i).1.toNat).1.toNat
          < (sliceL z.tl_faces (fTii z (sFii z i).1.toNat).1
              (fTii z ((sFii z i).2 - 1).toNat).2).length := by
        rw [htlLen]; omega
      have hidx : (dT + (t : Int)).toNat
          = st.idx_output_tl_face.toNat + (t - (fTii z (sFii z i).1.toNat).1.toNat) := by
        rw [hT1] at hTn ⊢
        omega
      rw [hout.keepT (dT + (t : Int)).toNat (Or.inl (by rw [hsf.curT, hT1]; omega)),
        hsf.outT, hidx]
      rw [getD_writeVal_inside st.out.tl_faces st.idx_output_tl_face
        (sliceL z.tl_faces (fTii z (sFii z i).1.toNat).1
          (fTii z ((sFii z i).2 - 1).toNat).2)
        (t - (fTii z (sFii z i).1.toNat).1.toNat) dTlFace htlen hWTl]
      rw [getD_sliceL z.tl_faces (fTii z (sFii z i).1.toNat).1
        (fTii z ((sFii z i).2 - 1).toNat).2
        (t - (fTii z (sFii z i).1.toNat).1.toNat) dTlFace htlen]
      have hz : (fTii z (sFii z i).1.toNat).1.toNat
          + (t - (fTii z (sFii z i).1.toNat).1.toNat) = t := by omega
      rw [hz]
    · have hn : 0 < n := by
        rcases Nat.eq_zero_or_pos n with h0 | h0
        · exfalso
          subst h0
          simp only [cntTl, if_neg (show 1 ≠ 0 by omega), Nat.add_sub_cancel] at h2
          omega
        · exact h0
      have hlow : (fTii z (sFii z (i + 1)).1.toNat).1 ≤ (t : Int) := by
        rw [← htl hn]; omega
      have hup : (t : Int) < (fTii z (sFii z (i + 1)).1.toNat).1 + cntTl z (i + 1) n := by
        rw [← htl hn]
        rw [hdT] at h2
        omega
      exact hout.tlAt t hlow hup
  · intro p hp
    have hpr : p < st2.idx_output_tl_face.toNat
        ∨ st2.idx_output_tl_face.toNat + (cntTl z (i + 1) n).toNat ≤ p := by
      rw [hsf.curT]
      rw [hdT] at hp
      omega
    rw [hout.keepT p hpr, hsf.outT]
    exact getD_writeVal_outside st.out.tl_faces st.idx_output_tl_face _ p dTlFace
      (by rw [htlLen]; rw [hdT] at hp; omega) hWTl

/-- The loop postcondition composes: one `copyScene` step followed by a run
satisfying `CopyOut` for `[i+1, i+1+n)` yields `CopyOut` for `[i, i+n+1)`. -/
theorem copyOut_cons (z : ChunkedDataset) (hWF : WellFormed z) (dF dA dT : Int)
    {i n : Nat} {st st2 st' : CopyState} (hin : CopyIn z dF dA dT i (n + 1) st)
    (hsf : StepFacts z dF dA dT i st st2)
    (hout : CopyOut z dF dA dT (i + 1) n st2 st') :
    CopyOut z dF dA dT i (n + 1) st st' := by
  obtain ⟨hs1, hs2, hs3⟩ := copyOut_cons_scenes z hWF dF dA dT hin hsf hout
  obtain ⟨hf1, hf2, hf3⟩ := copyOut_cons_frames z hWF dF dA dT hin hsf hout
  obtain ⟨ha1, ha2, ha3⟩ := copyOut_cons_agents z hWF dF dA dT hin hsf hout
  obtain ⟨ht1, ht2, ht3⟩ := copyOut_cons_tl z hWF dF dA dT hin hsf hout
  exact ⟨hout.lenS.trans hsf.lenS, hout.lenF.trans hsf.lenF, hout.lenA.trans hsf.lenA,
    hout.lenT.trans hsf.lenT, hs1, hf1, ha1, ht1, hs2, hf2, ha2, ht2, hs3, hf3, ha3, ht3⟩

/-! ### The Subset Copier's scene loop, fully characterized -/

/-- Master lemma for `appendLoop` over a well-formed input: from any state
satisfying the loop precondition `CopyIn`, the loop over the scene range
`[i, i+n)` succeeds and its result satisfies the postcondition `CopyOut`. -/
theorem appendLoop_spec (z : ChunkedDataset) (hWF : WellFormed z) (dF dA dT : Int) :
    ∀ (n i : Nat) (st : CopyState), CopyIn z dF dA dT i n st →
    ∃ st', appendLoop z dF dA dT st (i : Int) n = some st' ∧
      CopyOut z dF dA dT i n st st' := by
  intro n
  induction n with
  | zero =>
    intro i st _
    refine ⟨st, rfl, rfl, rfl, rfl, rfl, by simp, by simp [cntFr], by simp [cntAg],
      by simp [cntTl], ?_, ?_, ?_, ?_, ?_, ?_, ?_, ?_⟩
    · intro k hk; omega
    · intro j h1 h2; rw [cntFr] at h2; simp at h2; omega
    · intro a h1 h2; rw [cntAg] at h2; simp at h2; omega
    · intro t h1 h2; rw [cntTl] at h2; simp at h2; omega
    · intro p _; rfl
    · intro p _; rfl
    · intro p _; rfl
    · intro p _; rfl
  | succ n ih =>
    intro i st hin
    obtain ⟨st2, hstep, hsf⟩ := copyScene_from_in z hWF dF dA dT hin
    obtain ⟨st', hrun, hout⟩ := ih (i + 1) st2 (copyIn_tail z hWF dF dA dT hin hsf)
    refine ⟨st', ?_, copyOut_cons z hWF dF dA dT hin hsf hout⟩
    simp only [appendLoop]
    rw [hstep, Option.some_bind]
    have hcast : ((i : Int) + 1) = ((i + 1 : Nat) : Int) := by push_cast; ring
    rw [hcast]
    exact hrun

/-! ### Inversion: a successful step or loop implies capacity sufficed -/

set_option maxHeartbeats 800000 in
/-- Inversion of one `copyScene` step: on a well-formed input at an in-range
scene index, success alone implies all four writes were in bounds and the
post-step state satisfies `StepFacts`. -/
theorem copyScene_some_inv (z : ChunkedDataset) (hWF : WellFormed z) (dF dA dT : Int)
    (i : Nat) (hi : i < z.scenes.length) (st st2 : CopyState)
    (h : copyScene z dF dA dT st (i : Int) = some st2) :
    StepFacts z dF dA dT i st st2 := by
  have hlo0 : 0 ≤ (sFii z i).1 := hWF.sChain.lo_nonneg i hi
  have hlt : (sFii z i).1 < (sFii z i).2 := hWF.sStrict i hi
  have hhiF : (sFii z i).2 ≤ (z.frames.length : Int) := hWF.sChain.hi_le i hi
  have hloF : (sFii z i).1.toNat < z.frames.length := by omega
  have hperA := perAg_nonneg z hWF hi
  have hperT := perTl_nonneg z hWF hi
  have hsc : sliceL z.scenes (i : Int) ((i : Int) + 1) = [z.scenes.getD i dScene] := by
    have := sliceL_singleton z.scenes (i : Int) dScene (by omega) (by simpa using hi)
    simpa using this
  have hslen : (sliceL z.frames (sFii z i).1 (sFii z i).2).length
      = ((sFii z i).2 - (sFii z i).1).toNat :=
    length_sliceL_of_le _ _ _ hlo0 (by omega) (by omega)
  have hfrhead : (sliceL z.frames (sFii z i).1 (sFii z i).2).headD dFrame
      = z.frames.getD (sFii z i).1.toNat dFrame :=
    headD_sliceL _ _ _ _ (by omega)
  have hfrlast : (sliceL z.frames (sFii z i).1 (sFii z i).2).getLastD dFrame
      = z.frames.getD ((sFii z i).2 - 1).toNat dFrame := by
    rw [getLastD_sliceL _ _ _ _ hlo0 hlt (by omega)]
    congr 1
    omega
  have haLo0 : 0 ≤ (fAii z (sFii z i).1.toNat).1 := hWF.aChain.lo_nonneg _ hloF
  have haTot : (fAii z ((sFii z i).2 - 1).toNat).2 ≤ (z.agents.length : Int) :=
    hWF.aChain.hi_le _ (by omega)
  have haglen : (sliceL z.agents (fAii z (sFii z i).1.toNat).1
      (fAii z ((sFii z i).2 - 1).toNat).2).length
      = ((fAii z ((sFii z i).2 - 1).toNat).2 - (fAii z (sFii z i).1.toNat).1).toNat :=
    length_sliceL_of_le _ _ _ haLo0 (by omega) (by omega)
  have htLo0 : 0 ≤ (fTii z (sFii z i).1.toNat).1 := hWF.tChain.lo_nonneg _ hloF
  have htTot : (fTii z ((sFii z i).2 - 1).toNat).2 ≤ (z.tl_faces.length : Int) :=
    hWF.tChain.hi_le _ (by omega)
  have htllen : (sliceL z.tl_faces (fTii z (sFii z i).1.toNat).1
      (fTii z ((sFii z i).2 - 1).toNat).2).length
      = ((fTii z ((sFii z i).2 - 1).toNat).2 - (fTii z (sFii z i).1.toNat).1).toNat :=
    length_sliceL_of_le _ _ _ htLo0 (by omega) (by omega)
  have hsfii : (z.scenes.getD i dScene).frame_index_interval = sFii z i := rfl
  have hfa1 : ∀ j : Nat, (z.frames.getD j dFrame).agent_index_interval = fAii z j :=
    fun _ => rfl
  have hft1 : ∀ j : Nat, (z.frames.getD j dFrame).traffic_light_faces_index_interval
      = fTii z j := fun _ => rfl
  unfold copyScene at h
  rw [hsc] at h
  simp only [List.headD_cons, List.map_cons, List.map_nil] at h
  simp only [hsfii] at h
  rw [hfrhead, hfrlast] at h
  simp only [hfa1, hft1] at h
  simp only [Option.bind_eq_some, Option.some.injEq] at h
  obtain ⟨v1, h1, v2, h2, v3, h3, v4, h4, h⟩ := h
  obtain ⟨q1, q1b, hv1⟩ := writeSlice_some_inv h1
  obtain ⟨q2, q2b, hv2⟩ := writeSlice_some_inv h2
  obtain ⟨q3, q3b, hv3⟩ := writeSlice_some_inv h3
  obtain ⟨q4, q4b, hv4⟩ := writeSlice_some_inv h4
  subst hv1 hv2 hv3 hv4
  rw [← h]
  simp only [List.length_cons, List.length_nil] at q1b
  rw [List.length_map, hslen] at q2b
  rw [haglen] at q3b
  rw [htllen] at q4b
  refine ⟨rfl, rfl, rfl, rfl, by simp, ?_, ?_, ?_,
    length_writeVal _ _ _ (by simpa using q1b),
    length_writeVal _ _ _ (by rw [List.length_map, hslen]; exact q2b),
    length_writeVal _ _ _ (by rw [haglen]; exact q3b),
    length_writeVal _ _ _ (by rw [htllen]; exact q4b),
    by simpa using q1b, q2b, q3b, q4b⟩
  · show st.idx_output_frame
        + (((sliceL z.frames (sFii z i).1 (sFii z i).2).map (rebaseFrame dA dT)).length : Int)
      = st.idx_output_frame + ((sFii z i).2 - (sFii z i).1)
    rw [List.length_map, hslen]
    omega
  · show st.idx_output_agent
        + ((sliceL z.agents (fAii z (sFii z i).1.toNat).1
            (fAii z ((sFii z i).2 - 1).toNat).2).length : Int)
      = st.idx_output_agent
        + ((fAii z ((sFii z i).2 - 1).toNat).2 - (fAii z (sFii z i).1.toNat).1)
    rw [haglen]
    omega
  · show st.idx_output_tl_face
        + ((sliceL z.tl_faces (fTii z (sFii z i).1.toNat).1
            (fTii z ((sFii z i).2 - 1).toNat).2).length : Int)
      = st.idx_output_tl_face
        + ((fTii z ((sFii z i).2 - 1).toNat).2 - (fTii z (sFii z i).1.toNat).1)
    rw [htllen]
    omega

/-- One-step unfolding of the scene loop. -/
theorem appendLoop_succ (z : ChunkedDataset) (dF dA dT : Int) (st : CopyState)
    (idx : Int) (n : Nat) :
    appendLoop z dF dA dT st idx (n + 1)
      = (copyScene z dF dA dT st idx).bind
          (fun st2 => appendLoop z dF dA dT st2 (idx + 1) n) := rfl

/-- Inversion of the scene loop: under the cursor discipline, success of the
loop over a non-empty scene range implies the destination had capacity for the
boundary-difference counts of the whole range — an out-of-range write never
silently succeeds. -/
theorem appendLoop_some_inv (z : ChunkedDataset) (hWF : WellFormed z) (dF dA dT : Int) :
    ∀ (n i : Nat) (st st' : CopyState), CurOk z dF dA dT i (n + 1) st →
    appendLoop z dF dA dT st (i : Int) (n + 1) = some st' →
    st.idx_output_scene.toNat + (n + 1) ≤ st.out.scenes.length ∧
    st.idx_output_frame.toNat + (cntFr z i (n + 1)).toNat ≤ st.out.frames.length ∧
    st.idx_output_agent.toNat + (cntAg z i (n + 1)).toNat ≤ st.out.agents.length ∧
    st.idx_output_tl_face.toNat + (cntTl z i (n + 1)).toNat ≤ st.out.tl_faces.length := by
  intro n
  induction n with
  | zero =>
    intro i st st' hcur hrun
    have hiS : i < z.scenes.length := by have := hcur.range; omega
    rw [appendLoop_succ, Option.bind_eq_some] at hrun
    obtain ⟨st2, hc, _⟩ := hrun
    have hsf := copyScene_some_inv z hWF dF dA dT i hiS st st2 hc
    have e1 : cntFr z i 1 = (sFii z i).2 - (sFii z i).1 := by simp [cntFr]
    have e2 : cntAg z i 1
        = (fAii z ((sFii z i).2 - 1).toNat).2 - (fAii z (sFii z i).1.toNat).1 := by
      simp [cntAg]
    have e3 : cntTl z i 1
        = (fTii z ((sFii z i).2 - 1).toNat).2 - (fTii z (sFii z i).1.toNat).1 := by
      simp [cntTl]
    exact ⟨by have := hsf.wS; omega, by rw [e1]; exact hsf.wF,
      by rw [e2]; exact hsf.wA, by rw [e3]; exact hsf.wT⟩
  | succ n ih =>
    intro i st st' hcur hrun
    have hiS : i < z.scenes.length := by have := hcur.range; omega
    rw [appendLoop_succ, Option.bind_eq_some] at hrun
    obtain ⟨st2, hc, hrun⟩ := hrun
    have hsf := copyScene_some_inv z hWF dF dA dT i hiS st st2 hc
    have hF1 := hcur.fCur (by omega)
    have hA1 := hcur.aCur (by omega)
    have hT1 := hcur.tCur (by omega)
    have hperF : 0 ≤ (sFii z i).2 - (sFii z i).1 := by
      have := hWF.sStrict i hiS; omega
    have hperA := perAg_nonneg z hWF hiS
    have hperT := perTl_nonneg z hWF hiS
    have hcur2 : CurOk z dF dA dT (i + 1) (n + 1) st2 :=
      { range := by have := hcur.range; omega
        sNn := by rw [hsf.curS]; have := hcur.sNn; omega
        fNn := by rw [hsf.curF]; have := hcur.fNn; omega
        aNn := by rw [hsf.curA]; have := hcur.aNn; omega
        tNn := by rw [hsf.curT]; have := hcur.tNn; omega
        fCur := fun _ => by
          have hch := hWF.sChain.chain i (by have := hcur.range; omega)
          rw [hsf.curF, hF1, ← hch]; ring
        aCur := fun _ => by
          have hal := fAii_link z hWF
            (show i + 1 < z.scenes.length by have := hcur.range; omega)
          rw [hsf.curA, hA1, ← hal]; ring
        tCur := fun _ => by
          have htl := fTii_link z hWF
            (show i + 1 < z.scenes.length by have := hcur.range; omega)
          rw [hsf.curT, hT1, ← htl]; ring }
    have hcast : ((i : Int) + 1) = ((i + 1 : Nat) : Int) := by push_cast; ring
    rw [hcast] at hrun
    obtain ⟨c1, c2, c3, c4⟩ := ih (i + 1) st2 st' hcur2 hrun
    have hdF := cntFr_succ z hWF
      (show i + (n + 1) < z.scenes.length by have := hcur.range; omega)
    have hdA := cntAg_succ z hWF
      (show i + (n + 1) < z.scenes.length by have := hcur.range; omega)
    have hdT := cntTl_succ z hWF
      (show i + (n + 1) < z.scenes.length by have := hcur.range; omega)
    have h0F := cntFr_nonneg z hWF (i + 1) (n + 1) (by have := hcur.range; omega)
    have h0A := cntAg_nonneg z hWF (i + 1) (n + 1) (by have := hcur.range; omega)
    have h0T := cntTl_nonneg z hWF (i + 1) (n + 1) (by have := hcur.range; omega)
    refine ⟨?_, ?_, ?_, ?_⟩
    · rw [hsf.curS, hsf.lenS] at c1
      have := hcur.sNn
      omega
    · rw [hsf.curF, hsf.lenF] at c2
      rw [hdF]
      have := hcur.fNn
      omega
    · rw [hsf.curA, hsf.lenA] at c3
      rw [hdA]
      have := hcur.aNn
      omega
    · rw [hsf.curT, hsf.lenT] at c4
      rw [hdT]
      have := hcur.tNn
      omega

/-! ### The Range Accountant and the Subset Copier at the call level -/

/-- On a well-formed dataset and a valid scene range, the Range Accountant
returns exactly the boundary-difference counts. -/
theorem get_num_els_eq_cnt (z : ChunkedDataset) (s e : Nat)
    (hse : s < e) :
    get_num_els_in_scene_range z (s : Int) (e : Int) =
      some ⟨(e : Int) - (s : Int), cntFr z s (e - s), cntAg z s (e - s), cntTl z s (e - s)⟩ := by
  have hgt : (e : Int) > (s : Int) := by omega
  have hne : e - s ≠ 0 := by omega
  have hidx : s + (e - s) - 1 = e - 1 := by omega
  have ht1 : ((e : Int) - 1).toNat = e - 1 := by omega
  have ht2 : ((s : Int)).toNat = s := by omega
  rw [get_num_els_in_scene_range, if_pos hgt]
  simp only [ht1, ht2, cntFr, cntAg, cntTl, if_neg hne, hidx]
  rfl

/-- Full characterization of `_append_zarr_subset` on a well-formed input, a
valid scene range and explicit non-negative write offsets with sufficient
destination capacity: the call succeeds and its result is described by
`CopyOut` for the per-invocation deltas computed from the first copied
scene. -/
theorem append_zarr_subset_spec (z dst : ChunkedDataset) (hWF : WellFormed z)
    (s e : Nat) (hse : s < e) (heS : e ≤ z.scenes.length) (els : NumEls)
    (h0S : 0 ≤ els.num_scenes) (h0F : 0 ≤ els.num_frames) (h0A : 0 ≤ els.num_agents)
    (h0T : 0 ≤ els.num_tl_faces)
    (hcS : els.num_scenes.toNat + (e - s) ≤ dst.scenes.length)
    (hcF : els.num_frames.toNat + (cntFr z s (e - s)).toNat ≤ dst.frames.length)
    (hcA : els.num_agents.toNat + (cntAg z s (e - s)).toNat ≤ dst.agents.length)
    (hcT : els.num_tl_faces.toNat + (cntTl z s (e - s)).toNat ≤ dst.tl_faces.length) :
    ∃ st', appendLoop z (els.num_frames - (sFii z s).1)
        (els.num_agents - (fAii z (sFii z s).1.toNat).1)
        (els.num_tl_faces - (fTii z (sFii z s).1.toNat).1)
        ⟨dst, els.num_scenes, els.num_frames, els.num_agents, els.num_tl_faces⟩
        (s : Int) (e - s) = some st' ∧
      append_zarr_subset z dst (s : Int) (e : Int) (some els) = some st'.out ∧
      CopyOut z (els.num_frames - (sFii z s).1)
        (els.num_agents - (fAii z (sFii z s).1.toNat).1)
        (els.num_tl_faces - (fTii z (sFii z s).1.toNat).1) s (e - s)
        ⟨dst, els.num_scenes, els.num_frames, els.num_agents, els.num_tl_faces⟩ st' := by
  have hin : CopyIn z (els.num_frames - (sFii z s).1)
      (els.num_agents - (fAii z (sFii z s).1.toNat).1)
      (els.num_tl_faces - (fTii z (sFii z s).1.toNat).1) s (e - s)
      ⟨dst, els.num_scenes, els.num_frames, els.num_agents, els.num_tl_faces⟩ :=
    { range := by omega
      sNn := h0S
      fNn := h0F
      aNn := h0A
      tNn := h0T
      fCur := fun _ => by show els.num_frames = _; ring
      aCur := fun _ => by show els.num_agents = _; ring
      tCur := fun _ => by show els.num_tl_faces = _; ring
      sCap := hcS
      fCap := hcF
      aCap := hcA
      tCap := hcT }
  obtain ⟨st', hrun, hout⟩ := appendLoop_spec z hWF
    (els.num_frames - (sFii z s).1)
    (els.num_agents - (fAii z (sFii z s).1.toNat).1)
    (els.num_tl_faces - (fTii z (sFii z s).1.toNat).1)
    (e - s) s ⟨dst, els.num_scenes, els.num_frames, els.num_agents, els.num_tl_faces⟩ hin
  refine ⟨st', hrun, ?_, hout⟩
  show (appendLoop z _ _ _ _ _ _).map CopyState.out = some st'.out
  have ht2 : ((s : Int)).toNat = s := by omega
  have ht3 : ((e : Int) - (s : Int)).toNat = e - s := by omega
  have e1 : ∀ k : Nat, (z.scenes.getD k dScene).frame_index_interval = sFii z k :=
    fun _ => rfl
  have e2 : ∀ k : Nat, (z.frames.getD k dFrame).agent_index_interval = fAii z k :=
    fun _ => rfl
  have e3 : ∀ k : Nat, (z.frames.getD k dFrame).traffic_light_faces_index_interval
      = fTii z k := fun _ => rfl
  simp only [ht2, ht3, e1, e2, e3]
  rw [hrun]
  rfl

/-! ### Full-range counts and the Concatenator's bookkeeping -/

theorem cntFr_full (z : ChunkedDataset) (hWF : WellFormed z) :
    cntFr z 0 z.scenes.length = (z.frames.length : Int) := by
  have hS := hWF.scenes_pos
  have hne : z.scenes.length ≠ 0 := by omega
  simp only [cntFr, if_neg hne, Nat.zero_add]
  have h1 := hWF.sChain.last_eq hS
  have h2 := hWF.sChain.first_eq hS
  omega

theorem frames_pos (z : ChunkedDataset) (hWF : WellFormed z) : 0 < z.frames.length := by
  have hS := hWF.scenes_pos
  have h1 := hWF.sStrict 0 hS
  have h2 := hWF.sChain.hi_le 0 hS
  have h3 := hWF.sChain.first_eq hS
  omega

theorem cntAg_full (z : ChunkedDataset) (hWF : WellFormed z) :
    cntAg z 0 z.scenes.length = (z.agents.length : Int) := by
  have hS := hWF.scenes_pos
  have hne : z.scenes.length ≠ 0 := by omega
  have hFpos := frames_pos z hWF
  simp only [cntAg, if_neg hne, Nat.zero_add]
  rw [hWF.sChain.last_eq hS, hWF.sChain.first_eq hS]
  have e1 : ((z.frames.length : Int) - 1).toNat = z.frames.length - 1 := by omega
  have e2 : (0 : Int).toNat = 0 := rfl
  rw [e1, e2, hWF.aChain.last_eq hFpos, hWF.aChain.first_eq hFpos]
  ring

theorem cntTl_full (z : ChunkedDataset) (hWF : WellFormed z) :
    cntTl z 0 z.scenes.length = (z.tl_faces.length : Int) := by
  have hS := hWF.scenes_pos
  have hne : z.scenes.length ≠ 0 := by omega
  have hFpos := frames_pos z hWF
  simp only [cntTl, if_neg hne, Nat.zero_add]
  rw [hWF.sChain.last_eq hS, hWF.sChain.first_eq hS]
  have e1 : ((z.frames.length : Int) - 1).toNat = z.frames.length - 1 := by omega
  have e2 : (0 : Int).toNat = 0 := rfl
  rw [e1, e2, hWF.tChain.last_eq hFpos, hWF.tChain.first_eq hFpos]
  ring

/-- On a well-formed dataset, the Range Accountant over the full scene range
returns exactly the four sequence lengths. -/
theorem get_num_els_full (z : ChunkedDataset) (hWF : WellFormed z) :
    get_num_els_in_scene_range z 0 (z.scenes.length : Int) = some (fullEls z) := by
  have h := get_num_els_eq_cnt z 0 z.scenes.length hWF.scenes_pos
  simp only [Nat.cast_zero, Nat.sub_zero, sub_zero] at h
  rw [h, cntFr_full z hWF, cntAg_full z hWF, cntTl_full z hWF]
  rfl

theorem addEls_zero_right (a : NumEls) : addEls a zeroEls = a := by
  cases a
  simp [addEls, zeroEls]

theorem addEls_assoc (a b c : NumEls) : addEls (addEls a b) c = addEls a (addEls b c) := by
  cases a
  cases b
  cases c
  simp only [addEls, NumEls.mk.injEq]
  refine ⟨by ring, by ring, by ring, by ring⟩

theorem sumEls_cons (z : ChunkedDataset) (rest : List ChunkedDataset) :
    sumEls (z :: rest) = addEls (fullEls z) (sumEls rest) := rfl

theorem foldl_addEls (l : List NumEls) : ∀ acc, l.foldl addEls acc = addEls acc (sumList l) := by
  induction l with
  | nil => intro acc; simp [List.foldl, sumList, addEls_zero_right]
  | cons k rest ih =>
    intro acc
    simp only [List.foldl, sumList]
    rw [ih (addEls acc k), addEls_assoc]

theorem sumEls_nonneg (zs : List ChunkedDataset) :
    0 ≤ (sumEls zs).num_scenes ∧ 0 ≤ (sumEls zs).num_frames ∧
    0 ≤ (sumEls zs).num_agents ∧ 0 ≤ (sumEls zs).num_tl_faces := by
  induction zs with
  | nil => simp [sumEls, sumList, zeroEls]
  | cons z rest ih =>
    rw [sumEls_cons]
    have h1 : (0 : Int) ≤ z.scenes.length := by positivity
    have h2 : (0 : Int) ≤ z.frames.length := by positivity
    have h3 : (0 : Int) ≤ z.agents.length := by positivity
    have h4 : (0 : Int) ≤ z.tl_faces.length := by positivity
    simp only [addEls, fullEls]
    obtain ⟨i1, i2, i3, i4⟩ := ih
    exact ⟨by omega, by omega, by omega, by omega⟩

/-- The Concatenator's sizing loop over well-formed sources returns the list
of their full counts. -/
theorem accountAll_spec (zs : List ChunkedDataset) (h : ∀ z ∈ zs, WellFormed z) :
    accountAll zs = some (zs.map fullEls) := by
  induction zs with
  | nil => rfl
  | cons z rest ih =>
    simp only [accountAll]
    rw [get_num_els_full z (h z (by simp))]
    rw [ih (fun w hw => h w (by simp [hw]))]
    rfl

/-- Scene-level part of the Concatenator composition step. -/
theorem concat_cons_scenes (z : ChunkedDataset) (rest : List ChunkedDataset)
    (cur : NumEls) (out final : ChunkedDataset) (st' : CopyState)
    (hWFz : WellFormed z) (hnnS : 0 ≤ cur.num_scenes)
    (hcopy : CopyOut z (cur.num_frames - (sFii z 0).1)
      (cur.num_agents - (fAii z (sFii z 0).1.toNat).1)
      (cur.num_tl_faces - (fTii z (sFii z 0).1.toNat).1) 0 z.scenes.length
      ⟨out, cur.num_scenes, cur.num_frames, cur.num_agents, cur.num_tl_faces⟩ st')
    (hrest : ConcatOut rest (addEls cur (fullEls z)) st'.out final) :
    (∀ q, q < (z :: rest).length → ∀ k, k < ((z :: rest).getD q dData).scenes.length →
      final.scenes.getD ((addEls cur (sumEls ((z :: rest).take q))).num_scenes.toNat + k) dScene
        = rebaseScene (addEls cur (sumEls ((z :: rest).take q))).num_frames
            (((z :: rest).getD q dData).scenes.getD k dScene)) ∧
    (∀ p : Nat, p < cur.num_scenes.toNat →
      final.scenes.getD p dScene = out.scenes.getD p dScene) := by
  have hs0 := hWFz.sChain.first_eq hWFz.scenes_pos
  have hdF0 : cur.num_frames - (sFii z 0).1 = cur.num_frames := by rw [hs0]; ring
  constructor
  · intro q hq k hk
    cases q with
    | zero =>
      simp only [List.take_zero, List.getD_cons_zero] at hk ⊢
      rw [show sumEls ([] : List ChunkedDataset) = zeroEls from rfl, addEls_zero_right]
      rw [hrest.keepS (cur.num_scenes.toNat + k)
        (by show cur.num_scenes.toNat + k
              < (cur.num_scenes + (z.scenes.length : Int)).toNat
            omega)]
      have hsc := hcopy.sceneAt k hk
      simp only [Nat.zero_add] at hsc
      rw [hdF0] at hsc
      exact hsc
    | succ q' =>
      simp only [List.getD_cons_succ, List.take_succ_cons] at hk ⊢
      rw [sumEls_cons, ← addEls_assoc]
      exact hrest.sceneAt q' (by simp only [List.length_cons] at hq; omega) k hk
  · intro p hp
    rw [hrest.keepS p
      (by show p < (cur.num_scenes + (z.scenes.length : Int)).toNat; omega)]
    exact hcopy.keepS p (Or.inl hp)

/-- Frame-level part of the Concatenator composition step. -/
theorem concat_cons_frames (z : ChunkedDataset) (rest : List ChunkedDataset)
    (cur : NumEls) (out final : ChunkedDataset) (st' : CopyState)
    (hWFz : WellFormed z) (hnnF : 0 ≤ cur.num_frames)
    (hcopy : CopyOut z (cur.num_frames - (sFii z 0).1)
      (cur.num_agents - (fAii z (sFii z 0).1.toNat).1)
      (cur.num_tl_faces - (fTii z (sFii z 0).1.toNat).1) 0 z.scenes.length
      ⟨out, cur.num_scenes, cur.num_frames, cur.num_agents, cur.num_tl_faces⟩ st')
    (hrest : ConcatOut rest (addEls cur (fullEls z)) st'.out final) :
    (∀ q, q < (z :: rest).length → ∀ j, j < ((z :: rest).getD q dData).frames.length →
      final.frames.getD ((addEls cur (sumEls ((z :: rest).take q))).num_frames.toNat + j) dFrame
        = rebaseFrame (addEls cur (sumEls ((z :: rest).take q))).num_agents
            ((addEls cur (sumEls ((z :: rest).take q))).num_tl_faces)
            (((z :: rest).getD q dData).frames.getD j dFrame)) ∧
    (∀ p : Nat, p < cur.num_frames.toNat →
      final.frames.getD p dFrame = out.frames.getD p dFrame) := by
  have hs0 := hWFz.sChain.first_eq hWFz.scenes_pos
  have hFpos := frames_pos z hWFz
  have hs0n : (sFii z 0).1.toNat = 0 := by rw [hs0]; rfl
  have ha0 : (fAii z (sFii z 0).1.toNat).1 = 0 := by
    rw [hs0n]; exact hWFz.aChain.first_eq hFpos
  have ht0 : (fTii z (sFii z 0).1.toNat).1 = 0 := by
    rw [hs0n]; exact hWFz.tChain.first_eq hFpos
  have hdF0 : cur.num_frames - (sFii z 0).1 = cur.num_frames := by rw [hs0]; ring
  have hdA0 : cur.num_agents - (fAii z (sFii z 0).1.toNat).1 = cur.num_agents := by
    rw [ha0]; ring
  have hdT0 : cur.num_tl_faces - (fTii z (sFii z 0).1.toNat).1 = cur.num_tl_faces := by
    rw [ht0]; ring
  constructor
  · intro q hq j hj
    cases q with
    | zero =>
      simp only [List.take_zero, List.getD_cons_zero] at hj ⊢
      rw [show sumEls ([] : List ChunkedDataset) = zeroEls from rfl, addEls_zero_right]
      rw [hrest.keepF (cur.num_frames.toNat + j)
        (by show cur.num_frames.toNat + j
              < (cur.num_frames + (z.frames.length : Int)).toNat
            omega)]
      have hfr := hcopy.frameAt j (by rw [hs0]; omega)
        (by rw [hs0, cntFr_full z hWFz]; omega)
      rw [hdF0, hdA0, hdT0] at hfr
      have hix : (cur.num_frames + (j : Int)).toNat = cur.num_frames.toNat + j := by omega
      rw [hix] at hfr
      exact hfr
    | succ q' =>
      simp only [List.getD_cons_succ, List.take_succ_cons] at hj ⊢
      rw [sumEls_cons, ← addEls_assoc]
      exact hrest.frameAt q' (by simp only [List.length_cons] at hq; omega) j hj
  · intro p hp
    rw [hrest.keepF p
      (by show p < (cur.num_frames + (z.frames.length : Int)).toNat; omega)]
    exact hcopy.keepF p (Or.inl hp)

/-- Agent-level part of the Concatenator composition step. -/
theorem concat_cons_agents (z : ChunkedDataset) (rest : List ChunkedDataset)
    (cur : NumEls) (out final : ChunkedDataset) (st' : CopyState)
    (hWFz : WellFormed z) (hnnA : 0 ≤ cur.num_agents)
    (hcopy : CopyOut z (cur.num_frames - (sFii z 0).1)
      (cur.num_agents - (fAii z (sFii z 0).1.toNat).1)
      (cur.num_tl_faces - (fTii z (sFii z 0).1.toNat).1) 0 z.scenes.length
      ⟨out, cur.num_scenes, cur.num_frames, cur.num_agents, cur.num_tl_faces⟩ st')
    (hrest : ConcatOut rest (addEls cur (fullEls z)) st'.out final) :
    (∀ q, q < (z :: rest).length → ∀ a, a < ((z :: rest).getD q dData).agents.length →
      final.agents.getD ((addEls cur (sumEls ((z :: rest).take q))).num_agents.toNat + a) dAgent
        = ((z :: rest).getD q dData).agents.getD a dAgent) ∧
    (∀ p : Nat, p < cur.num_agents.toNat →
      final.agents.getD p dAgent = out.agents.getD p dAgent) := by
  have hs0 := hWFz.sChain.first_eq hWFz.scenes_pos
  have hFpos := frames_pos z hWFz
  have hs0n : (sFii z 0).1.toNat = 0 := by rw [hs0]; rfl
  have ha0 : (fAii z (sFii z 0).1.toNat).1 = 0 := by
    rw [hs0n]; exact hWFz.aChain.first_eq hFpos
  have hdA0 : cur.num_agents - (fAii z (sFii z 0).1.toNat).1 = cur.num_agents := by
    rw [ha0]; ring
  constructor
  · intro q hq a ha
    cases q with
    | zero =>
      simp only [List.take_zero, List.getD_cons_zero] at ha ⊢
      rw [show sumEls ([] : List ChunkedDataset) = zeroEls from rfl, addEls_zero_right]
      rw [hrest.keepA (cur.num_agents.toNat + a)
        (by show cur.num_agents.toNat + a
              < (cur.num_agents + (z.agents.length : Int)).toNat
            omega)]
      have hag := hcopy.agentAt a (by rw [ha0]; omega)
        (by rw [ha0, cntAg_full z hWFz]; omega)
      rw [hdA0] at hag
      have hix : (cur.num_agents + (a : Int)).toNat = cur.num_agents.toNat + a := by omega
      rw [hix] at hag
      exact hag
    | succ q' =>
      simp only [List.getD_cons_succ, List.take_succ_cons] at ha ⊢
      rw [sumEls_cons, ← addEls_assoc]
      exact hrest.agentAt q' (by simp only [List.length_cons] at hq; omega) a ha
  · intro p hp
    rw [hrest.keepA p
      (by show p < (cur.num_agents + (z.agents.length : Int)).toNat; omega)]
    exact hcopy.keepA p (Or.inl hp)

/-- Tl-face-level part of the Concatenator composition step. -/
theorem concat_cons_tl (z : ChunkedDataset) (rest : List ChunkedDataset)
    (cur : NumEls) (out final : ChunkedDataset) (st' : CopyState)
    (hWFz : WellFormed z) (hnnT : 0 ≤ cur.num_tl_faces)
    (hcopy : CopyOut z (cur.num_frames - (sFii z 0).1)
      (cur.num_agents - (fAii z (sFii z 0).1.toNat).1)
      (cur.num_tl_faces - (fTii z (sFii z 0).1.toNat).1) 0 z.scenes.length
      ⟨out, cur.num_scenes, cur.num_frames, cur.num_agents, cur.num_tl_faces⟩ st')
    (hrest : ConcatOut rest (addEls cur (fullEls z)) st'.out final) :
    (∀ q, q < (z :: rest).length → ∀ t, t < ((z :: rest).getD q dData).tl_faces.length →
      final.tl_faces.getD
          ((addEls cur (sumEls ((z :: rest).take q))).num_tl_faces.toNat + t) dTlFace
        = ((z :: rest).getD q dData).tl_faces.getD t dTlFace) ∧
    (∀ p : Nat, p < cur.num_tl_faces.toNat →
      final.tl_faces.getD p dTlFace = out.tl_faces.getD p dTlFace) := by
  have hs0 := hWFz.sChain.first_eq hWFz.scenes_pos
  have hFpos := frames_pos z hWFz
  have hs0n : (sFii z 0).1.toNat = 0 := by rw [hs0]; rfl
  have ht0 : (fTii z (sFii z 0).1.toNat).1 = 0 := by
    rw [hs0n]; exact hWFz.tChain.first_eq hFpos
  have hdT0 : cur.num_tl_faces - (fTii z (sFii z 0).1.toNat).1 = cur.num_tl_faces := by
    rw [ht0]; ring
  constructor
  · intro q hq t ht
    cases q with
    | zero =>
      simp only [List.take_zero, List.getD_cons_zero] at ht ⊢
      rw [show sumEls ([] : List ChunkedDataset) = zeroEls from rfl, addEls_zero_right]
      rw [hrest.keepT (cur.num_tl_faces.toNat + t)
        (by show cur.num_tl_faces.toNat + t
              < (cur.num_tl_faces + (z.tl_faces.length : Int)).toNat
            omega)]
      have htl := hcopy.tlAt t (by rw [ht0]; omega)
        (by rw [ht0, cntTl_full z hWFz]; omega)
      rw [hdT0] at htl
      have hix : (cur.num_tl_faces + (t : Int)).toNat = cur.num_tl_faces.toNat + t := by
        omega
      rw [hix] at htl
      exact htl
    | succ q' =>
      simp only [List.getD_cons_succ, List.take_succ_cons] at ht ⊢
      rw [sumEls_cons, ← addEls_assoc]
      exact hrest.tlAt q' (by simp only [List.length_cons] at hq; omega) t ht
  · intro p hp
    rw [hrest.keepT p
      (by show p < (cur.num_tl_faces + (z.tl_faces.length : Int)).toNat; omega)]
    exact hcopy.keepT p (Or.inl hp)

/-- Composition step for the Concatenator: one full-range subset copy followed
by a loop run over the remaining sources. -/
theorem concatOut_cons (z : ChunkedDataset) (rest : List ChunkedDataset)
    (cur : NumEls) (out final : ChunkedDataset) (st' : CopyState)
    (hWFz : WellFormed z)
    (h1 : 0 ≤ cur.num_scenes) (h2 : 0 ≤ cur.num_frames)
    (h3 : 0 ≤ cur.num_agents) (h4 : 0 ≤ cur.num_tl_faces)
    (hcopy : CopyOut z (cur.num_frames - (sFii z 0).1)
      (cur.num_agents - (fAii z (sFii z 0).1.toNat).1)
      (cur.num_tl_faces - (fTii z (sFii z 0).1.toNat).1) 0 z.scenes.length
      ⟨out, cur.num_scenes, cur.num_frames, cur.num_agents, cur.num_tl_faces⟩ st')
    (hrest : ConcatOut rest (addEls cur (fullEls z)) st'.out final) :
    ConcatOut (z :: rest) cur out final := by
  obtain ⟨s1, s2⟩ := concat_cons_scenes z rest cur out final st' hWFz h1 hcopy hrest
  obtain ⟨f1, f2⟩ := concat_cons_frames z rest cur out final st' hWFz h2 hcopy hrest
  obtain ⟨a1, a2⟩ := concat_cons_agents z rest cur out final st' hWFz h3 hcopy hrest
  obtain ⟨t1, t2⟩ := concat_cons_tl z rest cur out final st' hWFz h4 hcopy hrest
  exact ⟨hrest.lenS.trans hcopy.lenS, hrest.lenF.trans hcopy.lenF,
    hrest.lenA.trans hcopy.lenA, hrest.lenT.trans hcopy.lenT,
    s1, f1, a1, t1, s2, f2, a2, t2⟩

/-- Master lemma for the Concatenator's copy loop over well-formed sources:
given running counts matched by the cursors and sufficient destination
capacity, the loop succeeds and the result satisfies `ConcatOut`. -/
theorem concatLoop_spec : ∀ (zs : List ChunkedDataset), (∀ z ∈ zs, WellFormed z) →
    ∀ (cur : NumEls) (out : ChunkedDataset),
    0 ≤ cur.num_scenes → 0 ≤ cur.num_frames → 0 ≤ cur.num_agents → 0 ≤ cur.num_tl_faces →
    cur.num_scenes.toNat + (sumEls zs).num_scenes.toNat ≤ out.scenes.length →
    cur.num_frames.toNat + (sumEls zs).num_frames.toNat ≤ out.frames.length →
    cur.num_agents.toNat + (sumEls zs).num_agents.toNat ≤ out.agents.length →
    cur.num_tl_faces.toNat + (sumEls zs).num_tl_faces.toNat ≤ out.tl_faces.length →
    ∃ final, concatLoop (zs.zip (zs.map fullEls)) out cur = Except.ok final ∧
      ConcatOut zs cur out final := by
  intro zs
  induction zs with
  | nil =>
    intro _ cur out _ _ _ _ _ _ _ _
    refine ⟨out, rfl, rfl, rfl, rfl, rfl, ?_, ?_, ?_, ?_,
      fun p _ => rfl, fun p _ => rfl, fun p _ => rfl, fun p _ => rfl⟩
    · intro q hq; simp at hq
    · intro q hq; simp at hq
    · intro q hq; simp at hq
    · intro q hq; simp at hq
  | cons z rest ih =>
    intro hWFall cur out h1 h2 h3 h4 c1 c2 c3 c4
    have hWFz := hWFall z (by simp)
    obtain ⟨r1, r2, r3, r4⟩ := sumEls_nonneg rest
    simp only [sumEls_cons, addEls, fullEls] at c1 c2 c3 c4
    obtain ⟨st', hrun, happ, hcopy⟩ :=
      append_zarr_subset_spec z out hWFz 0 z.scenes.length hWFz.scenes_pos (le_refl _)
        cur h1 h2 h3 h4
        (by simp only [Nat.sub_zero]; omega)
        (by simp only [Nat.sub_zero]; rw [cntFr_full z hWFz]; omega)
        (by simp only [Nat.sub_zero]; rw [cntAg_full z hWFz]; omega)
        (by simp only [Nat.sub_zero]; rw [cntTl_full z hWFz]; omega)
    simp only [Nat.sub_zero] at hcopy
    simp only [Nat.cast_zero] at happ
    obtain ⟨final, hloop, hrest⟩ := ih (fun w hw => hWFall w (by simp [hw]))
      (addEls cur (fullEls z)) st'.out
      (by simp only [addEls, fullEls]; omega)
      (by simp only [addEls, fullEls]; omega)
      (by simp only [addEls, fullEls]; omega)
      (by simp only [addEls, fullEls]; omega)
      (by rw [hcopy.lenS]; simp only [addEls, fullEls]; omega)
      (by rw [hcopy.lenF]; simp only [addEls, fullEls]; omega)
      (by rw [hcopy.lenA]; simp only [addEls, fullEls]; omega)
      (by rw [hcopy.lenT]; simp only [addEls, fullEls]; omega)
    refine ⟨final, ?_, concatOut_cons z rest cur out final st' hWFz h1 h2 h3 h4 hcopy hrest⟩
    show concatLoop (((z, fullEls z)) :: rest.zip (rest.map fullEls)) out cur
      = Except.ok final
    simp only [concatLoop]
    rw [happ]
    exact hloop

theorem addEls_zero_left (a : NumEls) : addEls zeroEls a = a := by
  cases a
  simp [addEls, zeroEls]

/-- Lengths of a freshly pre-allocated dataset. -/
theorem preallocate_lengths (a b c d : Int) :
    (preallocate a b c d).scenes.length = a.toNat ∧
    (preallocate a b c d).frames.length = b.toNat ∧
    (preallocate a b c d).agents.length = c.toNat ∧
    (preallocate a b c d).tl_faces.length = d.toNat := by
  refine ⟨?_, ?_, ?_, ?_⟩ <;> simp [preallocate]

/-- Master theorem for `zarr_concat`: if every surviving source is
well-formed, the call succeeds, the output lengths are the sums of the
surviving sources' counts, and every record of every surviving source lands at
its cumulative offset with intervals rebased by the cumulative child counts
(`ConcatOut` from zero offsets). -/
theorem zarr_concat_ok (srcs : List (Option ChunkedDataset))
    (h : ∀ z ∈ srcs.filterMap id, WellFormed z) :
    ∃ final, zarr_concat srcs = Except.ok final ∧
      ConcatOut (srcs.filterMap id) zeroEls
        (preallocate (sumEls (srcs.filterMap id)).num_scenes
          (sumEls (srcs.filterMap id)).num_frames
          (sumEls (srcs.filterMap id)).num_agents
          (sumEls (srcs.filterMap id)).num_tl_faces) final ∧
      final.scenes.length = (sumEls (srcs.filterMap id)).num_scenes.toNat ∧
      final.frames.length = (sumEls (srcs.filterMap id)).num_frames.toNat ∧
      final.agents.length = (sumEls (srcs.filterMap id)).num_agents.toNat ∧
      final.tl_faces.length = (sumEls (srcs.filterMap id)).num_tl_faces.toNat := by
  have htot : (List.map fullEls (srcs.filterMap id)).foldl addEls zeroEls
      = sumEls (srcs.filterMap id) := by
    rw [foldl_addEls]
    exact addEls_zero_left _
  obtain ⟨p1, p2, p3, p4⟩ := preallocate_lengths (sumEls (srcs.filterMap id)).num_scenes
    (sumEls (srcs.filterMap id)).num_frames (sumEls (srcs.filterMap id)).num_agents
    (sumEls (srcs.filterMap id)).num_tl_faces
  obtain ⟨final, hloop, hcout⟩ := concatLoop_spec (srcs.filterMap id) h zeroEls
    (preallocate (sumEls (srcs.filterMap id)).num_scenes
      (sumEls (srcs.filterMap id)).num_frames
      (sumEls (srcs.filterMap id)).num_agents
      (sumEls (srcs.filterMap id)).num_tl_faces)
    (le_refl 0) (le_refl 0) (le_refl 0) (le_refl 0)
    (by rw [p1]; simp [zeroEls])
    (by rw [p2]; simp [zeroEls])
    (by rw [p3]; simp [zeroEls])
    (by rw [p4]; simp [zeroEls])
  refine ⟨final, ?_, hcout,
    by rw [hcout.lenS, p1], by rw [hcout.lenF, p2],
    by rw [hcout.lenA, p3], by rw [hcout.lenT, p4]⟩
  show zarr_concat srcs = Except.ok final
  simp only [zarr_concat]
  rw [accountAll_spec (srcs.filterMap id) h]
  simp only [htot]
  exact hloop

/-! ### Sample data -/

theorem sampleZ_wf : WellFormed sampleZ := by
  have hS : sampleZ.scenes.length = 2 := rfl
  have hF : sampleZ.frames.length = 3 := rfl
  refine ⟨by decide, ⟨by decide, by decide, by decide, ?_, by decide, by decide⟩,
    by decide, ⟨by decide, by decide, by decide, ?_, by decide, by decide⟩,
    ⟨by decide, by decide, by decide, ?_, by decide, by decide⟩⟩
  · intro i hi
    rw [hS] at hi
    have hi2 : i < 1 := by omega
    interval_cases i
    decide
  · intro i hi
    rw [hF] at hi
    have hi2 : i < 2 := by omega
    interval_cases i <;> decide
  · intro i hi
    rw [hF] at hi
    have hi2 : i < 2 := by omega
    interval_cases i <;> decide

/-! ### Claim C3: the Range Accountant -/

theorem cntFr_boundary (z : ChunkedDataset) {s e : Nat} (hse : s < e) :
    cntFr z s (e - s) = (sFii z (e - 1)).2 - (sFii z s).1 := by
  have hne : e - s ≠ 0 := by omega
  have hidx : s + (e - s) - 1 = e - 1 := by omega
  simp only [cntFr, if_neg hne, hidx]

theorem cntAg_boundary (z : ChunkedDataset) {s e : Nat} (hse : s < e) :
    cntAg z s (e - s)
      = (fAii z ((sFii z (e - 1)).2 - 1).toNat).2 - (fAii z (sFii z s).1.toNat).1 := by
  have hne : e - s ≠ 0 := by omega
  have hidx : s + (e - s) - 1 = e - 1 := by omega
  simp only [cntAg, if_neg hne, hidx]

theorem cntTl_boundary (z : ChunkedDataset) {s e : Nat} (hse : s < e) :
    cntTl z s (e - s)
      = (fTii z ((sFii z (e - 1)).2 - 1).toNat).2 - (fTii z (sFii z s).1.toNat).1 := by
  have hne : e - s ≠ 0 := by omega
  have hidx : s + (e - s) - 1 = e - 1 := by omega
  simp only [cntTl, if_neg hne, hidx]

/-- Claim C3 — Range Accountant algorithm: on a dataset satisfying the §3
invariants and a valid range, `_get_num_els_in_scene_range` returns
`num_scenes = scene_end − scene_start`, `num_frames` as the difference of the
two boundary scenes' frame-interval bounds, and `num_agents` / `num_tl_faces`
as the corresponding differences of the two boundary frames' child-interval
bounds; moreover each returned count equals the true number of elements the
range spans (so the O(1) boundary reads are exact, with no summation). -/
theorem claim_C3_range_accountant (z : ChunkedDataset) (s e : Nat)
    (hWF : WellFormed z) (hse : s < e) (heS : e ≤ z.scenes.length) :
    get_num_els_in_scene_range z (s : Int) (e : Int) = some
      ⟨(e : Int) - (s : Int), (sFii z (e - 1)).2 - (sFii z s).1,
       (fAii z ((sFii z (e - 1)).2 - 1).toNat).2 - (fAii z (sFii z s).1.toNat).1,
       (fTii z ((sFii z (e - 1)).2 - 1).toNat).2 - (fTii z (sFii z s).1.toNat).1⟩ ∧
    (e : Int) - (s : Int) = ((sliceL z.scenes (s : Int) (e : Int)).length : Int) ∧
    (sFii z (e - 1)).2 - (sFii z s).1
      = ((sliceL z.frames (sFii z s).1 (sFii z (e - 1)).2).length : Int) ∧
    (fAii z ((sFii z (e - 1)).2 - 1).toNat).2 - (fAii z (sFii z s).1.toNat).1
      = ((sliceL z.agents (fAii z (sFii z s).1.toNat).1
          (fAii z ((sFii z (e - 1)).2 - 1).toNat).2).length : Int) ∧
    (fTii z ((sFii z (e - 1)).2 - 1).toNat).2 - (fTii z (sFii z s).1.toNat).1
      = ((sliceL z.tl_faces (fTii z (sFii z s).1.toNat).1
          (fTii z ((sFii z (e - 1)).2 - 1).toNat).2).length : Int) := by
  have he1 : e - 1 < z.scenes.length := by omega
  have hsS : s < z.scenes.length := by omega
  have hlos : 0 ≤ (sFii z s).1 := hWF.sChain.lo_nonneg s hsS
  have hlom : (sFii z s).1 ≤ (sFii z (e - 1)).1 := hWF.sChain.lo_mono (by omega) he1
  have hlt1 : (sFii z (e - 1)).1 < (sFii z (e - 1)).2 := hWF.sStrict _ he1
  have hhie : (sFii z (e - 1)).2 ≤ (z.frames.length : Int) := hWF.sChain.hi_le _ he1
  have hlosF : (sFii z s).1.toNat < z.frames.length := by
    have := hWF.sStrict s hsS
    have := hWF.sChain.hi_mono (show s ≤ e - 1 by omega) he1
    have := hWF.sChain.hi_le s hsS
    omega
  have hhi1F : ((sFii z (e - 1)).2 - 1).toNat < z.frames.length := by omega
  have haLo : 0 ≤ (fAii z (sFii z s).1.toNat).1 := hWF.aChain.lo_nonneg _ hlosF
  have haM : (fAii z (sFii z s).1.toNat).1 ≤ (fAii z ((sFii z (e - 1)).2 - 1).toNat).1 :=
    hWF.aChain.lo_mono (by omega) hhi1F
  have haM2 : (fAii z ((sFii z (e - 1)).2 - 1).toNat).1
      ≤ (fAii z ((sFii z (e - 1)).2 - 1).toNat).2 := hWF.aChain.lo_le_hi _ hhi1F
  have haTot : (fAii z ((sFii z (e - 1)).2 - 1).toNat).2 ≤ (z.agents.length : Int) :=
    hWF.aChain.hi_le _ hhi1F
  have htLo : 0 ≤ (fTii z (sFii z s).1.toNat).1 := hWF.tChain.lo_nonneg _ hlosF
  have htM : (fTii z (sFii z s).1.toNat).1 ≤ (fTii z ((sFii z (e - 1)).2 - 1).toNat).1 :=
    hWF.tChain.lo_mono (by omega) hhi1F
  have htM2 : (fTii z ((sFii z (e - 1)).2 - 1).toNat).1
      ≤ (fTii z ((sFii z (e - 1)).2 - 1).toNat).2 := hWF.tChain.lo_le_hi _ hhi1F
  have htTot : (fTii z ((sFii z (e - 1)).2 - 1).toNat).2 ≤ (z.tl_faces.length : Int) :=
    hWF.tChain.hi_le _ hhi1F
  refine ⟨?_, ?_, ?_, ?_, ?_⟩
  · rw [get_num_els_eq_cnt z s e hse, cntFr_boundary z hse, cntAg_boundary z hse,
      cntTl_boundary z hse]
  · rw [length_sliceL_of_le z.scenes (s : Int) (e : Int) (by omega) (by omega) (by omega)]
    omega
  · rw [length_sliceL_of_le z.frames _ _ hlos (by omega) (by omega)]
    omega
  · rw [length_sliceL_of_le z.agents _ _ haLo (by omega) (by omega)]
    omega
  · rw [length_sliceL_of_le z.tl_faces _ _ htLo (by omega) (by omega)]
    omega

/-- Witness for C3 on the concrete sample dataset. -/
theorem claim_C3_witness :
    WellFormed sampleZ ∧ 0 < 2 ∧ 2 ≤ sampleZ.scenes.length ∧
    (get_num_els_in_scene_range sampleZ (0 : Nat) (2 : Nat) = some
      ⟨(2 : Int) - (0 : Int), (sFii sampleZ (2 - 1)).2 - (sFii sampleZ 0).1,
       (fAii sampleZ ((sFii sampleZ (2 - 1)).2 - 1).toNat).2
         - (fAii sampleZ (sFii sampleZ 0).1.toNat).1,
       (fTii sampleZ ((sFii sampleZ (2 - 1)).2 - 1).toNat).2
         - (fTii sampleZ (sFii sampleZ 0).1.toNat).1⟩ ∧
    (2 : Int) - (0 : Int) = ((sliceL sampleZ.scenes ((0 : Nat) : Int) ((2 : Nat) : Int)).length : Int) ∧
    (sFii sampleZ (2 - 1)).2 - (sFii sampleZ 0).1
      = ((sliceL sampleZ.frames (sFii sampleZ 0).1 (sFii sampleZ (2 - 1)).2).length : Int) ∧
    (fAii sampleZ ((sFii sampleZ (2 - 1)).2 - 1).toNat).2
        - (fAii sampleZ (sFii sampleZ 0).1.toNat).1
      = ((sliceL sampleZ.agents (fAii sampleZ (sFii sampleZ 0).1.toNat).1
          (fAii sampleZ ((sFii sampleZ (2 - 1)).2 - 1).toNat).2).length : Int) ∧
    (fTii sampleZ ((sFii sampleZ (2 - 1)).2 - 1).toNat).2
        - (fTii sampleZ (sFii sampleZ 0).1.toNat).1
      = ((sliceL sampleZ.tl_faces (fTii sampleZ (sFii sampleZ 0).1.toNat).1
          (fTii sampleZ ((sFii sampleZ (2 - 1)).2 - 1).toNat).2).length : Int)) :=
  ⟨sampleZ_wf, by decide, by decide,
    claim_C3_range_accountant sampleZ 0 2 sampleZ_wf (by decide) (by decide)⟩

/-! ### Claim C10: the copier and the accountant agree -/

/-- Claim C10 — implicit copier/accountant agreement: on a well-formed input
and a valid range with sufficient destination capacity, the scene-by-scene
copy loop of `_append_zarr_subset` succeeds and its four final write-cursor
advances are exactly the four counts returned by
`_get_num_els_in_scene_range` for the same range. -/
theorem claim_C10_copier_accountant_agree (z dst : ChunkedDataset) (s e : Nat) (els : NumEls)
    (hWF : WellFormed z) (hse : s < e) (heS : e ≤ z.scenes.length)
    (h0S : 0 ≤ els.num_scenes) (h0F : 0 ≤ els.num_frames)
    (h0A : 0 ≤ els.num_agents) (h0T : 0 ≤ els.num_tl_faces)
    (hcS : els.num_scenes.toNat + (e - s) ≤ dst.scenes.length)
    (hcF : els.num_frames.toNat + (cntFr z s (e - s)).toNat ≤ dst.frames.length)
    (hcA : els.num_agents.toNat + (cntAg z s (e - s)).toNat ≤ dst.agents.length)
    (hcT : els.num_tl_faces.toNat + (cntTl z s (e - s)).toNat ≤ dst.tl_faces.length) :
    ∃ K st', get_num_els_in_scene_range z (s : Int) (e : Int) = some K ∧
      appendLoop z (els.num_frames - (sFii z s).1)
        (els.num_agents - (fAii z (sFii z s).1.toNat).1)
        (els.num_tl_faces - (fTii z (sFii z s).1.toNat).1)
        ⟨dst, els.num_scenes, els.num_frames, els.num_agents, els.num_tl_faces⟩
        (s : Int) (e - s) = some st' ∧
      append_zarr_subset z dst (s : Int) (e : Int) (some els) = some st'.out ∧
      st'.idx_output_scene = els.num_scenes + K.num_scenes ∧
      st'.idx_output_frame = els.num_frames + K.num_frames ∧
      st'.idx_output_agent = els.num_agents + K.num_agents ∧
      st'.idx_output_tl_face = els.num_tl_faces + K.num_tl_faces := by
  obtain ⟨st', hrun, happ, hout⟩ :=
    append_zarr_subset_spec z dst hWF s e hse heS els h0S h0F h0A h0T hcS hcF hcA hcT
  refine ⟨⟨(e : Int) - (s : Int), cntFr z s (e - s), cntAg z s (e - s), cntTl z s (e - s)⟩,
    st', get_num_els_eq_cnt z s e hse, hrun, happ, ?_, ?_, ?_, ?_⟩
  · rw [hout.curS]
    show els.num_scenes + ((e - s : Nat) : Int) = els.num_scenes + ((e : Int) - (s : Int))
    omega
  · rw [hout.curF]
  · rw [hout.curA]
  · rw [hout.curT]

/-- Witness for C10 on the sample dataset with an exactly-sized fresh
destination and zero offsets. -/
theorem claim_C10_witness :
    WellFormed sampleZ ∧ 0 < 2 ∧ 2 ≤ sampleZ.scenes.length ∧
    (∃ K st', get_num_els_in_scene_range sampleZ ((0 : Nat) : Int) ((2 : Nat) : Int) = some K ∧
      appendLoop sampleZ (zeroEls.num_frames - (sFii sampleZ 0).1)
        (zeroEls.num_agents - (fAii sampleZ (sFii sampleZ 0).1.toNat).1)
        (zeroEls.num_tl_faces - (fTii sampleZ (sFii sampleZ 0).1.toNat).1)
        ⟨preallocate 2 3 2 1, zeroEls.num_scenes, zeroEls.num_frames,
          zeroEls.num_agents, zeroEls.num_tl_faces⟩
        ((0 : Nat) : Int) (2 - 0) = some st' ∧
      append_zarr_subset sampleZ (preallocate 2 3 2 1) ((0 : Nat) : Int) ((2 : Nat) : Int)
        (some zeroEls) = some st'.out ∧
      st'.idx_output_scene = zeroEls.num_scenes + K.num_scenes ∧
      st'.idx_output_frame = zeroEls.num_frames + K.num_frames ∧
      st'.idx_output_agent = zeroEls.num_agents + K.num_agents ∧
      st'.idx_output_tl_face = zeroEls.num_tl_faces + K.num_tl_faces) :=
  ⟨sampleZ_wf, by decide, by decide,
    claim_C10_copier_accountant_agree sampleZ (preallocate 2 3 2 1) 0 2 zeroEls
      sampleZ_wf (by decide) (by decide) (by decide) (by decide) (by decide) (by decide)
      (by decide) (by decide) (by decide) (by decide)⟩

/-! ### Claim C6: capacity overruns always fail -/

/-- Claim C6 — capacity-overrun failure: on a well-formed input and a valid
range, whenever the pre-allocated destination is too small for the copied
blocks at any of the four levels, `_append_zarr_subset` fails with the
out-of-bounds error (`none`); it never silently succeeds or truncates. -/
theorem claim_C6_capacity_overrun (z dst : ChunkedDataset) (s e : Nat) (els : NumEls)
    (hWF : WellFormed z) (hse : s < e) (heS : e ≤ z.scenes.length)
    (h0S : 0 ≤ els.num_scenes) (h0F : 0 ≤ els.num_frames)
    (h0A : 0 ≤ els.num_agents) (h0T : 0 ≤ els.num_tl_faces)
    (hshort : dst.scenes.length < els.num_scenes.toNat + (e - s)
      ∨ dst.frames.length < els.num_frames.toNat + (cntFr z s (e - s)).toNat
      ∨ dst.agents.length < els.num_agents.toNat + (cntAg z s (e - s)).toNat
      ∨ dst.tl_faces.length < els.num_tl_faces.toNat + (cntTl z s (e - s)).toNat) :
    append_zarr_subset z dst (s : Int) (e : Int) (some els) = none := by
  by_contra hne
  obtain ⟨out, hout⟩ := Option.ne_none_iff_exists'.mp hne
  have hout2 : (appendLoop z (els.num_frames - (sFii z s).1)
      (els.num_agents - (fAii z (sFii z s).1.toNat).1)
      (els.num_tl_faces - (fTii z (sFii z s).1.toNat).1)
      ⟨dst, els.num_scenes, els.num_frames, els.num_agents, els.num_tl_faces⟩
      (s : Int) (((e : Int) - (s : Int)).toNat)).map CopyState.out = some out := hout
  rw [Option.map_eq_some'] at hout2
  obtain ⟨st', hloop, _⟩ := hout2
  have ht3 : ((e : Int) - (s : Int)).toNat = e - s := by omega
  rw [ht3] at hloop
  obtain ⟨n, hn⟩ : ∃ n, e - s = n + 1 := ⟨e - s - 1, by omega⟩
  rw [hn] at hloop
  have hcur : CurOk z (els.num_frames - (sFii z s).1)
      (els.num_agents - (fAii z (sFii z s).1.toNat).1)
      (els.num_tl_faces - (fTii z (sFii z s).1.toNat).1) s (n + 1)
      ⟨dst, els.num_scenes, els.num_frames, els.num_agents, els.num_tl_faces⟩ :=
    { range := by omega
      sNn := h0S
      fNn := h0F
      aNn := h0A
      tNn := h0T
      fCur := fun _ => by
        show els.num_frames = els.num_frames - (sFii z s).1 + (sFii z s).1
        ring
      aCur := fun _ => by
        show els.num_agents
          = els.num_agents - (fAii z (sFii z s).1.toNat).1 + (fAii z (sFii z s).1.toNat).1
        ring
      tCur := fun _ => by
        show els.num_tl_faces
          = els.num_tl_faces - (fTii z (sFii z s).1.toNat).1 + (fTii z (sFii z s).1.toNat).1
        ring }
  obtain ⟨c1, c2, c3, c4⟩ := appendLoop_some_inv z hWF _ _ _ n s _ st' hcur hloop
  have c1' : els.num_scenes.toNat + (n + 1) ≤ dst.scenes.length := c1
  have c2' : els.num_frames.toNat + (cntFr z s (n + 1)).toNat ≤ dst.frames.length := c2
  have c3' : els.num_agents.toNat + (cntAg z s (n + 1)).toNat ≤ dst.agents.length := c3
  have c4' : els.num_tl_faces.toNat + (cntTl z s (n + 1)).toNat ≤ dst.tl_faces.length := c4
  rw [← hn] at c1' c2' c3' c4'
  rcases hshort with h | h | h | h <;> omega

/-- Witness for C6: copying two scenes of the sample dataset into a
destination pre-allocated with room for only one scene fails. -/
theorem claim_C6_witness :
    WellFormed sampleZ ∧ 0 < 2 ∧ 2 ≤ sampleZ.scenes.length ∧
    (preallocate 1 3 2 1).scenes.length < zeroEls.num_scenes.toNat + (2 - 0) ∧
    append_zarr_subset sampleZ (preallocate 1 3 2 1) ((0 : Nat) : Int) ((2 : Nat) : Int)
      (some zeroEls) = none :=
  ⟨sampleZ_wf, by decide, by decide, by decide,
    claim_C6_capacity_overrun sampleZ (preallocate 1 3 2 1) 0 2 zeroEls sampleZ_wf
      (by decide) (by decide) (by decide) (by decide) (by decide) (by decide)
      (Or.inl (by decide))⟩

/-! ### Concatenating copies of one source -/

theorem filterMap_id_replicate (N : Nat) (z : ChunkedDataset) :
    (List.replicate N (some z)).filterMap id = List.replicate N z := by
  simp

theorem take_replicate_data (z : ChunkedDataset) {i N : Nat} (h : i ≤ N) :
    (List.replicate N z).take i = List.replicate i z := by
  rw [List.take_replicate]
  congr 1
  omega

theorem getD_replicate_data (z : ChunkedDataset) {i N : Nat} (h : i < N) :
    (List.replicate N z).getD i dData = z := by
  rw [List.getD_eq_getElem?_getD, List.getElem?_replicate, if_pos h]
  rfl

theorem sumEls_replicate (z : ChunkedDataset) (N : Nat) :
    sumEls (List.replicate N z)
      = ⟨(N : Int) * z.scenes.length, (N : Int) * z.frames.length,
         (N : Int) * z.agents.length, (N : Int) * z.tl_faces.length⟩ := by
  induction N with
  | zero => simp [sumEls, sumList, zeroEls]
  | succ n ih =>
    rw [List.replicate_succ, sumEls_cons, ih]
    simp only [addEls, fullEls, NumEls.mk.injEq]
    refine ⟨by push_cast; ring, by push_cast; ring, by push_cast; ring, by push_cast; ring⟩

/-- Claim C5 — concatenation length law: concatenating `N ≥ 1` copies of a
well-formed source succeeds and each output sequence's length is `N` times
the source's corresponding length. -/
theorem claim_C5_concat_length_law (z : ChunkedDataset) (N : Nat)
    (hWF : WellFormed z) (hN : 1 ≤ N) :
    ∃ out, zarr_concat (List.replicate N (some z)) = Except.ok out ∧
      out.scenes.length = N * z.scenes.length ∧
      out.frames.length = N * z.frames.length ∧
      out.agents.length = N * z.agents.length ∧
      out.tl_faces.length = N * z.tl_faces.length := by
  have hfm := filterMap_id_replicate N z
  obtain ⟨final, hok, _, l1, l2, l3, l4⟩ := zarr_concat_ok (List.replicate N (some z))
    (by rw [hfm]; intro w hw; rw [List.eq_of_mem_replicate hw]; exact hWF)
  rw [hfm, sumEls_replicate] at l1 l2 l3 l4
  refine ⟨final, hok, ?_, ?_, ?_, ?_⟩
  · rw [l1]
    show ((N : Int) * (z.scenes.length : Int)).toNat = N * z.scenes.length
    rw [← Nat.cast_mul]
    exact Int.toNat_natCast _
  · rw [l2]
    show ((N : Int) * (z.frames.length : Int)).toNat = N * z.frames.length
    rw [← Nat.cast_mul]
    exact Int.toNat_natCast _
  · rw [l3]
    show ((N : Int) * (z.agents.length : Int)).toNat = N * z.agents.length
    rw [← Nat.cast_mul]
    exact Int.toNat_natCast _
  · rw [l4]
    show ((N : Int) * (z.tl_faces.length : Int)).toNat = N * z.tl_faces.length
    rw [← Nat.cast_mul]
    exact Int.toNat_natCast _

/-- Witness for C5 on two copies of the sample dataset. -/
theorem claim_C5_witness :
    WellFormed sampleZ ∧ 1 ≤ 2 ∧
    (∃ out, zarr_concat (List.replicate 2 (some sampleZ)) = Except.ok out ∧
      out.scenes.length = 2 * sampleZ.scenes.length ∧
      out.frames.length = 2 * sampleZ.frames.length ∧
      out.agents.length = 2 * sampleZ.agents.length ∧
      out.tl_faces.length = 2 * sampleZ.tl_faces.length) :=
  ⟨sampleZ_wf, by decide, claim_C5_concat_length_law sampleZ 2 sampleZ_wf (by decide)⟩

/-- Claim C1 — concatenation content law: concatenating `N ≥ 1` copies of a
well-formed source succeeds, and for each copy index `i < N` the output record
at each level's index `i * (source level length) + k` equals the source record
`k` with its interval fields shifted by `i` times the corresponding child
level's source length (scene frame-intervals by `i*F`, frame agent/tl-face
intervals by `i*A` / `i*T`, agents and tl-faces copied verbatim). -/
theorem claim_C1_concat_content_law (z : ChunkedDataset) (N : Nat)
    (hWF : WellFormed z) (hN : 1 ≤ N) :
    ∃ out, zarr_concat (List.replicate N (some z)) = Except.ok out ∧
      (∀ i, i < N → ∀ k, k < z.scenes.length →
        out.scenes.getD (i * z.scenes.length + k) dScene
          = rebaseScene ((i : Int) * z.frames.length) (z.scenes.getD k dScene)) ∧
      (∀ i, i < N → ∀ j, j < z.frames.length →
        out.frames.getD (i * z.frames.length + j) dFrame
          = rebaseFrame ((i : Int) * z.agents.length) ((i : Int) * z.tl_faces.length)
              (z.frames.getD j dFrame)) ∧
      (∀ i, i < N → ∀ a, a < z.agents.length →
        out.agents.getD (i * z.agents.length + a) dAgent = z.agents.getD a dAgent) ∧
      (∀ i, i < N → ∀ t, t < z.tl_faces.length →
        out.tl_faces.getD (i * z.tl_faces.length + t) dTlFace = z.tl_faces.getD t dTlFace) := by
  have hfm := filterMap_id_replicate N z
  obtain ⟨final, hok, hcout, _⟩ := zarr_concat_ok (List.replicate N (some z))
    (by rw [hfm]; intro w hw; rw [List.eq_of_mem_replicate hw]; exact hWF)
  rw [hfm] at hcout
  have hlen : (List.replicate N z).length = N := List.length_replicate N z
  refine ⟨final, hok, ?_, ?_, ?_, ?_⟩
  · intro i hi k hk
    have hq : i < (List.replicate N z).length := by rw [hlen]; exact hi
    have hsc := hcout.sceneAt i hq k
      (by rw [getD_replicate_data z hi]; exact hk)
    rw [getD_replicate_data z hi, take_replicate_data z (le_of_lt hi),
      addEls_zero_left, sumEls_replicate] at hsc
    have hsc2 : final.scenes.getD (((i : Int) * (z.scenes.length : Int)).toNat + k) dScene
        = rebaseScene ((i : Int) * z.frames.length) (z.scenes.getD k dScene) := hsc
    have hix : ((i : Int) * (z.scenes.length : Int)).toNat = i * z.scenes.length := by
      rw [← Nat.cast_mul]; exact Int.toNat_natCast _
    rw [hix] at hsc2
    exact hsc2
  · intro i hi j hj
    have hq : i < (List.replicate N z).length := by rw [hlen]; exact hi
    have hfr := hcout.frameAt i hq j
      (by rw [getD_replicate_data z hi]; exact hj)
    rw [getD_replicate_data z hi, take_replicate_data z (le_of_lt hi),
      addEls_zero_left, sumEls_replicate] at hfr
    have hfr2 : final.frames.getD (((i : Int) * (z.frames.length : Int)).toNat + j) dFrame
        = rebaseFrame ((i : Int) * z.agents.length) ((i : Int) * z.tl_faces.length)
            (z.frames.getD j dFrame) := hfr
    have hix : ((i : Int) * (z.frames.length : Int)).toNat = i * z.frames.length := by
      rw [← Nat.cast_mul]; exact Int.toNat_natCast _
    rw [hix] at hfr2
    exact hfr2
  · intro i hi a ha
    have hq : i < (List.replicate N z).length := by rw [hlen]; exact hi
    have hag := hcout.agentAt i hq a
      (by rw [getD_replicate_data z hi]; exact ha)
    rw [getD_replicate_data z hi, take_replicate_data z (le_of_lt hi),
      addEls_zero_left, sumEls_replicate] at hag
    have hag2 : final.agents.getD (((i : Int) * (z.agents.length : Int)).toNat + a) dAgent
        = z.agents.getD a dAgent := hag
    have hix : ((i : Int) * (z.agents.length : Int)).toNat = i * z.agents.length := by
      rw [← Nat.cast_mul]; exact Int.toNat_natCast _
    rw [hix] at hag2
    exact hag2
  · intro i hi t ht
    have hq : i < (List.replicate N z).length := by rw [hlen]; exact hi
    have htl := hcout.tlAt i hq t
      (by rw [getD_replicate_data z hi]; exact ht)
    rw [getD_replicate_data z hi, take_replicate_data z (le_of_lt hi),
      addEls_zero_left, sumEls_replicate] at htl
    have htl2 : final.tl_faces.getD (((i : Int) * (z.tl_faces.length : Int)).toNat + t) dTlFace
        = z.tl_faces.getD t dTlFace := htl
    have hix : ((i : Int) * (z.tl_faces.length : Int)).toNat = i * z.tl_faces.length := by
      rw [← Nat.cast_mul]; exact Int.toNat_natCast _
    rw [hix] at htl2
    exact htl2

/-- Witness for C1 on two copies of the sample dataset. -/
theorem claim_C1_witness :
    WellFormed sampleZ ∧ 1 ≤ 2 ∧
    (∃ out, zarr_concat (List.replicate 2 (some sampleZ)) = Except.ok out ∧
      (∀ i, i < 2 → ∀ k, k < sampleZ.scenes.length →
        out.scenes.getD (i * sampleZ.scenes.length + k) dScene
          = rebaseScene ((i : Int) * sampleZ.frames.length) (sampleZ.scenes.getD k dScene)) ∧
      (∀ i, i < 2 → ∀ j, j < sampleZ.frames.length →
        out.frames.getD (i * sampleZ.frames.length + j) dFrame
          = rebaseFrame ((i : Int) * sampleZ.agents.length) ((i : Int) * sampleZ.tl_faces.length)
              (sampleZ.frames.getD j dFrame)) ∧
      (∀ i, i < 2 → ∀ a, a < sampleZ.agents.length →
        out.agents.getD (i * sampleZ.agents.length + a) dAgent = sampleZ.agents.getD a dAgent) ∧
      (∀ i, i < 2 → ∀ t, t < sampleZ.tl_faces.length →
        out.tl_faces.getD (i * sampleZ.tl_faces.length + t) dTlFace
          = sampleZ.tl_faces.getD t dTlFace)) :=
  ⟨sampleZ_wf, by decide, claim_C1_concat_content_law sampleZ 2 sampleZ_wf (by decide)⟩

/-! ### Claim C8: best-effort concatenation over surviving sources -/

/-- `zarr_concat` depends only on the surviving (successfully opened)
sources. -/
theorem zarr_concat_congr (s t : List (Option ChunkedDataset))
    (h : s.filterMap id = t.filterMap id) : zarr_concat s = zarr_concat t := by
  simp only [zarr_concat, h]

theorem filterMap_id_map_some (l : List ChunkedDataset) :
    (l.map some).filterMap id = l := by
  simp

/-- Claim C8 — best-effort concatenation: sources that failed to open are
skipped, the call still succeeds, the result is identical to concatenating
just the surviving sources in order (skipped sources are excluded from
numbering), and the `q`-th surviving source's records land at write offsets
equal to the sums of the preceding surviving sources' counts. -/
theorem claim_C8_best_effort_concat (srcs : List (Option ChunkedDataset))
    (h : ∀ w ∈ srcs.filterMap id, WellFormed w) :
    ∃ out, zarr_concat srcs = Except.ok out ∧
      zarr_concat ((srcs.filterMap id).map some) = Except.ok out ∧
      (∀ q, q < (srcs.filterMap id).length →
        ∀ k, k < ((srcs.filterMap id).getD q dData).scenes.length →
        out.scenes.getD ((sumEls ((srcs.filterMap id).take q)).num_scenes.toNat + k) dScene
          = rebaseScene (sumEls ((srcs.filterMap id).take q)).num_frames
              (((srcs.filterMap id).getD q dData).scenes.getD k dScene)) ∧
      (∀ q, q < (srcs.filterMap id).length →
        ∀ j, j < ((srcs.filterMap id).getD q dData).frames.length →
        out.frames.getD ((sumEls ((srcs.filterMap id).take q)).num_frames.toNat + j) dFrame
          = rebaseFrame (sumEls ((srcs.filterMap id).take q)).num_agents
              ((sumEls ((srcs.filterMap id).take q)).num_tl_faces)
              (((srcs.filterMap id).getD q dData).frames.getD j dFrame)) ∧
      (∀ q, q < (srcs.filterMap id).length →
        ∀ a, a < ((srcs.filterMap id).getD q dData).agents.length →
        out.agents.getD ((sumEls ((srcs.filterMap id).take q)).num_agents.toNat + a) dAgent
          = ((srcs.filterMap id).getD q dData).agents.getD a dAgent) ∧
      (∀ q, q < (srcs.filterMap id).length →
        ∀ t, t < ((srcs.filterMap id).getD q dData).tl_faces.length →
        out.tl_faces.getD ((sumEls ((srcs.filterMap id).take q)).num_tl_faces.toNat + t) dTlFace
          = ((srcs.filterMap id).getD q dData).tl_faces.getD t dTlFace) := by
  obtain ⟨final, hok, hcout, _⟩ := zarr_concat_ok srcs h
  refine ⟨final, hok, ?_, ?_, ?_, ?_, ?_⟩
  · rw [zarr_concat_congr ((srcs.filterMap id).map some) srcs
      (by rw [filterMap_id_map_some])]
    exact hok
  · intro q hq k hk
    have hsc := hcout.sceneAt q hq k hk
    rw [addEls_zero_left] at hsc
    exact hsc
  · intro q hq j hj
    have hfr := hcout.frameAt q hq j hj
    rw [addEls_zero_left] at hfr
    exact hfr
  · intro q hq a ha
    have hag := hcout.agentAt q hq a ha
    rw [addEls_zero_left] at hag
    exact hag
  · intro q hq t ht
    have htl := hcout.tlAt q hq t ht
    rw [addEls_zero_left] at htl
    exact htl

/-- Witness for C8 on a source list whose middle entry failed to open. -/
theorem claim_C8_witness :
    (∀ w ∈ ([some sampleZ, none, some sampleZ] : List (Option ChunkedDataset)).filterMap id,
      WellFormed w) ∧
    (∃ out, zarr_concat ([some sampleZ, none, some sampleZ] : List (Option ChunkedDataset))
        = Except.ok out ∧
      zarr_concat ((([some sampleZ, none, some sampleZ] :
          List (Option ChunkedDataset)).filterMap id).map some) = Except.ok out ∧
      (∀ q, q < (([some sampleZ, none, some sampleZ] :
          List (Option ChunkedDataset)).filterMap id).length →
        ∀ k, k < ((([some sampleZ, none, some sampleZ] :
            List (Option ChunkedDataset)).filterMap id).getD q dData).scenes.length →
        out.scenes.getD ((sumEls ((([some sampleZ, none, some sampleZ] :
            List (Option ChunkedDataset)).filterMap id).take q)).num_scenes.toNat + k) dScene
          = rebaseScene (sumEls ((([some sampleZ, none, some sampleZ] :
                List (Option ChunkedDataset)).filterMap id).take q)).num_frames
              (((([some sampleZ, none, some sampleZ] :
                  List (Option ChunkedDataset)).filterMap id).getD q dData).scenes.getD
                k dScene)) ∧
      (∀ q, q < (([some sampleZ, none, some sampleZ] :
          List (Option ChunkedDataset)).filterMap id).length →
        ∀ j, j < ((([some sampleZ, none, some sampleZ] :
            List (Option ChunkedDataset)).filterMap id).getD q dData).frames.length →
        out.frames.getD ((sumEls ((([some sampleZ, none, some sampleZ] :
            List (Option ChunkedDataset)).filterMap id).take q)).num_frames.toNat + j) dFrame
          = rebaseFrame (sumEls ((([some sampleZ, none, some sampleZ] :
                List (Option ChunkedDataset)).filterMap id).take q)).num_agents
              ((sumEls ((([some sampleZ, none, some sampleZ] :
                  List (Option ChunkedDataset)).filterMap id).take q)).num_tl_faces)
              (((([some sampleZ, none, some sampleZ] :
                  List (Option ChunkedDataset)).filterMap id).getD q dData).frames.getD
                j dFrame)) ∧
      (∀ q, q < (([some sampleZ, none, some sampleZ] :
          List (Option ChunkedDataset)).filterMap id).length →
        ∀ a, a < ((([some sampleZ, none, some sampleZ] :
            List (Option ChunkedDataset)).filterMap id).getD q dData).agents.length →
        out.agents.getD ((sumEls ((([some sampleZ, none, some sampleZ] :
            List (Option ChunkedDataset)).filterMap id).take q)).num_agents.toNat + a) dAgent
          = ((([some sampleZ, none, some sampleZ] :
              List (Option ChunkedDataset)).filterMap id).getD q dData).agents.getD a dAgent) ∧
      (∀ q, q < (([some sampleZ, none, some sampleZ] :
          List (Option ChunkedDataset)).filterMap id).length →
        ∀ t, t < ((([some sampleZ, none, some sampleZ] :
            List (Option ChunkedDataset)).filterMap id).getD q dData).tl_faces.length →
        out.tl_faces.getD ((sumEls ((([some sampleZ, none, some sampleZ] :
            List (Option ChunkedDataset)).filterMap id).take q)).num_tl_faces.toNat + t) dTlFace
          = ((([some sampleZ, none, some sampleZ] :
              List (Option ChunkedDataset)).filterMap id).getD q dData).tl_faces.getD
            t dTlFace)) := by
  have hwf : ∀ w ∈ ([some sampleZ, none, some sampleZ] :
      List (Option ChunkedDataset)).filterMap id, WellFormed w := by
    intro w hw
    have hl : (([some sampleZ, none, some sampleZ] :
        List (Option ChunkedDataset)).filterMap id) = [sampleZ, sampleZ] := rfl
    rw [hl] at hw
    simp only [List.mem_cons, List.not_mem_nil, or_false] at hw
    rcases hw with h | h <;> (rw [h]; exact sampleZ_wf)
  exact ⟨hwf, claim_C8_best_effort_concat [some sampleZ, none, some sampleZ] hwf⟩

/-! ### Rational floor helpers for the split target computation -/

theorem Rat_floor_eq (q : Rat) (n : Int) (h1 : (n : Rat) ≤ q) (h2 : q < (n : Rat) + 1) :
    q.floor = n := by
  have ha : n ≤ q.floor := Rat.le_floor.mpr h1
  have hb : ¬ (n + 1 ≤ q.floor) := by
    intro hc
    have hd := Rat.le_floor.mp hc
    push_cast at hd
    exact absurd h2 (not_lt.mpr hd)
  omega

theorem pyInt_nonneg_eq (q : Rat) (n : Int) (h0 : (0 : Rat) ≤ q)
    (h1 : (n : Rat) ≤ q) (h2 : q < (n : Rat) + 1) : pyInt q = n := by
  rw [pyInt, if_pos h0]
  exact Rat_floor_eq q n h1 h2

theorem pyInt_intCast (n : Int) : pyInt ((n : Int) : Rat) = n := by
  rw [pyInt]
  by_cases h : (0 : Rat) ≤ (n : Rat)
  · rw [if_pos h]
    exact Rat_floor_eq _ n (le_refl _) (by push_cast; norm_num)
  · rw [if_neg h]
    have he : -((n : Int) : Rat) = ((-n : Int) : Rat) := by push_cast; ring
    rw [he, Rat_floor_eq _ (-n) (le_refl _) (by push_cast; norm_num)]
    ring

/-! ### Path lemmas for `zarr_split` -/

/-- Either leading assert of `zarr_split` failing yields the `ConfigError`
outcome with no destination created. -/
theorem zarr_split_config (input : ChunkedDataset) (g : Rat) (infos : List SplitInfo)
    (h : infos.length = 0 ∨ (infos.getLastD dInfo).split_size_GB ≠ -1) :
    zarr_split input g infos = Except.error (SplitError.configError, []) := by
  by_cases h0 : infos.length = 0
  · simp only [zarr_split, if_pos h0]
  · rcases h with h | h
    · exact absurd h h0
    · simp only [zarr_split, if_neg h0, if_pos h]

/-- The oversized-targets assert of `zarr_split` failing yields the
`OverflowError` outcome with no destination created. -/
theorem zarr_split_overflow (input : ChunkedDataset) (g : Rat) (infos : List SplitInfo)
    (h0 : infos.length ≠ 0) (h1 : (infos.getLastD dInfo).split_size_GB = -1)
    (h2 : ¬ ((infos.dropLast.map
        (fun si => pyInt ((input.scenes.length : Int) * si.split_size_GB / g))).sum
      < (input.scenes.length : Int))) :
    zarr_split input g infos = Except.error (SplitError.overflowError, []) := by
  have h1' : ¬ ((infos.getLastD dInfo).split_size_GB ≠ -1) := by rw [h1]; simp
  simp only [zarr_split, if_neg h0, if_neg h1', if_neg h2]

/-- When all three leading checks pass, `zarr_split` runs the per-spec loop on
the computed targets plus the sentinel remainder. -/
theorem zarr_split_run (input : ChunkedDataset) (g : Rat) (infos : List SplitInfo)
    (h0 : infos.length ≠ 0) (h1 : (infos.getLastD dInfo).split_size_GB = -1)
    (h2 : (infos.dropLast.map
        (fun si => pyInt ((input.scenes.length : Int) * si.split_size_GB / g))).sum
      < (input.scenes.length : Int)) :
    zarr_split input g infos = splitLoop input
      (((infos.dropLast.map
          (fun si => pyInt ((input.scenes.length : Int) * si.split_size_GB / g)))
        ++ [(input.scenes.length : Int) - (infos.dropLast.map
          (fun si => pyInt ((input.scenes.length : Int) * si.split_size_GB / g))).sum]).zip
        infos) 0 [] [] := by
  have h1' : ¬ ((infos.getLastD dInfo).split_size_GB ≠ -1) := by rw [h1]; simp
  simp only [zarr_split, if_neg h0, if_neg h1', if_pos h2]

/-! ### Step lemmas for the per-spec loop of `zarr_split` -/

theorem splitLoop_nil (input : ChunkedDataset) (cur : Int) (cuts : List (Int × Int))
    (outs : List ChunkedDataset) :
    splitLoop input [] cur cuts outs = Except.ok (cuts, outs) := rfl

theorem splitLoop_cons_assert (input : ChunkedDataset) (t : Int) (info : SplitInfo)
    (rest : List (Int × SplitInfo)) (cur : Int) (cuts : List (Int × Int))
    (outs : List ChunkedDataset)
    (hget : get_num_els_in_scene_range input cur (cur + t) = none) :
    splitLoop input ((t, info) :: rest) cur cuts outs
      = Except.error (SplitError.assertionError, outs) := by
  simp only [splitLoop, hget]

theorem splitLoop_cons_oob (input : ChunkedDataset) (t : Int) (info : SplitInfo)
    (rest : List (Int × SplitInfo)) (cur : Int) (cuts : List (Int × Int))
    (outs : List ChunkedDataset) (K : NumEls)
    (hget : get_num_els_in_scene_range input cur (cur + t) = some K)
    (happ : append_zarr_subset input
        (preallocate K.num_scenes K.num_frames K.num_agents K.num_tl_faces)
        cur (cur + t) none = none) :
    splitLoop input ((t, info) :: rest) cur cuts outs
      = Except.error (SplitError.outOfBounds,
          outs ++ [preallocate K.num_scenes K.num_frames K.num_agents K.num_tl_faces]) := by
  simp only [splitLoop, hget, happ]

theorem splitLoop_cons_some (input : ChunkedDataset) (t : Int) (info : SplitInfo)
    (rest : List (Int × SplitInfo)) (cur : Int) (cuts : List (Int × Int))
    (outs : List ChunkedDataset) (K : NumEls) (outD : ChunkedDataset)
    (hget : get_num_els_in_scene_range input cur (cur + t) = some K)
    (happ : append_zarr_subset input
        (preallocate K.num_scenes K.num_frames K.num_agents K.num_tl_faces)
        cur (cur + t) none = some outD) :
    splitLoop input ((t, info) :: rest) cur cuts outs
      = splitLoop input rest (cur + t) (cuts ++ [(cur, cur + t)]) (outs ++ [outD]) := by
  simp only [splitLoop, hget, happ]

/-- The per-spec loop never produces the `ConfigError` outcome: those failures
come only from the two leading asserts of `zarr_split`. -/
theorem splitLoop_no_config (input : ChunkedDataset) :
    ∀ (l : List (Int × SplitInfo)) (cur : Int) (cuts : List (Int × Int))
      (outs c : List ChunkedDataset),
    splitLoop input l cur cuts outs ≠ Except.error (SplitError.configError, c) := by
  intro l
  induction l with
  | nil =>
    intro cur cuts outs c h
    simp [splitLoop] at h
  | cons p rest ih =>
    intro cur cuts outs c h
    obtain ⟨t, info⟩ := p
    cases hget : get_num_els_in_scene_range input cur (cur + t) with
    | none =>
      rw [splitLoop_cons_assert input t info rest cur cuts outs hget] at h
      simp at h
    | some K =>
      cases happ : append_zarr_subset input
          (preallocate K.num_scenes K.num_frames K.num_agents K.num_tl_faces)
          cur (cur + t) none with
      | none =>
        rw [splitLoop_cons_oob input t info rest cur cuts outs K hget happ] at h
        simp at h
      | some outD =>
        rw [splitLoop_cons_some input t info rest cur cuts outs K outD hget happ] at h
        exact ih _ _ _ _ h

/-! ### Cut-list arithmetic -/

theorem sum_nonneg_of_ge_one (L : List Int) (h : ∀ x ∈ L, 1 ≤ x) : 0 ≤ L.sum := by
  induction L with
  | nil => simp
  | cons x rest ih =>
    simp only [List.sum_cons]
    have h1 := h x (by simp)
    have h2 := ih (fun y hy => h y (by simp [hy]))
    omega

theorem mkCuts_length (c : Int) (ts : List Int) : (mkCuts c ts).length = ts.length := by
  induction ts generalizing c with
  | nil => rfl
  | cons t rest ih => simp only [mkCuts, List.length_cons, ih]

theorem mkCuts_getD (ts : List Int) : ∀ (c : Int) (q : Nat), q < ts.length →
    (mkCuts c ts).getD q (0, 0)
      = (c + (ts.take q).sum, c + (ts.take (q + 1)).sum) := by
  induction ts with
  | nil => intro c q hq; simp at hq
  | cons t rest ih =>
    intro c q hq
    cases q with
    | zero => simp [mkCuts]
    | succ q' =>
      simp only [mkCuts, List.getD_cons_succ, List.take_succ_cons, List.sum_cons]
      rw [ih (c + t) q' (by simp only [List.length_cons] at hq; omega)]
      simp only [Prod.mk.injEq]
      constructor <;> ring

theorem take_sum_succ (ts : List Int) (q : Nat) (h : q < ts.length) :
    (ts.take (q + 1)).sum = (ts.take q).sum + ts.getD q 0 := by
  rw [List.take_succ, List.sum_append]
  have h1 : ts[q]? = some ts[q] := List.getElem?_eq_getElem h
  rw [h1]
  have h2 : ts.getD q 0 = ts[q] := by
    rw [List.getD_eq_getElem?_getD, h1]
    rfl
  rw [h2]
  simp

theorem getD_mem_of_lt (ts : List Int) (q : Nat) (h : q < ts.length) : ts.getD q 0 ∈ ts := by
  have h2 : ts.getD q 0 = ts[q] := by
    rw [List.getD_eq_getElem?_getD, List.getElem?_eq_getElem h]
    rfl
  rw [h2]
  exact List.getElem_mem h

/-- Success of the per-spec loop: on a well-formed input, when every pending
target is at least one scene and the targets from the cursor onward sum to
exactly the total scene count, the loop creates one destination per spec and
returns the contiguous cut list walked from the cursor. -/
theorem splitLoop_ok (input : ChunkedDataset) (hWF : WellFormed input) :
    ∀ (l : List (Int × SplitInfo)) (curN : Nat) (cuts0 : List (Int × Int))
      (outs0 : List ChunkedDataset),
    (∀ p ∈ l, 1 ≤ p.1) →
    ((curN : Int) + (l.map Prod.fst).sum = (input.scenes.length : Int)) →
    ∃ outs, splitLoop input l (curN : Int) cuts0 outs0
        = Except.ok (cuts0 ++ mkCuts (curN : Int) (l.map Prod.fst), outs0 ++ outs) ∧
      outs.length = l.length := by
  intro l
  induction l with
  | nil =>
    intro curN cuts0 outs0 _ _
    exact ⟨[], by simp [splitLoop, mkCuts], rfl⟩
  | cons p rest ih =>
    obtain ⟨t, info⟩ := p
    intro curN cuts0 outs0 hpos hsum
    have ht1 : 1 ≤ t := hpos (t, info) (by simp)
    have hrest_pos : ∀ q ∈ rest, 1 ≤ q.1 := fun q hq => hpos q (by simp [hq])
    have hrestsum : 0 ≤ (rest.map Prod.fst).sum := sum_nonneg_of_ge_one _ (by
      intro x hx
      obtain ⟨q, hq, hqx⟩ := List.mem_map.mp hx
      rw [← hqx]
      exact hrest_pos q hq)
    simp only [List.map_cons, List.sum_cons] at hsum
    have htN : ((curN + t.toNat : Nat) : Int) = (curN : Int) + t := by push_cast; omega
    have hse : curN < curN + t.toNat := by omega
    have heS : curN + t.toNat ≤ input.scenes.length := by omega
    have hnn : curN + t.toNat - curN = t.toNat := by omega
    have hget := get_num_els_eq_cnt input curN (curN + t.toNat) hse
    rw [hnn] at hget
    obtain ⟨st', hrun, happ, hout⟩ := append_zarr_subset_spec input
      (preallocate (((curN + t.toNat : Nat) : Int) - ((curN : Nat) : Int))
        (cntFr input curN t.toNat) (cntAg input curN t.toNat) (cntTl input curN t.toNat))
      hWF curN (curN + t.toNat) hse heS zeroEls (by decide) (by decide) (by decide) (by decide)
      (by
        obtain ⟨p1, _, _, _⟩ := preallocate_lengths
          (((curN + t.toNat : Nat) : Int) - ((curN : Nat) : Int))
          (cntFr input curN t.toNat) (cntAg input curN t.toNat) (cntTl input curN t.toNat)
        rw [p1]
        have hz : zeroEls.num_scenes.toNat = 0 := rfl
        rw [hz]
        omega)
      (by
        obtain ⟨_, p2, _, _⟩ := preallocate_lengths
          (((curN + t.toNat : Nat) : Int) - ((curN : Nat) : Int))
          (cntFr input curN t.toNat) (cntAg input curN t.toNat) (cntTl input curN t.toNat)
        rw [p2, hnn]
        have hz : zeroEls.num_frames.toNat = 0 := rfl
        rw [hz]
        omega)
      (by
        obtain ⟨_, _, p3, _⟩ := preallocate_lengths
          (((curN + t.toNat : Nat) : Int) - ((curN : Nat) : Int))
          (cntFr input curN t.toNat) (cntAg input curN t.toNat) (cntTl input curN t.toNat)
        rw [p3, hnn]
        have hz : zeroEls.num_agents.toNat = 0 := rfl
        rw [hz]
        omega)
      (by
        obtain ⟨_, _, _, p4⟩ := preallocate_lengths
          (((curN + t.toNat : Nat) : Int) - ((curN : Nat) : Int))
          (cntFr input curN t.toNat) (cntAg input curN t.toNat) (cntTl input curN t.toNat)
        rw [p4, hnn]
        have hz : zeroEls.num_tl_faces.toNat = 0 := rfl
        rw [hz]
        omega)
    have hget2 : get_num_els_in_scene_range input (curN : Int) ((curN : Int) + t)
        = some ⟨((curN + t.toNat : Nat) : Int) - ((curN : Nat) : Int),
            cntFr input curN t.toNat, cntAg input curN t.toNat, cntTl input curN t.toNat⟩ := by
      rw [← htN]
      exact hget
    have happ2 : append_zarr_subset input
        (preallocate (((curN + t.toNat : Nat) : Int) - ((curN : Nat) : Int))
          (cntFr input curN t.toNat) (cntAg input curN t.toNat) (cntTl input curN t.toNat))
        (curN : Int) ((curN : Int) + t) none = some st'.out := by
      rw [← htN]
      exact happ
    rw [splitLoop_cons_some input t info rest (curN : Int) cuts0 outs0
      ⟨((curN + t.toNat : Nat) : Int) - ((curN : Nat) : Int),
        cntFr input curN t.toNat, cntAg input curN t.toNat, cntTl input curN t.toNat⟩
      st'.out hget2 happ2]
    obtain ⟨outs, hrec, hlen⟩ := ih (curN + t.toNat)
      (cuts0 ++ [((curN : Int), ((curN + t.toNat : Nat) : Int))]) (outs0 ++ [st'.out])
      hrest_pos (by push_cast; omega)
    refine ⟨st'.out :: outs, ?_, by simp [hlen]⟩
    simp only [List.map_cons, mkCuts]
    rw [show (curN : Int) + t = ((curN + t.toNat : Nat) : Int) from htN.symm]
    rw [hrec]
    simp [List.append_assoc]

/-! ### Claim C7: sentinel placement -/

/-- Claim C7 (amended) — sentinel-placement rejection: `zarr_split` fails with
the `ConfigError` outcome (and creates no destination) exactly when the spec
list is empty or its LAST spec's budget differs from the sentinel `-1`; the
checks inspect only the last spec, so a sentinel appearing additionally in an
earlier position is not rejected by them (the original "exactly the last"
iff-form is refuted by `claim_C7_counterexample`). -/
theorem claim_C7_sentinel_rejection (input : ChunkedDataset) (g : Rat)
    (infos : List SplitInfo) :
    (zarr_split input g infos = Except.error (SplitError.configError, [])
      ↔ (infos.length = 0 ∨ (infos.getLastD dInfo).split_size_GB ≠ -1)) ∧
    (∀ c, zarr_split input g infos = Except.error (SplitError.configError, c) → c = []) := by
  constructor
  · constructor
    · intro h
      by_contra hnot
      push_neg at hnot
      obtain ⟨h0, h1'⟩ := hnot
      by_cases h2 : (infos.dropLast.map
          (fun si => pyInt ((input.scenes.length : Int) * si.split_size_GB / g))).sum
        < (input.scenes.length : Int)
      · rw [zarr_split_run input g infos h0 h1' h2] at h
        exact splitLoop_no_config input _ _ _ _ _ h
      · rw [zarr_split_overflow input g infos h0 h1' h2] at h
        simp at h
    · exact zarr_split_config input g infos
  · intro c hc
    by_cases h0 : infos.length = 0
    · rw [zarr_split_config input g infos (Or.inl h0)] at hc
      simp only [Except.error.injEq, Prod.mk.injEq] at hc
      exact hc.2.symm
    · by_cases h1 : (infos.getLastD dInfo).split_size_GB = -1
      · by_cases h2 : (infos.dropLast.map
            (fun si => pyInt ((input.scenes.length : Int) * si.split_size_GB / g))).sum
          < (input.scenes.length : Int)
        · rw [zarr_split_run input g infos h0 h1 h2] at hc
          exact absurd hc (splitLoop_no_config input _ _ _ _ _)
        · rw [zarr_split_overflow input g infos h0 h1 h2] at hc
          simp at hc
      · rw [zarr_split_config input g infos (Or.inr h1)] at hc
        simp only [Except.error.injEq, Prod.mk.injEq] at hc
        exact hc.2.symm

/-- Witness for C7: a spec list whose last budget is not the sentinel is
rejected with `ConfigError` and no destinations. -/
theorem claim_C7_witness :
    ((([⟨"a", (0 : Rat)⟩] : List SplitInfo).getLastD dInfo).split_size_GB ≠ -1) ∧
    zarr_split sampleZ 1 [⟨"a", (0 : Rat)⟩] = Except.error (SplitError.configError, []) :=
  ⟨by show (0 : Rat) ≠ -1; norm_num,
    (claim_C7_sentinel_rejection sampleZ 1 [⟨"a", (0 : Rat)⟩]).1.mpr
      (Or.inr (by show (0 : Rat) ≠ -1; norm_num))⟩

/-- Counterexample refuting C7's original iff: a list whose non-last spec also
carries the sentinel is NOT rejected with `ConfigError` — the sentinel target
becomes negative and the Range Accountant's assert trips instead. -/
theorem claim_C7_counterexample :
    (([⟨"a", (-1 : Rat)⟩, ⟨"b", (-1 : Rat)⟩] : List SplitInfo).getLastD dInfo).split_size_GB
      = -1 ∧
    (([⟨"a", (-1 : Rat)⟩, ⟨"b", (-1 : Rat)⟩] : List SplitInfo).getD 0 dInfo).split_size_GB
      = -1 ∧
    2 ≤ ([⟨"a", (-1 : Rat)⟩, ⟨"b", (-1 : Rat)⟩] : List SplitInfo).length ∧
    zarr_split sampleZ 1 [⟨"a", (-1 : Rat)⟩, ⟨"b", (-1 : Rat)⟩]
      = Except.error (SplitError.assertionError, []) ∧
    SplitError.assertionError ≠ SplitError.configError := by
  have hlen : sampleZ.scenes.length = 2 := rfl
  have hmap : ([⟨"a", (-1 : Rat)⟩, ⟨"b", (-1 : Rat)⟩] : List SplitInfo).dropLast.map
      (fun si => pyInt ((sampleZ.scenes.length : Int) * si.split_size_GB / 1))
      = [(-2 : Int)] := by
    show [pyInt ((sampleZ.scenes.length : Int) * ((-1 : Rat)) / 1)] = [(-2 : Int)]
    congr 1
    have hq : ((sampleZ.scenes.length : Int) : Rat) * ((-1 : Rat)) / 1 = ((-2 : Int) : Rat) := by
      rw [hlen]
      push_cast
      norm_num
    rw [hq, pyInt_intCast]
  refine ⟨rfl, rfl, by decide, ?_, by decide⟩
  rw [zarr_split_run sampleZ 1 [⟨"a", (-1 : Rat)⟩, ⟨"b", (-1 : Rat)⟩] (by decide) rfl
    (by rw [hmap]; decide)]
  rw [hmap]
  have hl2 : [(-2 : Int)] ++ [(sampleZ.scenes.length : Int) - ([(-2 : Int)]).sum]
      = [(-2 : Int), 4] := by
    have hcast : (sampleZ.scenes.length : Int) = 2 := rfl
    rw [hcast]
    decide
  rw [hl2]
  show splitLoop sampleZ (((-2 : Int), (⟨"a", (-1 : Rat)⟩ : SplitInfo))
      :: [((4 : Int), (⟨"b", (-1 : Rat)⟩ : SplitInfo))]) 0 [] []
    = Except.error (SplitError.assertionError, [])
  rw [splitLoop_cons_assert sampleZ (-2) ⟨"a", (-1 : Rat)⟩
    [((4 : Int), (⟨"b", (-1 : Rat)⟩ : SplitInfo))] 0 [] [] rfl]

/-! ### Claim C9: overflow rejection -/

/-- Claim C9 (amended) — split overflow rejection: provided the sentinel
checks pass (non-empty list ending in the `-1` sentinel), `zarr_split` fails
with the `OverflowError` outcome whenever the non-sentinel target scene counts
sum to at least the total scene count, and no destination has been created at
that point (the error carries an empty created-destinations list).  Without
the sentinel-check proviso the claim is refuted by `claim_C9_counterexample`:
the last-spec check fires first and yields `ConfigError`. -/
theorem claim_C9_overflow_rejection (input : ChunkedDataset) (g : Rat)
    (infos : List SplitInfo)
    (h0 : infos.length ≠ 0)
    (h1 : (infos.getLastD dInfo).split_size_GB = -1)
    (h2 : ¬ ((infos.dropLast.map
        (fun si => pyInt ((input.scenes.length : Int) * si.split_size_GB / g))).sum
      < (input.scenes.length : Int))) :
    zarr_split input g infos = Except.error (SplitError.overflowError, []) :=
  zarr_split_overflow input g infos h0 h1 h2

/-- Sum of the computed non-sentinel targets for the C9 witness list. -/
theorem c9_sum_eval :
    (([⟨"a", (2 : Rat)⟩, ⟨"b", (-1 : Rat)⟩] : List SplitInfo).dropLast.map
      (fun si => pyInt ((sampleZ.scenes.length : Int) * si.split_size_GB / 1))).sum
      = 4 := by
  have hlen : sampleZ.scenes.length = 2 := rfl
  have hmap : ([⟨"a", (2 : Rat)⟩, ⟨"b", (-1 : Rat)⟩] : List SplitInfo).dropLast.map
      (fun si => pyInt ((sampleZ.scenes.length : Int) * si.split_size_GB / 1))
      = [(4 : Int)] := by
    show [pyInt ((sampleZ.scenes.length : Int) * ((2 : Rat)) / 1)] = [(4 : Int)]
    congr 1
    have hq : ((sampleZ.scenes.length : Int) : Rat) * ((2 : Rat)) / 1 = ((4 : Int) : Rat) := by
      rw [hlen]
      push_cast
      norm_num
    rw [hq, pyInt_intCast]
  rw [hmap]
  decide

/-- Witness for C9: a sentinel-terminated list whose single non-sentinel
budget is oversized is rejected with `OverflowError` and no destinations. -/
theorem claim_C9_witness :
    ([⟨"a", (2 : Rat)⟩, ⟨"b", (-1 : Rat)⟩] : List SplitInfo).length ≠ 0 ∧
    (([⟨"a", (2 : Rat)⟩, ⟨"b", (-1 : Rat)⟩] : List SplitInfo).getLastD dInfo).split_size_GB
      = -1 ∧
    ¬ ((([⟨"a", (2 : Rat)⟩, ⟨"b", (-1 : Rat)⟩] : List SplitInfo).dropLast.map
        (fun si => pyInt ((sampleZ.scenes.length : Int) * si.split_size_GB / 1))).sum
      < (sampleZ.scenes.length : Int)) ∧
    zarr_split sampleZ 1 [⟨"a", (2 : Rat)⟩, ⟨"b", (-1 : Rat)⟩]
      = Except.error (SplitError.overflowError, []) :=
  ⟨by decide, rfl, by rw [c9_sum_eval]; decide,
    claim_C9_overflow_rejection sampleZ 1 [⟨"a", (2 : Rat)⟩, ⟨"b", (-1 : Rat)⟩]
      (by decide) rfl (by rw [c9_sum_eval]; decide)⟩

/-- Counterexample refuting C9's original unconditional form: with an
oversized non-sentinel budget but a non-sentinel LAST spec, the failure is
`ConfigError`, not `OverflowError`. -/
theorem claim_C9_counterexample :
    ¬ ((([⟨"a", (2 : Rat)⟩, ⟨"b", (3 : Rat)⟩] : List SplitInfo).dropLast.map
        (fun si => pyInt ((sampleZ.scenes.length : Int) * si.split_size_GB / 1))).sum
      < (sampleZ.scenes.length : Int)) ∧
    zarr_split sampleZ 1 [⟨"a", (2 : Rat)⟩, ⟨"b", (3 : Rat)⟩]
      = Except.error (SplitError.configError, []) ∧
    SplitError.configError ≠ SplitError.overflowError := by
  have hlen : sampleZ.scenes.length = 2 := rfl
  have hmap : ([⟨"a", (2 : Rat)⟩, ⟨"b", (3 : Rat)⟩] : List SplitInfo).dropLast.map
      (fun si => pyInt ((sampleZ.scenes.length : Int) * si.split_size_GB / 1))
      = [(4 : Int)] := by
    show [pyInt ((sampleZ.scenes.length : Int) * ((2 : Rat)) / 1)] = [(4 : Int)]
    congr 1
    have hq : ((sampleZ.scenes.length : Int) : Rat) * ((2 : Rat)) / 1 = ((4 : Int) : Rat) := by
      rw [hlen]
      push_cast
      norm_num
    rw [hq, pyInt_intCast]
  refine ⟨by rw [hmap]; decide, ?_, by decide⟩
  exact zarr_split_config sampleZ 1 [⟨"a", (2 : Rat)⟩, ⟨"b", (3 : Rat)⟩]
    (Or.inr (by show (3 : Rat) ≠ -1; norm_num))

/-! ### Claim C4: split coverage -/

/-- Claim C4 (amended) — split coverage law: when the sentinel checks pass,
the computed non-sentinel targets are EACH at least one scene, and they sum
below the total, `zarr_split` succeeds and returns one `(scene_start,
scene_end)` pair per spec, in spec order: the pairs are the contiguous walk of
the targets plus the sentinel remainder, each pair non-empty, starting at `0`,
each ending where the next begins, and the last ending at `total_scenes` — so
their union covers `[0, total_scenes)` exactly.  Without the
every-target-positive proviso the claim is refuted by
`claim_C4_counterexample` (a zero target trips the Range Accountant's
assert). -/
theorem claim_C4_split_coverage (input : ChunkedDataset) (g : Rat)
    (infos : List SplitInfo) (hWF : WellFormed input)
    (h0 : infos.length ≠ 0)
    (h1 : (infos.getLastD dInfo).split_size_GB = -1)
    (T : List Int)
    (hT : infos.dropLast.map
        (fun si => pyInt ((input.scenes.length : Int) * si.split_size_GB / g)) = T)
    (hpos : ∀ x ∈ T, 1 ≤ x)
    (hsum : T.sum < (input.scenes.length : Int)) :
    ∃ cuts outs,
      zarr_split input g infos = Except.ok (cuts, outs) ∧
      cuts = mkCuts 0 (T ++ [(input.scenes.length : Int) - T.sum]) ∧
      cuts.length = infos.length ∧
      outs.length = infos.length ∧
      (∀ q, q < cuts.length → (cuts.getD q (0, 0)).1 < (cuts.getD q (0, 0)).2) ∧
      (cuts.getD 0 (0, 0)).1 = 0 ∧
      (∀ q, q + 1 < cuts.length →
        (cuts.getD q (0, 0)).2 = (cuts.getD (q + 1) (0, 0)).1) ∧
      (cuts.getD (cuts.length - 1) (0, 0)).2 = (input.scenes.length : Int) := by
  have hrun := zarr_split_run input g infos h0 h1 (by rw [hT]; exact hsum)
  rw [hT] at hrun
  have hTlen : T.length = infos.length - 1 := by
    rw [← hT, List.length_map, List.length_dropLast]
  have hLlen : (T ++ [(input.scenes.length : Int) - T.sum]).length = infos.length := by
    simp only [List.length_append, List.length_singleton]
    omega
  have hLpos : ∀ x ∈ T ++ [(input.scenes.length : Int) - T.sum], 1 ≤ x := by
    intro x hx
    rcases List.mem_append.mp hx with h | h
    · exact hpos x h
    · rw [List.mem_singleton] at h
      subst h
      omega
  have hzip : ((T ++ [(input.scenes.length : Int) - T.sum]).zip infos).map Prod.fst
      = T ++ [(input.scenes.length : Int) - T.sum] :=
    List.map_fst_zip _ _ (le_of_eq hLlen)
  have hppos : ∀ p ∈ (T ++ [(input.scenes.length : Int) - T.sum]).zip infos, 1 ≤ p.1 :=
    fun p hp => hLpos p.1 (List.of_mem_zip hp).1
  have hLsum : (T ++ [(input.scenes.length : Int) - T.sum]).sum
      = (input.scenes.length : Int) := by
    rw [List.sum_append, List.sum_singleton]
    ring
  obtain ⟨outs, hloop, houts⟩ := splitLoop_ok input hWF
    ((T ++ [(input.scenes.length : Int) - T.sum]).zip infos) 0 [] [] hppos
    (by rw [hzip, hLsum]; simp)
  rw [hzip] at hloop
  have houts2 : outs.length = infos.length := by
    rw [houts, List.length_zip]
    omega
  have h00 : ((0 : Nat) : Int) = (0 : Int) := rfl
  rw [h00] at hloop
  simp only [List.nil_append] at hloop
  refine ⟨mkCuts 0 (T ++ [(input.scenes.length : Int) - T.sum]), outs,
    hrun.trans hloop, rfl, ?_, ?_, ?_, ?_, ?_, ?_⟩
  · rw [mkCuts_length, hLlen]
  · exact houts2
  · intro q hq
    rw [mkCuts_length] at hq
    rw [mkCuts_getD _ 0 q hq]
    have hstep := take_sum_succ (T ++ [(input.scenes.length : Int) - T.sum]) q hq
    have hmem := getD_mem_of_lt (T ++ [(input.scenes.length : Int) - T.sum]) q hq
    have hone := hLpos _ hmem
    simp only []
    omega
  · have hq0 : 0 < (T ++ [(input.scenes.length : Int) - T.sum]).length := by
      rw [hLlen]; omega
    rw [mkCuts_getD _ 0 0 hq0]
    simp
  · intro q hq
    rw [mkCuts_length] at hq
    rw [mkCuts_getD _ 0 q (by omega), mkCuts_getD _ 0 (q + 1) hq]
  · rw [mkCuts_length]
    have hq0 : 0 < (T ++ [(input.scenes.length : Int) - T.sum]).length := by
      rw [hLlen]; omega
    have hlast : (T ++ [(input.scenes.length : Int) - T.sum]).length - 1
        < (T ++ [(input.scenes.length : Int) - T.sum]).length := by omega
    rw [mkCuts_getD _ 0 _ hlast]
    have hfull : (T ++ [(input.scenes.length : Int) - T.sum]).length - 1 + 1
        = (T ++ [(input.scenes.length : Int) - T.sum]).length := by omega
    rw [hfull, List.take_length, hLsum]
    simp

/-- Counterexample refuting C4's original form: a well-formed spec list (last
spec sentinel, non-sentinel targets summing below the total) whose computed
target is zero makes `zarr_split` trip the Range Accountant's assert instead
of returning the cut list. -/
theorem claim_C4_counterexample :
    (([⟨"a", (1 : Rat)/4⟩, ⟨"b", (-1 : Rat)⟩] : List SplitInfo).getLastD dInfo).split_size_GB
      = -1 ∧
    ((([⟨"a", (1 : Rat)/4⟩, ⟨"b", (-1 : Rat)⟩] : List SplitInfo).dropLast.map
        (fun si => pyInt ((sampleZ.scenes.length : Int) * si.split_size_GB / 1))).sum
      < (sampleZ.scenes.length : Int)) ∧
    zarr_split sampleZ 1 [⟨"a", (1 : Rat)/4⟩, ⟨"b", (-1 : Rat)⟩]
      = Except.error (SplitError.assertionError, []) := by
  have hlen : sampleZ.scenes.length = 2 := rfl
  have hmap : ([⟨"a", (1 : Rat)/4⟩, ⟨"b", (-1 : Rat)⟩] : List SplitInfo).dropLast.map
      (fun si => pyInt ((sampleZ.scenes.length : Int) * si.split_size_GB / 1))
      = [(0 : Int)] := by
    show [pyInt ((sampleZ.scenes.length : Int) * ((1 : Rat)/4) / 1)] = [(0 : Int)]
    congr 1
    have hq : ((sampleZ.scenes.length : Int) : Rat) * ((1 : Rat)/4) / 1 = (1 : Rat)/2 := by
      rw [hlen]
      push_cast
      norm_num
    rw [hq]
    exact pyInt_nonneg_eq ((1 : Rat)/2) 0 (by norm_num) (by norm_num) (by norm_num)
  refine ⟨rfl, by rw [hmap]; decide, ?_⟩
  rw [zarr_split_run sampleZ 1 [⟨"a", (1 : Rat)/4⟩, ⟨"b", (-1 : Rat)⟩] (by decide) rfl
    (by rw [hmap]; decide)]
  rw [hmap]
  have hl2 : [(0 : Int)] ++ [(sampleZ.scenes.length : Int) - ([(0 : Int)]).sum]
      = [(0 : Int), 2] := by
    have hcast : (sampleZ.scenes.length : Int) = 2 := rfl
    rw [hcast]
    decide
  rw [hl2]
  show splitLoop sampleZ (((0 : Int), (⟨"a", (1 : Rat)/4⟩ : SplitInfo))
      :: [((2 : Int), (⟨"b", (-1 : Rat)⟩ : SplitInfo))]) 0 [] []
    = Except.error (SplitError.assertionError, [])
  rw [splitLoop_cons_assert sampleZ 0 ⟨"a", (1 : Rat)/4⟩
    [((2 : Int), (⟨"b", (-1 : Rat)⟩ : SplitInfo))] 0 [] [] rfl]

/-- Computed non-sentinel targets for the C4 witness list. -/
theorem c4_T_eval :
    ([⟨"a", (3 : Rat)/5⟩, ⟨"b", (-1 : Rat)⟩] : List SplitInfo).dropLast.map
      (fun si => pyInt ((sampleZ.scenes.length : Int) * si.split_size_GB / 1))
      = [(1 : Int)] := by
  have hlen : sampleZ.scenes.length = 2 := rfl
  show [pyInt ((sampleZ.scenes.length : Int) * ((3 : Rat)/5) / 1)] = [(1 : Int)]
  congr 1
  have hq : ((sampleZ.scenes.length : Int) : Rat) * ((3 : Rat)/5) / 1 = (6 : Rat)/5 := by
    rw [hlen]
    push_cast
    norm_num
  rw [hq]
  exact pyInt_nonneg_eq ((6 : Rat)/5) 1 (by norm_num) (by norm_num) (by norm_num)

/-- Witness for C4 on the sample dataset: a 60%-budget spec plus the sentinel
yields the contiguous cuts `[(0,1), (1,2)]` covering both scenes. -/
theorem claim_C4_witness :
    WellFormed sampleZ ∧
    ([⟨"a", (3 : Rat)/5⟩, ⟨"b", (-1 : Rat)⟩] : List SplitInfo).length ≠ 0 ∧
    (([⟨"a", (3 : Rat)/5⟩, ⟨"b", (-1 : Rat)⟩] : List SplitInfo).getLastD dInfo).split_size_GB
      = -1 ∧
    ([⟨"a", (3 : Rat)/5⟩, ⟨"b", (-1 : Rat)⟩] : List SplitInfo).dropLast.map
      (fun si => pyInt ((sampleZ.scenes.length : Int) * si.split_size_GB / 1))
      = [(1 : Int)] ∧
    (∀ x ∈ ([(1 : Int)] : List Int), 1 ≤ x) ∧
    ([(1 : Int)] : List Int).sum < (sampleZ.scenes.length : Int) ∧
    (∃ cuts outs,
      zarr_split sampleZ 1 [⟨"a", (3 : Rat)/5⟩, ⟨"b", (-1 : Rat)⟩] = Except.ok (cuts, outs) ∧
      cuts = mkCuts 0 ([(1 : Int)] ++ [(sampleZ.scenes.length : Int) - ([(1 : Int)] : List Int).sum]) ∧
      cuts.length = ([⟨"a", (3 : Rat)/5⟩, ⟨"b", (-1 : Rat)⟩] : List SplitInfo).length ∧
      outs.length = ([⟨"a", (3 : Rat)/5⟩, ⟨"b", (-1 : Rat)⟩] : List SplitInfo).length ∧
      (∀ q, q < cuts.length → (cuts.getD q (0, 0)).1 < (cuts.getD q (0, 0)).2) ∧
      (cuts.getD 0 (0, 0)).1 = 0 ∧
      (∀ q, q + 1 < cuts.length →
        (cuts.getD q (0, 0)).2 = (cuts.getD (q + 1) (0, 0)).1) ∧
      (cuts.getD (cuts.length - 1) (0, 0)).2 = (sampleZ.scenes.length : Int)) :=
  ⟨sampleZ_wf, by decide, rfl, c4_T_eval, by decide, by decide,
    claim_C4_split_coverage sampleZ 1 [⟨"a", (3 : Rat)/5⟩, ⟨"b", (-1 : Rat)⟩] sampleZ_wf
      (by decide) rfl [(1 : Int)] c4_T_eval (by decide) (by decide)⟩

/-! ### Claim C2: the copied-into destination stays well-formed -/

theorem rebaseScene_fii (dF : Int) (sc : Scene) :
    (rebaseScene dF sc).frame_index_interval
      = (sc.frame_index_interval.1 + dF, sc.frame_index_interval.2 + dF) := rfl

theorem rebaseFrame_aii (dA dT : Int) (f : Frame) :
    (rebaseFrame dA dT f).agent_index_interval
      = (f.agent_index_interval.1 + dA, f.agent_index_interval.2 + dA) := rfl

theorem rebaseFrame_tii (dA dT : Int) (f : Frame) :
    (rebaseFrame dA dT f).traffic_light_faces_index_interval
      = (f.traffic_light_faces_index_interval.1 + dT,
         f.traffic_light_faces_index_interval.2 + dT) := rfl

/-- Unpack the prior-contents condition into per-level chains over the raw
destination sequences (vacuous chains when nothing was written yet). -/
theorem priorOK_chains (dst : ChunkedDataset) (oS oF oA oT : Nat)
    (hS : oS ≤ dst.scenes.length) (hF : oF ≤ dst.frames.length)
    (hA : oA ≤ dst.agents.length) (hT : oT ≤ dst.tl_faces.length)
    (h : PriorOK dst oS oF oA oT) :
    ChainSpec (fun i => (dst.scenes.getD i dScene).frame_index_interval) oS (oF : Int) ∧
    (∀ i, i < oS → (dst.scenes.getD i dScene).frame_index_interval.1
        < (dst.scenes.getD i dScene).frame_index_interval.2) ∧
    ChainSpec (fun j => (dst.frames.getD j dFrame).agent_index_interval) oF (oA : Int) ∧
    ChainSpec (fun j => (dst.frames.getD j dFrame).traffic_light_faces_index_interval)
      oF (oT : Int) ∧
    (oS = 0 → oF = 0) ∧ (oF = 0 → oA = 0) ∧ (oF = 0 → oT = 0) := by
  rcases h with ⟨hS0, hF0, hA0, hT0⟩ | hWFp
  · subst hS0
    subst hF0
    subst hA0
    subst hT0
    exact ⟨⟨fun i hi => absurd hi (by omega), fun i hi => absurd hi (by omega),
        fun i hi => absurd hi (by omega), fun i hi => absurd hi (by omega),
        fun h => absurd h (by omega), fun h => absurd h (by omega)⟩,
      fun i hi => absurd hi (by omega),
      ⟨fun i hi => absurd hi (by omega), fun i hi => absurd hi (by omega),
        fun i hi => absurd hi (by omega), fun i hi => absurd hi (by omega),
        fun h => absurd h (by omega), fun h => absurd h (by omega)⟩,
      ⟨fun i hi => absurd hi (by omega), fun i hi => absurd hi (by omega),
        fun i hi => absurd hi (by omega), fun i hi => absurd hi (by omega),
        fun h => absurd h (by omega), fun h => absurd h (by omega)⟩,
      fun _ => rfl, fun _ => rfl, fun _ => rfl⟩
  · have hlS : (takeData dst oS oF oA oT).scenes.length = oS := length_take_of_le _ _ hS
    have hlF : (takeData dst oS oF oA oT).frames.length = oF := length_take_of_le _ _ hF
    have hlA : (takeData dst oS oF oA oT).agents.length = oA := length_take_of_le _ _ hA
    have hlT : (takeData dst oS oF oA oT).tl_faces.length = oT := length_take_of_le _ _ hT
    have hoS : 0 < oS := by
      have := hWFp.scenes_pos
      rwa [hlS] at this
    have hoF : 0 < oF := by
      have := frames_pos _ hWFp
      rwa [hlF] at this
    have heS : ∀ i, i < oS → sFii (takeData dst oS oF oA oT) i
        = (dst.scenes.getD i dScene).frame_index_interval := by
      intro i hi
      show ((dst.scenes.take oS).getD i dScene).frame_index_interval = _
      rw [getD_take_lt _ _ _ _ hi]
    have heA : ∀ j, j < oF → fAii (takeData dst oS oF oA oT) j
        = (dst.frames.getD j dFrame).agent_index_interval := by
      intro j hj
      show ((dst.frames.take oF).getD j dFrame).agent_index_interval = _
      rw [getD_take_lt _ _ _ _ hj]
    have heT : ∀ j, j < oF → fTii (takeData dst oS oF oA oT) j
        = (dst.frames.getD j dFrame).traffic_light_faces_index_interval := by
      intro j hj
      show ((dst.frames.take oF).getD j dFrame).traffic_light_faces_index_interval = _
      rw [getD_take_lt _ _ _ _ hj]
    refine ⟨?_, ?_, ?_, ?_, fun h => by omega, fun h => by omega, fun h => by omega⟩
    · have c := hWFp.sChain
      refine ⟨?_, ?_, ?_, ?_, ?_, ?_⟩
      · intro i hi
        have := c.lo_nonneg i (by rw [hlS]; exact hi)
        rwa [heS i hi] at this
      · intro i hi
        have := c.lo_le_hi i (by rw [hlS]; exact hi)
        rwa [heS i hi] at this
      · intro i hi
        have := c.hi_le i (by rw [hlS]; exact hi)
        rw [heS i hi, hlF] at this
        exact this
      · intro i hi
        have := c.chain i (by rw [hlS]; exact hi)
        rwa [heS i (by omega), heS (i + 1) (by omega)] at this
      · intro h
        have := c.first_eq (by rw [hlS]; omega)
        rwa [heS 0 (by omega)] at this
      · intro h
        have := c.last_eq (by rw [hlS]; omega)
        rw [hlS, hlF] at this
        rwa [heS (oS - 1) (by omega)] at this
    · intro i hi
      have := hWFp.sStrict i (by rw [hlS]; exact hi)
      rwa [heS i hi] at this
    · have c := hWFp.aChain
      refine ⟨?_, ?_, ?_, ?_, ?_, ?_⟩
      · intro j hj
        have := c.lo_nonneg j (by rw [hlF]; exact hj)
        rwa [heA j hj] at this
      · intro j hj
        have := c.lo_le_hi j (by rw [hlF]; exact hj)
        rwa [heA j hj] at this
      · intro j hj
        have := c.hi_le j (by rw [hlF]; exact hj)
        rw [heA j hj, hlA] at this
        exact this
      · intro j hj
        have := c.chain j (by rw [hlF]; exact hj)
        rwa [heA j (by omega), heA (j + 1) (by omega)] at this
      · intro h
        have := c.first_eq (by rw [hlF]; omega)
        rwa [heA 0 (by omega)] at this
      · intro h
        have := c.last_eq (by rw [hlF]; omega)
        rw [hlF, hlA] at this
        rwa [heA (oF - 1) (by omega)] at this
    · have c := hWFp.tChain
      refine ⟨?_, ?_, ?_, ?_, ?_, ?_⟩
      · intro j hj
        have := c.lo_nonneg j (by rw [hlF]; exact hj)
        rwa [heT j hj] at this
      · intro j hj
        have := c.lo_le_hi j (by rw [hlF]; exact hj)
        rwa [heT j hj] at this
      · intro j hj
        have := c.hi_le j (by rw [hlF]; exact hj)
        rw [heT j hj, hlT] at this
        exact this
      · intro j hj
        have := c.chain j (by rw [hlF]; exact hj)
        rwa [heT j (by omega), heT (j + 1) (by omega)] at this
      · intro h
        have := c.first_eq (by rw [hlF]; omega)
        rwa [heT 0 (by omega)] at this
      · intro h
        have := c.last_eq (by rw [hlF]; omega)
        rw [hlF, hlT] at this
        rwa [heT (oF - 1) (by omega)] at this

/-- Splicing the copied scene block after the prior scene chain keeps a
contiguous chain: the old region is untouched, the junction matches because
the prior chain ends at the frame write offset and the rebased first copied
scene starts there, and the new region inherits the source chain shifted by
the frame delta. -/
theorem splice_sChain (z out dst : ChunkedDataset) (hWF : WellFormed z)
    (s n oS oF : Nat) (dF : Int) (hn : 0 < n) (hrange : s + n ≤ z.scenes.length)
    (hdF : dF = (oF : Int) - (sFii z s).1)
    (h00 : oS = 0 → oF = 0)
    (pC : ChainSpec (fun i => (dst.scenes.getD i dScene).frame_index_interval) oS (oF : Int))
    (pSt : ∀ i, i < oS → (dst.scenes.getD i dScene).frame_index_interval.1
        < (dst.scenes.getD i dScene).frame_index_interval.2)
    (hKeep : ∀ p, p < oS → out.scenes.getD p dScene = dst.scenes.getD p dScene)
    (hAt : ∀ k, k < n → out.scenes.getD (oS + k) dScene
        = rebaseScene dF (z.scenes.getD (s + k) dScene)) :
    ChainSpec (fun i => (out.scenes.getD i dScene).frame_index_interval) (oS + n)
      ((oF : Int) + cntFr z s n) ∧
    (∀ i, i < oS + n → (out.scenes.getD i dScene).frame_index_interval.1
        < (out.scenes.getD i dScene).frame_index_interval.2) := by
  have hne : n ≠ 0 := by omega
  have hcnt : cntFr z s n = (sFii z (s + n - 1)).2 - (sFii z s).1 := by
    simp only [cntFr, if_neg hne]
  have hlastS : s + n - 1 < z.scenes.length := by omega
  have hnn : 0 ≤ cntFr z s n := cntFr_nonneg z hWF s n hrange
  have hv : ∀ k, k < n → (out.scenes.getD (oS + k) dScene).frame_index_interval
      = ((sFii z (s + k)).1 + dF, (sFii z (s + k)).2 + dF) := by
    intro k hk
    rw [hAt k hk, rebaseScene_fii]
    rfl
  constructor
  · refine ⟨?_, ?_, ?_, ?_, ?_, ?_⟩
    · intro i hi
      show 0 ≤ (out.scenes.getD i dScene).frame_index_interval.1
      by_cases hio : i < oS
      · rw [hKeep i hio]
        exact pC.lo_nonneg i hio
      · obtain ⟨k, rfl⟩ : ∃ k, i = oS + k := ⟨i - oS, by omega⟩
        rw [hv k (by omega)]
        show 0 ≤ (sFii z (s + k)).1 + dF
        have hm := hWF.sChain.lo_mono (show s ≤ s + k by omega)
          (show s + k < z.scenes.length by omega)
        omega
    · intro i hi
      show (out.scenes.getD i dScene).frame_index_interval.1
        ≤ (out.scenes.getD i dScene).frame_index_interval.2
      by_cases hio : i < oS
      · rw [hKeep i hio]
        exact pC.lo_le_hi i hio
      · obtain ⟨k, rfl⟩ : ∃ k, i = oS + k := ⟨i - oS, by omega⟩
        rw [hv k (by omega)]
        show (sFii z (s + k)).1 + dF ≤ (sFii z (s + k)).2 + dF
        have := hWF.sChain.lo_le_hi (s + k) (by omega)
        omega
    · intro i hi
      show (out.scenes.getD i dScene).frame_index_interval.2 ≤ (oF : Int) + cntFr z s n
      by_cases hio : i < oS
      · rw [hKeep i hio]
        have := pC.hi_le i hio
        omega
      · obtain ⟨k, rfl⟩ : ∃ k, i = oS + k := ⟨i - oS, by omega⟩
        rw [hv k (by omega)]
        show (sFii z (s + k)).2 + dF ≤ (oF : Int) + cntFr z s n
        have := hWF.sChain.hi_mono (show s + k ≤ s + n - 1 by omega) hlastS
        omega
    · intro i hi
      show (out.scenes.getD i dScene).frame_index_interval.2
        = (out.scenes.getD (i + 1) dScene).frame_index_interval.1
      by_cases h1 : i + 1 < oS
      · rw [hKeep i (by omega), hKeep (i + 1) h1]
        exact pC.chain i h1
      · by_cases h2 : i + 1 = oS
        · have hoS : 0 < oS := by omega
          have hj0 : i = oS - 1 := by omega
          subst hj0
          rw [hKeep (oS - 1) (by omega)]
          have h5 := hv 0 hn
          simp only [Nat.add_zero] at h5
          rw [show oS - 1 + 1 = oS from by omega, h5]
          show (dst.scenes.getD (oS - 1) dScene).frame_index_interval.2
            = (sFii z (s + 0)).1 + dF
          have hl : (dst.scenes.getD (oS - 1) dScene).frame_index_interval.2 = (oF : Int) :=
            pC.last_eq hoS
          rw [show s + 0 = s from rfl]
          omega
        · obtain ⟨k, rfl⟩ : ∃ k, i = oS + k := ⟨i - oS, by omega⟩
          rw [hv k (by omega), show oS + k + 1 = oS + (k + 1) from by omega,
            hv (k + 1) (by omega)]
          show (sFii z (s + k)).2 + dF = (sFii z (s + (k + 1))).1 + dF
          have hch := hWF.sChain.chain (s + k) (by omega)
          rw [show s + (k + 1) = s + k + 1 from by omega]
          omega
    · intro h
      show (out.scenes.getD 0 dScene).frame_index_interval.1 = 0
      by_cases hoS : 0 < oS
      · rw [hKeep 0 hoS]
        exact pC.first_eq hoS
      · have h0 : oS = 0 := by omega
        have hF0 : oF = 0 := h00 h0
        have h5 := hv 0 hn
        simp only [Nat.add_zero] at h5
        rw [h0] at h5
        rw [h5]
        show (sFii z (s + 0)).1 + dF = 0
        rw [show s + 0 = s from rfl]
        omega
    · intro h
      show (out.scenes.getD (oS + n - 1) dScene).frame_index_interval.2
        = (oF : Int) + cntFr z s n
      have h5 := hv (n - 1) (by omega)
      rw [show oS + n - 1 = oS + (n - 1) from by omega, h5]
      show (sFii z (s + (n - 1))).2 + dF = (oF : Int) + cntFr z s n
      rw [show s + (n - 1) = s + n - 1 from by omega]
      omega
  · intro i hi
    show (out.scenes.getD i dScene).frame_index_interval.1
      < (out.scenes.getD i dScene).frame_index_interval.2
    by_cases hio : i < oS
    · rw [hKeep i hio]
      exact pSt i hio
    · obtain ⟨k, rfl⟩ : ∃ k, i = oS + k := ⟨i - oS, by omega⟩
      rw [hv k (by omega)]
      show (sFii z (s + k)).1 + dF < (sFii z (s + k)).2 + dF
      have := hWF.sStrict (s + k) (by omega)
      omega

/-- Splicing the copied frame block after the prior frame chain keeps a
contiguous child-interval chain (instantiated once with agent intervals and
once with tl-face intervals): the old region is untouched, the junction
matches because the prior chain ends at the child write offset and the rebased
first copied frame starts there, and the new region inherits the source chain
shifted by the child delta. -/
theorem splice_child_chain (z out dst : ChunkedDataset) (hWF : WellFormed z)
    (fget : Frame → Int × Int) (totalC : Int)
    (cC : ChainSpec (fun j => fget (z.frames.getD j dFrame)) z.frames.length totalC)
    (s n oF oA : Nat) (d dA dT : Int) (hn : 0 < n) (hrange : s + n ≤ z.scenes.length)
    (hreb : ∀ f, fget (rebaseFrame dA dT f) = ((fget f).1 + d, (fget f).2 + d))
    (hd : d = (oA : Int) - (fget (z.frames.getD (sFii z s).1.toNat dFrame)).1)
    (h00 : oF = 0 → oA = 0)
    (pC : ChainSpec (fun j => fget (dst.frames.getD j dFrame)) oF (oA : Int))
    (hKeep : ∀ p, p < oF → out.frames.getD p dFrame = dst.frames.getD p dFrame)
    (hAt : ∀ m, m < (cntFr z s n).toNat →
      out.frames.getD (oF + m) dFrame
        = rebaseFrame dA dT (z.frames.getD ((sFii z s).1.toNat + m) dFrame)) :
    ChainSpec (fun j => fget (out.frames.getD j dFrame)) (oF + (cntFr z s n).toNat)
      ((oA : Int) + ((fget (z.frames.getD ((sFii z (s + n - 1)).2 - 1).toNat dFrame)).2
        - (fget (z.frames.getD (sFii z s).1.toNat dFrame)).1)) := by
  have hne : n ≠ 0 := by omega
  have hsS : s < z.scenes.length := by omega
  have hlastS : s + n - 1 < z.scenes.length := by omega
  have hlo0 : 0 ≤ (sFii z s).1 := hWF.sChain.lo_nonneg s hsS
  have hcnt : cntFr z s n = (sFii z (s + n - 1)).2 - (sFii z s).1 := by
    simp only [cntFr, if_neg hne]
  have hcpos : 0 < cntFr z s n := by
    have h1 := hWF.sChain.lo_mono (show s ≤ s + n - 1 by omega) hlastS
    have h2 := hWF.sStrict (s + n - 1) hlastS
    omega
  have hhiF : (sFii z (s + n - 1)).2 ≤ (z.frames.length : Int) := hWF.sChain.hi_le _ hlastS
  have hfr : ∀ m, m < (cntFr z s n).toNat → (sFii z s).1.toNat + m < z.frames.length := by
    intro m hm
    omega
  have hbig : ((sFii z (s + n - 1)).2 - 1).toNat < z.frames.length := by omega
  have hbnd : (sFii z s).1.toNat + ((cntFr z s n).toNat - 1)
      = ((sFii z (s + n - 1)).2 - 1).toNat := by omega
  have hv : ∀ m, m < (cntFr z s n).toNat →
      fget (out.frames.getD (oF + m) dFrame)
        = ((fget (z.frames.getD ((sFii z s).1.toNat + m) dFrame)).1 + d,
           (fget (z.frames.getD ((sFii z s).1.toNat + m) dFrame)).2 + d) := by
    intro m hm
    rw [hAt m hm, hreb]
  have hCnn : 0 ≤ (fget (z.frames.getD ((sFii z (s + n - 1)).2 - 1).toNat dFrame)).2
      - (fget (z.frames.getD (sFii z s).1.toNat dFrame)).1 := by
    have h1 : (fget (z.frames.getD (sFii z s).1.toNat dFrame)).1
        ≤ (fget (z.frames.getD ((sFii z (s + n - 1)).2 - 1).toNat dFrame)).1 :=
      cC.lo_mono (by omega) hbig
    have h2 : (fget (z.frames.getD ((sFii z (s + n - 1)).2 - 1).toNat dFrame)).1
        ≤ (fget (z.frames.getD ((sFii z (s + n - 1)).2 - 1).toNat dFrame)).2 :=
      cC.lo_le_hi _ hbig
    omega
  refine ⟨?_, ?_, ?_, ?_, ?_, ?_⟩
  · intro j hj
    show 0 ≤ (fget (out.frames.getD j dFrame)).1
    by_cases hjo : j < oF
    · rw [hKeep j hjo]
      exact pC.lo_nonneg j hjo
    · obtain ⟨m, rfl⟩ : ∃ m, j = oF + m := ⟨j - oF, by omega⟩
      rw [hv m (by omega)]
      show 0 ≤ (fget (z.frames.getD ((sFii z s).1.toNat + m) dFrame)).1 + d
      have hmono : (fget (z.frames.getD (sFii z s).1.toNat dFrame)).1
          ≤ (fget (z.frames.getD ((sFii z s).1.toNat + m) dFrame)).1 :=
        cC.lo_mono (by omega) (hfr m (by omega))
      omega
  · intro j hj
    show (fget (out.frames.getD j dFrame)).1 ≤ (fget (out.frames.getD j dFrame)).2
    by_cases hjo : j < oF
    · rw [hKeep j hjo]
      exact pC.lo_le_hi j hjo
    · obtain ⟨m, rfl⟩ : ∃ m, j = oF + m := ⟨j - oF, by omega⟩
      rw [hv m (by omega)]
      show (fget (z.frames.getD ((sFii z s).1.toNat + m) dFrame)).1 + d
        ≤ (fget (z.frames.getD ((sFii z s).1.toNat + m) dFrame)).2 + d
      have := cC.lo_le_hi ((sFii z s).1.toNat + m) (hfr m (by omega))
      omega
  · intro j hj
    show (fget (out.frames.getD j dFrame)).2
      ≤ (oA : Int) + ((fget (z.frames.getD ((sFii z (s + n - 1)).2 - 1).toNat dFrame)).2
        - (fget (z.frames.getD (sFii z s).1.toNat dFrame)).1)
    by_cases hjo : j < oF
    · rw [hKeep j hjo]
      have := pC.hi_le j hjo
      omega
    · obtain ⟨m, rfl⟩ : ∃ m, j = oF + m := ⟨j - oF, by omega⟩
      rw [hv m (by omega)]
      show (fget (z.frames.getD ((sFii z s).1.toNat + m) dFrame)).2 + d
        ≤ (oA : Int) + ((fget (z.frames.getD ((sFii z (s + n - 1)).2 - 1).toNat dFrame)).2
          - (fget (z.frames.getD (sFii z s).1.toNat dFrame)).1)
      have hmono : (fget (z.frames.getD ((sFii z s).1.toNat + m) dFrame)).2
          ≤ (fget (z.frames.getD ((sFii z (s + n - 1)).2 - 1).toNat dFrame)).2 :=
        cC.hi_mono (by omega) hbig
      omega
  · intro j hj
    show (fget (out.frames.getD j dFrame)).2 = (fget (out.frames.getD (j + 1) dFrame)).1
    by_cases h1 : j + 1 < oF
    · rw [hKeep j (by omega), hKeep (j + 1) h1]
      exact pC.chain j h1
    · by_cases h2 : j + 1 = oF
      · have hoF : 0 < oF := by omega
        have hj0 : j = oF - 1 := by omega
        subst hj0
        rw [hKeep (oF - 1) (by omega)]
        have h5 := hv 0 (by omega)
        simp only [Nat.add_zero] at h5
        rw [show oF - 1 + 1 = oF from by omega, h5]
        show (fget (dst.frames.getD (oF - 1) dFrame)).2
          = (fget (z.frames.getD (sFii z s).1.toNat dFrame)).1 + d
        have hl : (fget (dst.frames.getD (oF - 1) dFrame)).2 = (oA : Int) :=
          pC.last_eq hoF
        omega
      · obtain ⟨m, rfl⟩ : ∃ m, j = oF + m := ⟨j - oF, by omega⟩
        rw [hv m (by omega), show oF + m + 1 = oF + (m + 1) from by omega,
          hv (m + 1) (by omega)]
        show (fget (z.frames.getD ((sFii z s).1.toNat + m) dFrame)).2 + d
          = (fget (z.frames.getD ((sFii z s).1.toNat + (m + 1)) dFrame)).1 + d
        have hch := cC.chain ((sFii z s).1.toNat + m)
          (show (sFii z s).1.toNat + m + 1 < z.frames.length by omega)
        rw [show (sFii z s).1.toNat + (m + 1) = (sFii z s).1.toNat + m + 1 from by omega]
        omega
  · intro h
    show (fget (out.frames.getD 0 dFrame)).1 = 0
    by_cases hoF : 0 < oF
    · rw [hKeep 0 hoF]
      exact pC.first_eq hoF
    · have h0 : oF = 0 := by omega
      have hA0 : oA = 0 := h00 h0
      have h5 := hv 0 (by omega)
      simp only [Nat.add_zero] at h5
      rw [h0] at h5
      rw [h5]
      show (fget (z.frames.getD (sFii z s).1.toNat dFrame)).1 + d = 0
      omega
  · intro h
    show (fget (out.frames.getD (oF + (cntFr z s n).toNat - 1) dFrame)).2
      = (oA : Int) + ((fget (z.frames.getD ((sFii z (s + n - 1)).2 - 1).toNat dFrame)).2
        - (fget (z.frames.getD (sFii z s).1.toNat dFrame)).1)
    have h5 := hv ((cntFr z s n).toNat - 1) (by omega)
    rw [show oF + (cntFr z s n).toNat - 1 = oF + ((cntFr z s n).toNat - 1) from by omega, h5]
    show (fget (z.frames.getD ((sFii z s).1.toNat + ((cntFr z s n).toNat - 1)) dFrame)).2 + d
      = (oA : Int) + ((fget (z.frames.getD ((sFii z (s + n - 1)).2 - 1).toNat dFrame)).2
        - (fget (z.frames.getD (sFii z s).1.toNat dFrame)).1)
    rw [hbnd]
    omega

/-- Packaging per-level chains over the raw sequences into `WellFormed` of the
truncation to the filled prefixes. -/
theorem wf_of_chains (w : ChunkedDataset) (nS nF nA nT : Nat)
    (hS : nS ≤ w.scenes.length) (hF : nF ≤ w.frames.length) (hA : nA ≤ w.agents.length)
    (hT : nT ≤ w.tl_faces.length) (hpos : 0 < nS)
    (c1 : ChainSpec (fun i => (w.scenes.getD i dScene).frame_index_interval) nS (nF : Int))
    (hst : ∀ i, i < nS → (w.scenes.getD i dScene).frame_index_interval.1
        < (w.scenes.getD i dScene).frame_index_interval.2)
    (c2 : ChainSpec (fun j => (w.frames.getD j dFrame).agent_index_interval) nF (nA : Int))
    (c3 : ChainSpec (fun j => (w.frames.getD j dFrame).traffic_light_faces_index_interval)
      nF (nT : Int)) :
    WellFormed (takeData w nS nF nA nT) := by
  have hlS : (takeData w nS nF nA nT).scenes.length = nS := length_take_of_le _ _ hS
  have hlF : (takeData w nS nF nA nT).frames.length = nF := length_take_of_le _ _ hF
  have hlA : (takeData w nS nF nA nT).agents.length = nA := length_take_of_le _ _ hA
  have hlT : (takeData w nS nF nA nT).tl_faces.length = nT := length_take_of_le _ _ hT
  have heS : ∀ i, i < nS → sFii (takeData w nS nF nA nT) i
      = (w.scenes.getD i dScene).frame_index_interval := by
    intro i hi
    show ((w.scenes.take nS).getD i dScene).frame_index_interval = _
    rw [getD_take_lt _ _ _ _ hi]
  have heA : ∀ j, j < nF → fAii (takeData w nS nF nA nT) j
      = (w.frames.getD j dFrame).agent_index_interval := by
    intro j hj
    show ((w.frames.take nF).getD j dFrame).agent_index_interval = _
    rw [getD_take_lt _ _ _ _ hj]
  have heT : ∀ j, j < nF → fTii (takeData w nS nF nA nT) j
      = (w.frames.getD j dFrame).traffic_light_faces_index_interval := by
    intro j hj
    show ((w.frames.take nF).getD j dFrame).traffic_light_faces_index_interval = _
    rw [getD_take_lt _ _ _ _ hj]
  refine ⟨by rw [hlS]; exact hpos, ?_, ?_, ?_, ?_⟩
  · refine ⟨?_, ?_, ?_, ?_, ?_, ?_⟩
    · intro i hi
      rw [hlS] at hi
      rw [heS i hi]
      exact c1.lo_nonneg i hi
    · intro i hi
      rw [hlS] at hi
      rw [heS i hi]
      exact c1.lo_le_hi i hi
    · intro i hi
      rw [hlS] at hi
      rw [heS i hi, hlF]
      exact c1.hi_le i hi
    · intro i hi
      rw [hlS] at hi
      rw [heS i (by omega), heS (i + 1) hi]
      exact c1.chain i hi
    · intro h
      rw [hlS] at h
      rw [heS 0 h]
      exact c1.first_eq h
    · intro h
      rw [hlS] at h
      rw [hlS, hlF, heS (nS - 1) (by omega)]
      exact c1.last_eq h
  · intro i hi
    rw [hlS] at hi
    rw [heS i hi]
    exact hst i hi
  · refine ⟨?_, ?_, ?_, ?_, ?_, ?_⟩
    · intro j hj
      rw [hlF] at hj
      rw [heA j hj]
      exact c2.lo_nonneg j hj
    · intro j hj
      rw [hlF] at hj
      rw [heA j hj]
      exact c2.lo_le_hi j hj
    · intro j hj
      rw [hlF] at hj
      rw [heA j hj, hlA]
      exact c2.hi_le j hj
    · intro j hj
      rw [hlF] at hj
      rw [heA j (by omega), heA (j + 1) hj]
      exact c2.chain j hj
    · intro h
      rw [hlF] at h
      rw [heA 0 h]
      exact c2.first_eq h
    · intro h
      rw [hlF] at h
      rw [hlF, hlA, heA (nF - 1) (by omega)]
      exact c2.last_eq h
  · refine ⟨?_, ?_, ?_, ?_, ?_, ?_⟩
    · intro j hj
      rw [hlF] at hj
      rw [heT j hj]
      exact c3.lo_nonneg j hj
    · intro j hj
      rw [hlF] at hj
      rw [heT j hj]
      exact c3.lo_le_hi j hj
    · intro j hj
      rw [hlF] at hj
      rw [heT j hj, hlT]
      exact c3.hi_le j hj
    · intro j hj
      rw [hlF] at hj
      rw [heT j (by omega), heT (j + 1) hj]
      exact c3.chain j hj
    · intro h
      rw [hlF] at h
      rw [heT 0 h]
      exact c3.first_eq h
    · intro h
      rw [hlF] at h
      rw [hlF, hlT, heT (nF - 1) (by omega)]
      exact c3.last_eq h

/-- Claim C2 — Subset Copier invariant preservation: on a well-formed source,
a valid scene range, and a destination with enough pre-allocated capacity
whose prior contents end exactly at the write offsets (nothing written yet, or
a well-formed filled prefix), `_append_zarr_subset` succeeds and the filled
prefix of the destination again satisfies all §3 invariants: every scene's
frame interval is a valid half-open slice of the destination frame prefix and
consecutive parents' child intervals are contiguous at every level, with no
gaps or overlaps. -/
theorem claim_C2_invariant_preservation (z dst : ChunkedDataset) (s e : Nat) (els : NumEls)
    (hWF : WellFormed z) (hse : s < e) (heS : e ≤ z.scenes.length)
    (h0S : 0 ≤ els.num_scenes) (h0F : 0 ≤ els.num_frames)
    (h0A : 0 ≤ els.num_agents) (h0T : 0 ≤ els.num_tl_faces)
    (hcS : els.num_scenes.toNat + (e - s) ≤ dst.scenes.length)
    (hcF : els.num_frames.toNat + (cntFr z s (e - s)).toNat ≤ dst.frames.length)
    (hcA : els.num_agents.toNat + (cntAg z s (e - s)).toNat ≤ dst.agents.length)
    (hcT : els.num_tl_faces.toNat + (cntTl z s (e - s)).toNat ≤ dst.tl_faces.length)
    (hprior : PriorOK dst els.num_scenes.toNat els.num_frames.toNat
      els.num_agents.toNat els.num_tl_faces.toNat) :
    ∃ out, append_zarr_subset z dst (s : Int) (e : Int) (some els) = some out ∧
      WellFormed (takeData out (els.num_scenes.toNat + (e - s))
        (els.num_frames.toNat + (cntFr z s (e - s)).toNat)
        (els.num_agents.toNat + (cntAg z s (e - s)).toNat)
        (els.num_tl_faces.toNat + (cntTl z s (e - s)).toNat)) := by
  obtain ⟨st', hrun, happ, hout⟩ :=
    append_zarr_subset_spec z dst hWF s e hse heS els h0S h0F h0A h0T hcS hcF hcA hcT
  have hne : e - s ≠ 0 := by omega
  have hn : 0 < e - s := by omega
  have hrange : s + (e - s) ≤ z.scenes.length := by omega
  have hsS : s < z.scenes.length := by omega
  have hlo0 : 0 ≤ (sFii z s).1 := hWF.sChain.lo_nonneg s hsS
  have hcnn : 0 ≤ cntFr z s (e - s) := cntFr_nonneg z hWF s (e - s) hrange
  have hcannA : 0 ≤ cntAg z s (e - s) := cntAg_nonneg z hWF s (e - s) hrange
  have hcannT : 0 ≤ cntTl z s (e - s) := cntTl_nonneg z hWF s (e - s) hrange
  have hKeepS : ∀ p, p < els.num_scenes.toNat →
      st'.out.scenes.getD p dScene = dst.scenes.getD p dScene :=
    fun p hp => hout.keepS p (Or.inl hp)
  have hAtS : ∀ k, k < e - s → st'.out.scenes.getD (els.num_scenes.toNat + k) dScene
      = rebaseScene (els.num_frames - (sFii z s).1) (z.scenes.getD (s + k) dScene) :=
    fun k hk => hout.sceneAt k hk
  have hKeepF : ∀ p, p < els.num_frames.toNat →
      st'.out.frames.getD p dFrame = dst.frames.getD p dFrame :=
    fun p hp => hout.keepF p (Or.inl hp)
  have hAtF : ∀ m, m < (cntFr z s (e - s)).toNat →
      st'.out.frames.getD (els.num_frames.toNat + m) dFrame
        = rebaseFrame (els.num_agents - (fAii z (sFii z s).1.toNat).1)
            (els.num_tl_faces - (fTii z (sFii z s).1.toNat).1)
            (z.frames.getD ((sFii z s).1.toNat + m) dFrame) := by
    intro m hm
    have h1 : (sFii z s).1 ≤ (((sFii z s).1.toNat + m : Nat) : Int) := by omega
    have h2 : (((sFii z s).1.toNat + m : Nat) : Int) < (sFii z s).1 + cntFr z s (e - s) := by
      omega
    have h3 := hout.frameAt ((sFii z s).1.toNat + m) h1 h2
    have hidx : ((els.num_frames - (sFii z s).1)
        + (((sFii z s).1.toNat + m : Nat) : Int)).toNat = els.num_frames.toNat + m := by
      omega
    rw [hidx] at h3
    exact h3
  obtain ⟨pS, pSt, pA, pT, h00S, h00A, h00T⟩ := priorOK_chains dst
    els.num_scenes.toNat els.num_frames.toNat els.num_agents.toNat els.num_tl_faces.toNat
    (by omega) (by omega) (by omega) (by omega) hprior
  obtain ⟨cS, cSt⟩ := splice_sChain z st'.out dst hWF s (e - s)
    els.num_scenes.toNat els.num_frames.toNat (els.num_frames - (sFii z s).1)
    hn hrange (by rw [Int.toNat_of_nonneg h0F]) h00S pS pSt hKeepS hAtS
  have cA := splice_child_chain z st'.out dst hWF (fun f => f.agent_index_interval)
    ((z.agents.length : Int)) hWF.aChain s (e - s)
    els.num_frames.toNat els.num_agents.toNat
    (els.num_agents - (fAii z (sFii z s).1.toNat).1)
    (els.num_agents - (fAii z (sFii z s).1.toNat).1)
    (els.num_tl_faces - (fTii z (sFii z s).1.toNat).1)
    hn hrange (fun f => rfl) (by rw [Int.toNat_of_nonneg h0A]; rfl) h00A pA hKeepF hAtF
  have cT := splice_child_chain z st'.out dst hWF
    (fun f => f.traffic_light_faces_index_interval)
    ((z.tl_faces.length : Int)) hWF.tChain s (e - s)
    els.num_frames.toNat els.num_tl_faces.toNat
    (els.num_tl_faces - (fTii z (sFii z s).1.toNat).1)
    (els.num_agents - (fAii z (sFii z s).1.toNat).1)
    (els.num_tl_faces - (fTii z (sFii z s).1.toNat).1)
    hn hrange (fun f => rfl) (by rw [Int.toNat_of_nonneg h0T]; rfl) h00T pT hKeepF hAtF
  have hlenS : st'.out.scenes.length = dst.scenes.length := hout.lenS
  have hlenF : st'.out.frames.length = dst.frames.length := hout.lenF
  have hlenA : st'.out.agents.length = dst.agents.length := hout.lenA
  have hlenT : st'.out.tl_faces.length = dst.tl_faces.length := hout.lenT
  have heqF : ((els.num_frames.toNat + (cntFr z s (e - s)).toNat : Nat) : Int)
      = (els.num_frames.toNat : Int) + cntFr z s (e - s) := by omega
  have cS' : ChainSpec (fun i => (st'.out.scenes.getD i dScene).frame_index_interval)
      (els.num_scenes.toNat + (e - s))
      ((els.num_frames.toNat + (cntFr z s (e - s)).toNat : Nat) : Int) := by
    rw [heqF]
    exact cS
  have hcntA : cntAg z s (e - s)
      = ((z.frames.getD ((sFii z (s + (e - s) - 1)).2 - 1).toNat dFrame).agent_index_interval.2
        - (z.frames.getD (sFii z s).1.toNat dFrame).agent_index_interval.1) := by
    simp only [cntAg, if_neg hne]
    rfl
  have heqA : ((els.num_agents.toNat + (cntAg z s (e - s)).toNat : Nat) : Int)
      = (els.num_agents.toNat : Int)
        + ((z.frames.getD ((sFii z (s + (e - s) - 1)).2 - 1).toNat dFrame).agent_index_interval.2
          - (z.frames.getD (sFii z s).1.toNat dFrame).agent_index_interval.1) := by
    rw [← hcntA]
    omega
  have cA' : ChainSpec (fun j => (st'.out.frames.getD j dFrame).agent_index_interval)
      (els.num_frames.toNat + (cntFr z s (e - s)).toNat)
      ((els.num_agents.toNat + (cntAg z s (e - s)).toNat : Nat) : Int) := by
    rw [heqA]
    exact cA
  have hcntT : cntTl z s (e - s)
      = ((z.frames.getD ((sFii z (s + (e - s) - 1)).2 - 1).toNat
            dFrame).traffic_light_faces_index_interval.2
        - (z.frames.getD (sFii z s).1.toNat dFrame).traffic_light_faces_index_interval.1) := by
    simp only [cntTl, if_neg hne]
    rfl
  have heqT : ((els.num_tl_faces.toNat + (cntTl z s (e - s)).toNat : Nat) : Int)
      = (els.num_tl_faces.toNat : Int)
        + ((z.frames.getD ((sFii z (s + (e - s) - 1)).2 - 1).toNat
            dFrame).traffic_light_faces_index_interval.2
          - (z.frames.getD (sFii z s).1.toNat dFrame).traffic_light_faces_index_interval.1) := by
    rw [← hcntT]
    omega
  have cT' : ChainSpec
      (fun j => (st'.out.frames.getD j dFrame).traffic_light_faces_index_interval)
      (els.num_frames.toNat + (cntFr z s (e - s)).toNat)
      ((els.num_tl_faces.toNat + (cntTl z s (e - s)).toNat : Nat) : Int) := by
    rw [heqT]
    exact cT
  refine ⟨st'.out, happ, ?_⟩
  refine wf_of_chains st'.out _ _ _ _ ?_ ?_ ?_ ?_ (by omega) cS' cSt cA' cT'
  · rw [hlenS]
    exact hcS
  · rw [hlenF]
    exact hcF
  · rw [hlenA]
    exact hcA
  · rw [hlenT]
    exact hcT

/-- Witness for C2: copying both sample scenes into an exactly-sized fresh
destination at zero offsets yields a fully well-formed filled prefix. -/
theorem claim_C2_witness :
    WellFormed sampleZ ∧ 0 < 2 ∧ 2 ≤ sampleZ.scenes.length ∧
    PriorOK (preallocate 2 3 2 1) zeroEls.num_scenes.toNat zeroEls.num_frames.toNat
      zeroEls.num_agents.toNat zeroEls.num_tl_faces.toNat ∧
    (∃ out, append_zarr_subset sampleZ (preallocate 2 3 2 1) ((0 : Nat) : Int)
        ((2 : Nat) : Int) (some zeroEls) = some out ∧
      WellFormed (takeData out (zeroEls.num_scenes.toNat + (2 - 0))
        (zeroEls.num_frames.toNat + (cntFr sampleZ 0 (2 - 0)).toNat)
        (zeroEls.num_agents.toNat + (cntAg sampleZ 0 (2 - 0)).toNat)
        (zeroEls.num_tl_faces.toNat + (cntTl sampleZ 0 (2 - 0)).toNat))) :=
  ⟨sampleZ_wf, by decide, by decide, Or.inl (by decide),
    claim_C2_invariant_preservation sampleZ (preallocate 2 3 2 1) 0 2 zeroEls sampleZ_wf
      (by decide) (by decide) (by decide) (by decide) (by decide) (by decide)
      (by decide) (by decide) (by decide) (by decide) (Or.inl (by decide))⟩

end L5
